import Mathlib

/-!
# Evidence custody chaincode

A shallow embedding of `chaincode/public/chaincode.go` (a Hyperledger Fabric
chaincode keeping evidence records and their custody log) and the properties
of its operations.

A Go string is a Lean string, that is, valid UTF-8 text; `len` of a Go string
is its UTF-8 byte size.  On such text `json.Marshal` followed by
`json.Unmarshal` gives back the value, so the bytes kept on the ledger are
represented by the `Evidence` value they decode to (`Bytes.json`), or marked as
undecodable (`Bytes.invalid`).  The arguments of a call are such text.  The
creator of a transaction is not: `string(creator)` is the serialized identity of
the caller, which the chaincode hands to `json.Marshal` and to nothing else;
`json.Marshal` replaces every invalid byte by U+FFFD, and the stub holds the
creator in that form (`jsonText`, `peerStub`).  The organization of the caller
is a field of that identity; `shim.GetMSPID` answers the MSP id of the
executing peer instead.
The ledger world state is a finite key/value list kept in key order; the calls
of the Fabric shim (`GetState`, `PutState`, `SetEvent`, `GetCreator`,
`GetMSPID`, `GetTxID`, `GetStateByPartialCompositeKey`) and `time.Now` are
answered by an explicit `Stub` value, which also says whether one of them
fails.  Every chaincode function takes the stub and the world state and gives
back the response, the world state after the call and the chaincode event set.
-/

namespace EvidenceChaincode

/-! ## Data model -/

/-- Go: `type EvidenceStatus string`. -/
abbrev EvidenceStatus := String

def StatusActive : EvidenceStatus := "ACTIVE"
def StatusArchived : EvidenceStatus := "ARCHIVED"
def StatusReactivated : EvidenceStatus := "REACTIVATED"
def StatusInvalidated : EvidenceStatus := "INVALIDATED"

/-- Go: `type CustodyEvent struct`. -/
structure CustodyEvent where
  Timestamp : String
  EventType : String
  Actor : String
  OrgMSP : String
  Description : String
  TxID : String
deriving DecidableEq, Repr

/-- Go: `type Evidence struct`. -/
structure Evidence where
  CaseID : String
  EvidenceID : String
  CID : String
  Hash : String
  Metadata : String
  Status : EvidenceStatus
  Events : List CustodyEvent
  CreatedAt : String
  UpdatedAt : String
  CurrentOwner : String
  OwnerOrgMSP : String
deriving DecidableEq, Repr

/-- A byte string as `encoding/json` reads it into an `Evidence`: either bytes
that `json.Unmarshal` decodes to the value `e` (the output of `json.Marshal`
on `e` is of this kind), or bytes that `json.Unmarshal` rejects. -/
inductive Bytes where
  | json (e : Evidence)
  | invalid (raw : String)
deriving DecidableEq, Repr

/-- Go: `json.Marshal(evidence)`; it has no error case for a struct of strings
and a slice of structs of strings.  The strings of the record are valid UTF-8
text, which `json.Marshal` and `json.Unmarshal` give back unchanged; the creator
enters the record as `jsonText` renders it. -/
def jsonMarshal (e : Evidence) : Bytes := Bytes.json e

/-- Go: `json.Unmarshal(evidenceBytes, &evidence)` on a zero `Evidence`. -/
def jsonUnmarshal : Bytes → Except String Evidence
  | Bytes.json e => Except.ok e
  | Bytes.invalid _ => Except.error "invalid character looking for beginning of value"

/-- What a response carries: the bytes of one record, the marshalled custody
events (`json.Marshal(evidence.Events)`) or the marshalled record list
(`json.Marshal(evidenceList)`). -/
inductive Payload where
  | evidence (b : Bytes)
  | events (es : List CustodyEvent)
  | evidenceList (l : List Evidence)
deriving DecidableEq, Repr

/-- Fabric: `peer.Response`. -/
structure Response where
  Status : Nat
  Message : String
  Payload : Option Payload
deriving DecidableEq, Repr

/-- Fabric: `shim.Success(payload)`, status `OK = 200`. -/
def shimSuccess (payload : Payload) : Response := ⟨200, "", some payload⟩

/-- Fabric: `shim.Error(msg)`, status `ERROR = 500`. -/
def shimError (msg : String) : Response := ⟨500, msg, none⟩

/-! ## Ledger world state -/

/-- The world state of the chaincode namespace: keys and values, in key order. -/
abbrev State := List (String × Bytes)

/-- The order of ledger keys: bytewise lexicographic, which on UTF-8 text is the
lexicographic order of the code points. -/
def bytesLt : List Char → List Char → Bool
  | [], [] => false
  | [], _ :: _ => true
  | _ :: _, [] => false
  | a :: as, b :: bs =>
    if a.toNat < b.toNat then true
    else if b.toNat < a.toNat then false
    else bytesLt as bs

def keyLt (a b : String) : Bool := bytesLt a.data b.data

/-- The value committed under `key`, if any. -/
def lookupKey (key : String) : State → Option Bytes
  | [] => none
  | (k, v) :: rest => if k = key then some v else lookupKey key rest

/-- The world state with `key` set to `value`. -/
def insertKey (key : String) (value : Bytes) : State → State
  | [] => [(key, value)]
  | (k, v) :: rest =>
    if k = key then (key, value) :: rest
    else if keyLt key k then (key, value) :: (k, v) :: rest
    else (k, v) :: insertKey key value rest

/-- The key/value pairs with `startKey ≤ key < endKey`, in ledger order. -/
def rangeKeys (startKey endKey : String) (st : State) : State :=
  st.filter (fun kv => !(keyLt kv.1 startKey) && keyLt kv.1 endKey)

/-! ## The chaincode stub -/

/-- What the Fabric shim answers during one transaction. -/
structure Stub where
  /-- Go: `stub.GetCreator()`, converted with `string(creator)` and in the form
  in which `json.Marshal` writes that string (`jsonText`). -/
  Creator : Except String String
  /-- Go: `shim.GetMSPID()`, the local MSP id of the executing peer
  (`CORE_PEER_LOCALMSPID`). -/
  MSPID : Except String String
  /-- Go: `stub.GetTxID()`. -/
  TxID : String
  /-- Go: `time.Now().UTC().Format(time.RFC3339)`. -/
  Now : String
  /-- the error of `stub.GetState`, when it fails. -/
  GetStateErr : Option String
  /-- the error of `stub.PutState`, when it fails. -/
  PutStateErr : Option String
  /-- the error of `stub.SetEvent`, when it fails. -/
  SetEventErr : Option String
  /-- the error of the range query behind `GetStateByPartialCompositeKey`. -/
  RangeErr : Option String
  /-- the index and error of the call of `iterator.Next()` that fails. -/
  NextErr : Option (Nat × String)

/-- Go: `stub.GetState(key)`; `nil` bytes for a key without value. -/
def GetState (stub : Stub) (st : State) (key : String) : Except String (Option Bytes) :=
  match stub.GetStateErr with
  | some err => Except.error err
  | none => Except.ok (lookupKey key st)

/-- Go: `stub.PutState(key, value)`; the shim refuses the empty key. -/
def PutState (stub : Stub) (st : State) (key : String) (value : Bytes) : Except String State :=
  if key = "" then Except.error "key must not be an empty string"
  else match stub.PutStateErr with
    | some err => Except.error err
    | none => Except.ok (insertKey key value st)

/-- Go: `stub.SetEvent(name, payload)`; the shim refuses the empty name. -/
def SetEvent (stub : Stub) (name : String) (payload : Bytes) : Except String (String × Bytes) :=
  if name = "" then Except.error "event name can not be empty string"
  else match stub.SetEventErr with
    | some err => Except.error err
    | none => Except.ok (name, payload)

/-- Go: `(c *EvidenceChaincode) getMSPID(stub)`; it reads neither the stub nor
the creator, the MSP id is the answer of `shim.GetMSPID()`. -/
def getMSPID (stub : Stub) : Except String String :=
  match stub.MSPID with
  | Except.error err => Except.error ("failed to get MSP ID: " ++ err)
  | Except.ok mspID => Except.ok mspID

/-- Fabric shim: `validateCompositeKeyAttribute`; a Lean string is valid UTF-8,
so only the test for U+0000 and U+10FFFF is left (the message is shortened). -/
def validateCompositeKeyAttribute (str : String) : Except String Unit :=
  if str.data.any (fun c => c.toNat == 0 || c.toNat == 0x10FFFF) then
    Except.error "U+0000 and U+10FFFF are not allowed in the input attribute of a composite key"
  else Except.ok ()

/-- Fabric shim: `CreateCompositeKey`, namespace `"\x00"`, then the object type
and every attribute, each followed by U+0000. -/
def CreateCompositeKey (objectType : String) (attributes : List String) : Except String String :=
  match validateCompositeKeyAttribute objectType with
  | Except.error err => Except.error err
  | Except.ok _ =>
    attributes.foldl
      (fun acc att =>
        match acc with
        | Except.error err => Except.error err
        | Except.ok ck =>
          match validateCompositeKeyAttribute att with
          | Except.error err => Except.error err
          | Except.ok _ => Except.ok (ck ++ att ++ "\x00"))
      (Except.ok ("\x00" ++ objectType ++ "\x00"))

/-- Fabric shim: `GetStateByPartialCompositeKey`, the range query from the
partial composite key to the same key followed by U+10FFFF. -/
def GetStateByPartialCompositeKey (stub : Stub) (st : State) (objectType : String)
    (attributes : List String) : Except String State :=
  match CreateCompositeKey objectType attributes with
  | Except.error err => Except.error err
  | Except.ok compositeKey =>
    match stub.RangeErr with
    | some err => Except.error err
    | none =>
      Except.ok (rangeKeys compositeKey
        (compositeKey ++ String.singleton (Char.ofNat 0x10FFFF)) st)

/-! ## Hexadecimal validation -/

/-- Go `encoding/hex`: the value of a hexadecimal digit.  A character outside
ASCII is encoded with bytes from 0x80 on, none of which is a digit. -/
def fromHexChar (c : Char) : Option Nat :=
  if '0'.toNat ≤ c.toNat ∧ c.toNat ≤ '9'.toNat then some (c.toNat - '0'.toNat)
  else if 'a'.toNat ≤ c.toNat ∧ c.toNat ≤ 'f'.toNat then some (c.toNat - 'a'.toNat + 10)
  else if 'A'.toNat ≤ c.toNat ∧ c.toNat ≤ 'F'.toNat then some (c.toNat - 'A'.toNat + 10)
  else none

/-- Go `encoding/hex`: `Decode`, two digits per byte;
`InvalidByteError` on a non-digit, `ErrLength` on an odd length. -/
def hexDecode : List Char → Except String (List Nat)
  | [] => Except.ok []
  | [p] =>
    match fromHexChar p with
    | none => Except.error "encoding/hex: invalid byte"
    | some _ => Except.error "encoding/hex: odd length hex string"
  | p :: q :: rest =>
    match fromHexChar p with
    | none => Except.error "encoding/hex: invalid byte"
    | some a =>
      match fromHexChar q with
      | none => Except.error "encoding/hex: invalid byte"
      | some b =>
        match hexDecode rest with
        | Except.error err => Except.error err
        | Except.ok bytes => Except.ok ((a * 16 + b) :: bytes)

/-- Go: `hex.DecodeString(s)`. -/
def hexDecodeString (s : String) : Except String (List Nat) := hexDecode s.data

/-- Go: `len(s)` of a string, its number of bytes. -/
def len (s : String) : Nat := s.utf8ByteSize

/-! ## Chaincode functions -/

/-- The outcome of one chaincode call: the response, the world state after the
call, and the chaincode event that was set. -/
structure Result where
  response : Response
  state : State
  event : Option (String × Bytes)

/-- Go: `CreateEvidence`, args `[caseID, evidenceID, cid, hash, metadata]`. -/
def CreateEvidence (stub : Stub) (st : State) (args : List String) : Result :=
  match args with
  | [caseID, evidenceID, cid, hash, metadata] =>
    if caseID = "" ∨ evidenceID = "" ∨ cid = "" ∨ hash = "" then
      ⟨shimError "caseID, evidenceID, cid, and hash cannot be empty", st, none⟩
    else if len hash ≠ 64 then
      ⟨shimError "Invalid hash format. Expected SHA-256 (64 hex characters)", st, none⟩
    else
      match hexDecodeString hash with
      | Except.error _ => ⟨shimError "Invalid hash format. Must be hexadecimal", st, none⟩
      | Except.ok _ =>
        let key := caseID ++ ":" ++ evidenceID
        match GetState stub st key with
        | Except.error err =>
          ⟨shimError ("Failed to check existing evidence: " ++ err), st, none⟩
        | Except.ok (some _) => ⟨shimError ("Evidence already exists: " ++ key), st, none⟩
        | Except.ok none =>
          match stub.Creator with
          | Except.error err => ⟨shimError ("Failed to get creator: " ++ err), st, none⟩
          | Except.ok creator =>
            match getMSPID stub with
            | Except.error err => ⟨shimError ("Failed to get MSP ID: " ++ err), st, none⟩
            | Except.ok mspID =>
              let txID := stub.TxID
              let timestamp := stub.Now
              let initialEvent : CustodyEvent :=
                { Timestamp := timestamp
                  EventType := "CREATE"
                  Actor := creator
                  OrgMSP := mspID
                  Description := "Evidence created and registered"
                  TxID := txID }
              let evidence : Evidence :=
                { CaseID := caseID
                  EvidenceID := evidenceID
                  CID := cid
                  Hash := hash
                  Metadata := metadata
                  Status := StatusActive
                  Events := [initialEvent]
                  CreatedAt := timestamp
                  UpdatedAt := timestamp
                  CurrentOwner := creator
                  OwnerOrgMSP := mspID }
              let evidenceJSON := jsonMarshal evidence
              match PutState stub st key evidenceJSON with
              | Except.error err =>
                ⟨shimError ("Failed to store evidence: " ++ err), st, none⟩
              | Except.ok st1 =>
                match SetEvent stub "EvidenceCreated" evidenceJSON with
                | Except.error err =>
                  ⟨shimError ("Failed to emit event: " ++ err), st1, none⟩
                | Except.ok ev => ⟨shimSuccess (Payload.evidence evidenceJSON), st1, some ev⟩
  | _ =>
    ⟨shimError "Incorrect number of arguments. Expecting: caseID, evidenceID, cid, hash, metadata",
      st, none⟩

/-- Go: `TransferCustody`, args `[caseID, evidenceID, newCustodian, transferReason]`. -/
def TransferCustody (stub : Stub) (st : State) (args : List String) : Result :=
  match args with
  | [caseID, evidenceID, newCustodian, transferReason] =>
    let key := caseID ++ ":" ++ evidenceID
    match GetState stub st key with
    | Except.error err => ⟨shimError ("Failed to get evidence: " ++ err), st, none⟩
    | Except.ok none => ⟨shimError ("Evidence not found: " ++ key), st, none⟩
    | Except.ok (some evidenceBytes) =>
      match jsonUnmarshal evidenceBytes with
      | Except.error err => ⟨shimError ("Failed to unmarshal evidence: " ++ err), st, none⟩
      | Except.ok evidence =>
        if evidence.Status ≠ StatusActive ∧ evidence.Status ≠ StatusReactivated then
          ⟨shimError ("Cannot transfer custody. Evidence status is: " ++ evidence.Status),
            st, none⟩
        else
          match getMSPID stub with
          | Except.error err => ⟨shimError ("Failed to get MSP ID: " ++ err), st, none⟩
          | Except.ok mspID =>
            match stub.Creator with
            | Except.error err => ⟨shimError ("Failed to get creator: " ++ err), st, none⟩
            | Except.ok creator =>
              let timestamp := stub.Now
              let txID := stub.TxID
              let transferEvent : CustodyEvent :=
                { Timestamp := timestamp
                  EventType := "TRANSFER"
                  Actor := creator
                  OrgMSP := mspID
                  Description :=
                    "Custody transferred to " ++ newCustodian ++ ". Reason: " ++ transferReason
                  TxID := txID }
              let evidence : Evidence :=
                { evidence with
                  CurrentOwner := newCustodian
                  OwnerOrgMSP := mspID
                  UpdatedAt := timestamp
                  Events := evidence.Events ++ [transferEvent] }
              let evidenceJSON := jsonMarshal evidence
              match PutState stub st key evidenceJSON with
              | Except.error err =>
                ⟨shimError ("Failed to update evidence: " ++ err), st, none⟩
              | Except.ok st1 =>
                match SetEvent stub "CustodyTransferred" evidenceJSON with
                | Except.error err =>
                  ⟨shimError ("Failed to emit event: " ++ err), st1, none⟩
                | Except.ok ev => ⟨shimSuccess (Payload.evidence evidenceJSON), st1, some ev⟩
  | _ =>
    ⟨shimError
      "Incorrect number of arguments. Expecting: caseID, evidenceID, newCustodian, transferReason",
      st, none⟩

/-- Go: `ArchiveToCold`, args `[caseID, evidenceID, archiveReason]`. -/
def ArchiveToCold (stub : Stub) (st : State) (args : List String) : Result :=
  match args with
  | [caseID, evidenceID, archiveReason] =>
    let key := caseID ++ ":" ++ evidenceID
    match GetState stub st key with
    | Except.error err => ⟨shimError ("Failed to get evidence: " ++ err), st, none⟩
    | Except.ok none => ⟨shimError ("Evidence not found: " ++ key), st, none⟩
    | Except.ok (some evidenceBytes) =>
      match jsonUnmarshal evidenceBytes with
      | Except.error err => ⟨shimError ("Failed to unmarshal evidence: " ++ err), st, none⟩
      | Except.ok evidence =>
        if evidence.Status ≠ StatusActive then
          ⟨shimError ("Cannot archive evidence. Current status: " ++ evidence.Status), st, none⟩
        else
          match getMSPID stub with
          | Except.error err => ⟨shimError ("Failed to get MSP ID: " ++ err), st, none⟩
          | Except.ok mspID =>
            match stub.Creator with
            | Except.error err => ⟨shimError ("Failed to get creator: " ++ err), st, none⟩
            | Except.ok creator =>
              let timestamp := stub.Now
              let txID := stub.TxID
              let archiveEvent : CustodyEvent :=
                { Timestamp := timestamp
                  EventType := "ARCHIVE"
                  Actor := creator
                  OrgMSP := mspID
                  Description := "Evidence archived to cold chain. Reason: " ++ archiveReason
                  TxID := txID }
              let evidence : Evidence :=
                { evidence with
                  Status := StatusArchived
                  UpdatedAt := timestamp
                  Events := evidence.Events ++ [archiveEvent] }
              let evidenceJSON := jsonMarshal evidence
              match PutState stub st key evidenceJSON with
              | Except.error err =>
                ⟨shimError ("Failed to update evidence: " ++ err), st, none⟩
              | Except.ok st1 =>
                match SetEvent stub "EvidenceArchived" evidenceJSON with
                | Except.error err =>
                  ⟨shimError ("Failed to emit event: " ++ err), st1, none⟩
                | Except.ok ev => ⟨shimSuccess (Payload.evidence evidenceJSON), st1, some ev⟩
  | _ =>
    ⟨shimError "Incorrect number of arguments. Expecting: caseID, evidenceID, archiveReason",
      st, none⟩

/-- Go: `ReactivateFromCold`, args `[caseID, evidenceID, reactivationReason]`. -/
def ReactivateFromCold (stub : Stub) (st : State) (args : List String) : Result :=
  match args with
  | [caseID, evidenceID, reactivationReason] =>
    let key := caseID ++ ":" ++ evidenceID
    match GetState stub st key with
    | Except.error err => ⟨shimError ("Failed to get evidence: " ++ err), st, none⟩
    | Except.ok none => ⟨shimError ("Evidence not found: " ++ key), st, none⟩
    | Except.ok (some evidenceBytes) =>
      match jsonUnmarshal evidenceBytes with
      | Except.error err => ⟨shimError ("Failed to unmarshal evidence: " ++ err), st, none⟩
      | Except.ok evidence =>
        if evidence.Status ≠ StatusArchived then
          ⟨shimError ("Cannot reactivate evidence. Current status: " ++ evidence.Status),
            st, none⟩
        else
          match getMSPID stub with
          | Except.error err => ⟨shimError ("Failed to get MSP ID: " ++ err), st, none⟩
          | Except.ok mspID =>
            match stub.Creator with
            | Except.error err => ⟨shimError ("Failed to get creator: " ++ err), st, none⟩
            | Except.ok creator =>
              let timestamp := stub.Now
              let txID := stub.TxID
              let reactivationEvent : CustodyEvent :=
                { Timestamp := timestamp
                  EventType := "REACTIVATE"
                  Actor := creator
                  OrgMSP := mspID
                  Description :=
                    "Evidence reactivated from cold chain. Reason: " ++ reactivationReason
                  TxID := txID }
              let evidence : Evidence :=
                { evidence with
                  Status := StatusReactivated
                  UpdatedAt := timestamp
                  Events := evidence.Events ++ [reactivationEvent] }
              let evidenceJSON := jsonMarshal evidence
              match PutState stub st key evidenceJSON with
              | Except.error err =>
                ⟨shimError ("Failed to update evidence: " ++ err), st, none⟩
              | Except.ok st1 =>
                match SetEvent stub "EvidenceReactivated" evidenceJSON with
                | Except.error err =>
                  ⟨shimError ("Failed to emit event: " ++ err), st1, none⟩
                | Except.ok ev => ⟨shimSuccess (Payload.evidence evidenceJSON), st1, some ev⟩
  | _ =>
    ⟨shimError "Incorrect number of arguments. Expecting: caseID, evidenceID, reactivationReason",
      st, none⟩

/-- Go: `InvalidateEvidence`, args `[caseID, evidenceID, reason, wrongTxID]`. -/
def InvalidateEvidence (stub : Stub) (st : State) (args : List String) : Result :=
  match args with
  | [caseID, evidenceID, reason, wrongTxID] =>
    let key := caseID ++ ":" ++ evidenceID
    match GetState stub st key with
    | Except.error err => ⟨shimError ("Failed to get evidence: " ++ err), st, none⟩
    | Except.ok none => ⟨shimError ("Evidence not found: " ++ key), st, none⟩
    | Except.ok (some evidenceBytes) =>
      match jsonUnmarshal evidenceBytes with
      | Except.error err => ⟨shimError ("Failed to unmarshal evidence: " ++ err), st, none⟩
      | Except.ok evidence =>
        match getMSPID stub with
        | Except.error err => ⟨shimError ("Failed to get MSP ID: " ++ err), st, none⟩
        | Except.ok mspID =>
          match stub.Creator with
          | Except.error err => ⟨shimError ("Failed to get creator: " ++ err), st, none⟩
          | Except.ok creator =>
            let timestamp := stub.Now
            let txID := stub.TxID
            let invalidationEvent : CustodyEvent :=
              { Timestamp := timestamp
                EventType := "INVALIDATE"
                Actor := creator
                OrgMSP := mspID
                Description :=
                  "Evidence invalidated. Reason: " ++ reason ++ ". Wrong TxID: " ++ wrongTxID
                TxID := txID }
            let evidence : Evidence :=
              { evidence with
                Status := StatusInvalidated
                UpdatedAt := timestamp
                Events := evidence.Events ++ [invalidationEvent] }
            let evidenceJSON := jsonMarshal evidence
            match PutState stub st key evidenceJSON with
            | Except.error err =>
              ⟨shimError ("Failed to update evidence: " ++ err), st, none⟩
            | Except.ok st1 =>
              match SetEvent stub "EvidenceInvalidated" evidenceJSON with
              | Except.error err =>
                ⟨shimError ("Failed to emit event: " ++ err), st1, none⟩
              | Except.ok ev => ⟨shimSuccess (Payload.evidence evidenceJSON), st1, some ev⟩
  | _ =>
    ⟨shimError "Incorrect number of arguments. Expecting: caseID, evidenceID, reason, wrongTxID",
      st, none⟩

/-- Go: `GetEvidenceSummary`, args `[caseID, evidenceID]`. -/
def GetEvidenceSummary (stub : Stub) (st : State) (args : List String) : Result :=
  match args with
  | [caseID, evidenceID] =>
    let key := caseID ++ ":" ++ evidenceID
    match GetState stub st key with
    | Except.error err => ⟨shimError ("Failed to get evidence: " ++ err), st, none⟩
    | Except.ok none => ⟨shimError ("Evidence not found: " ++ key), st, none⟩
    | Except.ok (some evidenceBytes) => ⟨shimSuccess (Payload.evidence evidenceBytes), st, none⟩
  | _ => ⟨shimError "Incorrect number of arguments. Expecting: caseID, evidenceID", st, none⟩

/-- The loop of `QueryEvidencesByCase` over the iterator: `i` counts the calls
of `iterator.Next()`, a value that does not unmarshal is skipped. -/
def collectEvidence (stub : Stub) : Nat → State → List Evidence → Except String (List Evidence)
  | _, [], evidenceList => Except.ok evidenceList
  | i, (_, value) :: rest, evidenceList =>
    match stub.NextErr with
    | some (j, err) =>
      if i = j then Except.error err
      else
        match jsonUnmarshal value with
        | Except.error _ => collectEvidence stub (i + 1) rest evidenceList
        | Except.ok evidence => collectEvidence stub (i + 1) rest (evidenceList ++ [evidence])
    | none =>
      match jsonUnmarshal value with
      | Except.error _ => collectEvidence stub (i + 1) rest evidenceList
      | Except.ok evidence => collectEvidence stub (i + 1) rest (evidenceList ++ [evidence])

/-- Go: `QueryEvidencesByCase`, args `[caseID]`. -/
def QueryEvidencesByCase (stub : Stub) (st : State) (args : List String) : Result :=
  match args with
  | [caseID] =>
    match GetStateByPartialCompositeKey stub st "" [caseID] with
    | Except.error err => ⟨shimError ("Failed to query evidence: " ++ err), st, none⟩
    | Except.ok iterator =>
      match collectEvidence stub 0 iterator [] with
      | Except.error err => ⟨shimError ("Iterator error: " ++ err), st, none⟩
      | Except.ok evidenceList => ⟨shimSuccess (Payload.evidenceList evidenceList), st, none⟩
  | _ => ⟨shimError "Incorrect number of arguments. Expecting: caseID", st, none⟩

/-- Go: `GetCustodyChain`, args `[caseID, evidenceID]`. -/
def GetCustodyChain (stub : Stub) (st : State) (args : List String) : Result :=
  match args with
  | [caseID, evidenceID] =>
    let key := caseID ++ ":" ++ evidenceID
    match GetState stub st key with
    | Except.error err => ⟨shimError ("Failed to get evidence: " ++ err), st, none⟩
    | Except.ok none => ⟨shimError ("Evidence not found: " ++ key), st, none⟩
    | Except.ok (some evidenceBytes) =>
      match jsonUnmarshal evidenceBytes with
      | Except.error err => ⟨shimError ("Failed to unmarshal evidence: " ++ err), st, none⟩
      | Except.ok evidence => ⟨shimSuccess (Payload.events evidence.Events), st, none⟩
  | _ => ⟨shimError "Incorrect number of arguments. Expecting: caseID, evidenceID", st, none⟩

/-- Go: `Invoke`, the dispatch on the function name. -/
def Invoke (stub : Stub) (st : State) (function : String) (args : List String) : Result :=
  if function = "CreateEvidence" then CreateEvidence stub st args
  else if function = "TransferCustody" then TransferCustody stub st args
  else if function = "ArchiveToCold" then ArchiveToCold stub st args
  else if function = "ReactivateFromCold" then ReactivateFromCold stub st args
  else if function = "InvalidateEvidence" then InvalidateEvidence stub st args
  else if function = "GetEvidenceSummary" then GetEvidenceSummary stub st args
  else if function = "QueryEvidencesByCase" then QueryEvidencesByCase stub st args
  else if function = "GetCustodyChain" then GetCustodyChain stub st args
  else ⟨shimError ("Invalid function name: " ++ function), st, none⟩

/-! ## ComputeHash

`ComputeHash` is `hex.EncodeToString` of `sha256.Sum256`.  Both come from the
Go standard library; SHA-256 is written out after `crypto/sha256`
(`blockGeneric` and `checkSum`), on bytes as natural numbers, every `uint32`
reduced modulo `2 ^ 32`. -/

/-- Go: `bits.RotateLeft32(x, -k)` on a `uint32`, the rotation to the right by
`k` bits. -/
def rotateRight32 (x k : Nat) : Nat := ((x >>> k) ||| (x <<< (32 - k))) % 2 ^ 32

/-- Go `crypto/sha256`: the round constants `_K`. -/
def sha256K : List Nat :=
  [0x428a2f98, 0x71374491, 0xb5c0fbcf, 0xe9b5dba5, 0x3956c25b, 0x59f111f1, 0x923f82a4, 0xab1c5ed5,
   0xd807aa98, 0x12835b01, 0x243185be, 0x550c7dc3, 0x72be5d74, 0x80deb1fe, 0x9bdc06a7, 0xc19bf174,
   0xe49b69c1, 0xefbe4786, 0x0fc19dc6, 0x240ca1cc, 0x2de92c6f, 0x4a7484aa, 0x5cb0a9dc, 0x76f988da,
   0x983e5152, 0xa831c66d, 0xb00327c8, 0xbf597fc7, 0xc6e00bf3, 0xd5a79147, 0x06ca6351, 0x14292967,
   0x27b70a85, 0x2e1b2138, 0x4d2c6dfc, 0x53380d13, 0x650a7354, 0x766a0abb, 0x81c2c92e, 0x92722c85,
   0xa2bfe8a1, 0xa81a664b, 0xc24b8b70, 0xc76c51a3, 0xd192e819, 0xd6990624, 0xf40e3585, 0x106aa070,
   0x19a4c116, 0x1e376c08, 0x2748774c, 0x34b0bcb5, 0x391c0cb3, 0x4ed8aa4a, 0x5b9cca4f, 0x682e6ff3,
   0x748f82ee, 0x78a5636f, 0x84c87814, 0x8cc70208, 0x90befffa, 0xa4506ceb, 0xbef9a3f7, 0xc67178f2]

/-- Go `crypto/sha256`: the chaining value `h [8]uint32` of a digest. -/
structure Sha256State where
  h0 : Nat
  h1 : Nat
  h2 : Nat
  h3 : Nat
  h4 : Nat
  h5 : Nat
  h6 : Nat
  h7 : Nat
deriving DecidableEq, Repr

/-- Go `crypto/sha256`: the initial chaining value (`init0` to `init7`). -/
def sha256Init : Sha256State :=
  ⟨0x6a09e667, 0xbb67ae85, 0x3c6ef372, 0xa54ff53a, 0x510e527f, 0x9b05688c, 0x1f83d9ab, 0x5be0cd19⟩

/-- The first sixteen words of the message schedule: the block read as
big-endian 32-bit words. -/
def scheduleWords : List Nat → List Nat
  | b0 :: b1 :: b2 :: b3 :: rest =>
    ((b0 % 256) <<< 24 ||| (b1 % 256) <<< 16 ||| (b2 % 256) <<< 8 ||| (b3 % 256)) ::
      scheduleWords rest
  | _ => []

/-- The words 16 to 63 of the message schedule, appended one by one. -/
def scheduleExtend : Nat → List Nat → List Nat
  | 0, w => w
  | n + 1, w =>
    let i := w.length
    let v1 := w.getD (i - 2) 0
    let t1 := rotateRight32 v1 17 ^^^ rotateRight32 v1 19 ^^^ (v1 >>> 10)
    let v2 := w.getD (i - 15) 0
    let t2 := rotateRight32 v2 7 ^^^ rotateRight32 v2 18 ^^^ (v2 >>> 3)
    scheduleExtend n (w ++ [(t1 + w.getD (i - 7) 0 + t2 + w.getD (i - 16) 0) % 2 ^ 32])

/-- One round of the compression, with the constant `k` and the schedule word `w`. -/
def sha256Round (s : Sha256State) (kw : Nat × Nat) : Sha256State :=
  let t1 := (s.h7 + (rotateRight32 s.h4 6 ^^^ rotateRight32 s.h4 11 ^^^ rotateRight32 s.h4 25) +
    ((s.h4 &&& s.h5) ^^^ ((s.h4 ^^^ 0xffffffff) &&& s.h6)) + kw.1 + kw.2) % 2 ^ 32
  let t2 := ((rotateRight32 s.h0 2 ^^^ rotateRight32 s.h0 13 ^^^ rotateRight32 s.h0 22) +
    ((s.h0 &&& s.h1) ^^^ (s.h0 &&& s.h2) ^^^ (s.h1 &&& s.h2))) % 2 ^ 32
  ⟨(t1 + t2) % 2 ^ 32, s.h0, s.h1, s.h2, (s.h3 + t1) % 2 ^ 32, s.h4, s.h5, s.h6⟩

/-- Go `crypto/sha256`: `blockGeneric` on one block of 64 bytes. -/
def sha256Block (d : Sha256State) (p : List Nat) : Sha256State :=
  let w := scheduleExtend 48 (scheduleWords p)
  let s := (sha256K.zip w).foldl sha256Round d
  ⟨(d.h0 + s.h0) % 2 ^ 32, (d.h1 + s.h1) % 2 ^ 32, (d.h2 + s.h2) % 2 ^ 32,
    (d.h3 + s.h3) % 2 ^ 32, (d.h4 + s.h4) % 2 ^ 32, (d.h5 + s.h5) % 2 ^ 32,
    (d.h6 + s.h6) % 2 ^ 32, (d.h7 + s.h7) % 2 ^ 32⟩

/-- Go `crypto/sha256`: the loop of `blockGeneric` over the blocks of `p`; the
first argument bounds the number of blocks. -/
def sha256Blocks : Nat → Sha256State → List Nat → Sha256State
  | 0, d, _ => d
  | n + 1, d, p =>
    if 64 ≤ p.length then sha256Blocks n (sha256Block d (p.take 64)) (p.drop 64) else d

/-- The eight bytes of a `uint64`, big-endian (`binary.BigEndian.PutUint64`). -/
def putUint64 (x : Nat) : List Nat :=
  [(x >>> 56) % 256, (x >>> 48) % 256, (x >>> 40) % 256, (x >>> 32) % 256,
    (x >>> 24) % 256, (x >>> 16) % 256, (x >>> 8) % 256, x % 256]

/-- Go `crypto/sha256`: the padding of `checkSum`, the byte `0x80`, zero bytes
up to 56 modulo 64, and the length of the message in bits. -/
def sha256Padding (length : Nat) : List Nat :=
  let t := if length % 64 < 56 then 56 - length % 64 else 64 + 56 - length % 64
  0x80 :: List.replicate (t - 1) 0 ++ putUint64 ((length <<< 3) % 2 ^ 64)

/-- The four bytes of a `uint32`, big-endian. -/
def putUint32 (x : Nat) : List Nat :=
  [(x >>> 24) % 256, (x >>> 16) % 256, (x >>> 8) % 256, x % 256]

/-- Go: `sha256.Sum256(data)`, the digest as its 32 bytes. -/
def sha256Sum256 (data : List Nat) : List Nat :=
  let p := data ++ sha256Padding data.length
  let d := sha256Blocks (p.length / 64) sha256Init p
  putUint32 d.h0 ++ putUint32 d.h1 ++ putUint32 d.h2 ++ putUint32 d.h3 ++
    putUint32 d.h4 ++ putUint32 d.h5 ++ putUint32 d.h6 ++ putUint32 d.h7

/-- Go `encoding/hex`: `hextable`. -/
def hextable : List Char := "0123456789abcdef".data

/-- Go: `hex.EncodeToString(src)`, two lowercase digits per byte. -/
def hexEncodeToString (src : List Nat) : String :=
  String.mk (src.flatMap (fun v =>
    [hextable.getD ((v % 256) >>> 4) '0', hextable.getD (v &&& 0x0f) '0']))

/-- Go: `ComputeHash(data)`. -/
def ComputeHash (data : List Nat) : String := hexEncodeToString (sha256Sum256 data)

/-! ## Vocabulary of the properties -/

/-- The hexadecimal digits, lowercase and uppercase. -/
def IsHexChar (c : Char) : Prop := c ∈ "0123456789abcdefABCDEF".data

instance (c : Char) : Decidable (IsHexChar c) := by unfold IsHexChar; infer_instance

/-- A string of exactly 64 hexadecimal digits. -/
def IsHex64 (hash : String) : Prop := hash.length = 64 ∧ ∀ c ∈ hash.data, IsHexChar c

instance (hash : String) : Decidable (IsHex64 hash) := by unfold IsHex64; infer_instance

/-- No shim call of the transaction fails: the creator text is `who`,
`shim.GetMSPID` answers `org` (the MSP id of the executing peer), and reading,
writing and event setting succeed. -/
def Healthy (stub : Stub) (who org : String) : Prop :=
  stub.Creator = Except.ok who ∧ stub.MSPID = Except.ok org ∧ stub.GetStateErr = none ∧
    stub.PutStateErr = none ∧ stub.SetEventErr = none

/-- A stub on which no call fails. -/
def okStub (who org txID now : String) : Stub :=
  { Creator := Except.ok who, MSPID := Except.ok org, TxID := txID, Now := now,
    GetStateErr := none, PutStateErr := none, SetEventErr := none, RangeErr := none,
    NextErr := none }

/-- The custody event of kind `eventType` that a call records in the
transaction of `stub`, for the creator text `who` and the MSP id `org` that
`shim.GetMSPID` answers. -/
def custodyEvent (stub : Stub) (eventType who org description : String) : CustodyEvent :=
  { Timestamp := stub.Now, EventType := eventType, Actor := who, OrgMSP := org,
    Description := description, TxID := stub.TxID }

/-- The record of a fresh evidence item, for the creator text `who` and the MSP
id `org` that `shim.GetMSPID` answers. -/
def createdEvidence (stub : Stub) (caseID evidenceID cid hash metadata who org : String) :
    Evidence :=
  { CaseID := caseID, EvidenceID := evidenceID, CID := cid, Hash := hash, Metadata := metadata,
    Status := StatusActive,
    Events := [custodyEvent stub "CREATE" who org "Evidence created and registered"],
    CreatedAt := stub.Now, UpdatedAt := stub.Now, CurrentOwner := who, OwnerOrgMSP := org }

/-! ## Sequences of calls on one evidence item -/

/-- One mutating call on an evidence item, with the arguments that follow the
case and evidence identifiers. -/
inductive Op where
  | create (cid hash metadata : String)
  | transfer (newCustodian transferReason : String)
  | archive (archiveReason : String)
  | reactivate (reactivationReason : String)
  | invalidate (reason wrongTxID : String)
deriving DecidableEq, Repr

/-- The function name that `Invoke` dispatches on. -/
def Op.function : Op → String
  | Op.create _ _ _ => "CreateEvidence"
  | Op.transfer _ _ => "TransferCustody"
  | Op.archive _ => "ArchiveToCold"
  | Op.reactivate _ => "ReactivateFromCold"
  | Op.invalidate _ _ => "InvalidateEvidence"

/-- The argument list of the call. -/
def Op.args (caseID evidenceID : String) : Op → List String
  | Op.create cid hash metadata => [caseID, evidenceID, cid, hash, metadata]
  | Op.transfer newCustodian transferReason => [caseID, evidenceID, newCustodian, transferReason]
  | Op.archive archiveReason => [caseID, evidenceID, archiveReason]
  | Op.reactivate reactivationReason => [caseID, evidenceID, reactivationReason]
  | Op.invalidate reason wrongTxID => [caseID, evidenceID, reason, wrongTxID]

def Op.isCreate : Op → Bool
  | Op.create _ _ _ => true
  | _ => false

/-- The call of `op` on the item `(caseID, evidenceID)` through `Invoke`. -/
def applyOp (caseID evidenceID : String) (stub : Stub) (st : State) (op : Op) : Result :=
  Invoke stub st op.function (op.args caseID evidenceID)

/-- The call returned `shim.Success`. -/
def succeeded (r : Result) : Bool := r.response.Status == 200

/-- The world state after a sequence of calls, each in its own transaction. -/
def runState (caseID evidenceID : String) : State → List (Stub × Op) → State
  | st, [] => st
  | st, (stub, op) :: rest =>
    runState caseID evidenceID (applyOp caseID evidenceID stub st op).state rest

/-- The calls of a sequence that returned `shim.Success`, in order. -/
def successfulSteps (caseID evidenceID : String) : State → List (Stub × Op) → List (Stub × Op)
  | _, [] => []
  | st, (stub, op) :: rest =>
    if succeeded (applyOp caseID evidenceID stub st op) then
      (stub, op) :: successfulSteps caseID evidenceID (applyOp caseID evidenceID stub st op).state rest
    else successfulSteps caseID evidenceID (applyOp caseID evidenceID stub st op).state rest

/-- The status and the length of the custody log of the record under `key`. -/
def observe (key : String) (st : State) : Option (EvidenceStatus × Nat) :=
  match lookupKey key st with
  | some (Bytes.json e) => some (e.Status, e.Events.length)
  | _ => none

/-- For every call of a sequence, in order: whether the code returned success,
and the status and log length of the record after the call. -/
def runTrace (caseID evidenceID : String) :
    State → List (Stub × Op) → List (Bool × Option (EvidenceStatus × Nat))
  | _, [] => []
  | st, (stub, op) :: rest =>
    (succeeded (applyOp caseID evidenceID stub st op),
      observe (caseID ++ ":" ++ evidenceID) (applyOp caseID evidenceID stub st op).state) ::
      runTrace caseID evidenceID (applyOp caseID evidenceID stub st op).state rest

/-- Every transaction of the sequence is free of shim failures. -/
def AllHealthy (steps : List (Stub × Op)) : Prop :=
  ∀ step ∈ steps, ∃ who org : String, Healthy step.1 who org

/-- The transition graph of the specification: the status a successful call
leads to from status `s`, and `none` where the graph has no edge.  Transfer
keeps `ACTIVE` and `REACTIVATED`, archive leads from `ACTIVE` to `ARCHIVED`,
reactivate from `ARCHIVED` to `REACTIVATED`, invalidate from any status to
`INVALIDATED`; creation is not an edge of an existing record. -/
def graphNext (s : EvidenceStatus) : Op → Option EvidenceStatus
  | Op.create _ _ _ => none
  | Op.transfer _ _ => if s = StatusActive ∨ s = StatusReactivated then some s else none
  | Op.archive _ => if s = StatusActive then some StatusArchived else none
  | Op.reactivate _ => if s = StatusArchived then some StatusReactivated else none
  | Op.invalidate _ _ => some StatusInvalidated

/-- The creations the specification accepts on a free key. -/
def createValid (caseID evidenceID : String) : Op → Prop
  | Op.create cid hash _ => caseID ≠ "" ∧ evidenceID ≠ "" ∧ cid ≠ "" ∧ IsHex64 hash
  | _ => False

instance (caseID evidenceID : String) (op : Op) : Decidable (createValid caseID evidenceID op) := by
  cases op <;> unfold createValid <;> infer_instance

/-- One step of the specification on the pair of the status and the number of
successful mutations since the creation (`none` before the creation): whether
the call succeeds, and the pair after it.  A failed call changes nothing. -/
def specStep (caseID evidenceID : String) :
    Option (EvidenceStatus × Nat) → Op → Bool × Option (EvidenceStatus × Nat)
  | none, op => if createValid caseID evidenceID op then (true, some (StatusActive, 0)) else (false, none)
  | some (s, n), op =>
    match graphNext s op with
    | some s1 => (true, some (s1, n + 1))
    | none => (false, some (s, n))

/-- The specification along a sequence of calls: for every call whether it
succeeds, and the status and the log length `1 + n` after it. -/
def specTrace (caseID evidenceID : String) :
    Option (EvidenceStatus × Nat) → List Op → List (Bool × Option (EvidenceStatus × Nat))
  | _, [] => []
  | a, op :: rest =>
    ((specStep caseID evidenceID a op).1,
      (specStep caseID evidenceID a op).2.map (fun p => (p.1, 1 + p.2))) ::
      specTrace caseID evidenceID (specStep caseID evidenceID a op).2 rest

/-- The record under `key` agrees with a state of the specification. -/
def Agrees (key : String) (st : State) : Option (EvidenceStatus × Nat) → Prop
  | none => lookupKey key st = none
  | some (s, n) =>
    ∃ e : Evidence, lookupKey key st = some (Bytes.json e) ∧ e.Status = s ∧ e.Events.length = 1 + n

/-- The world state after a sequence of invocations with arbitrary function
names and arguments, each in its own transaction. -/
def invokeAll : State → List (Stub × String × List String) → State
  | st, [] => st
  | st, (stub, function, args) :: rest => invokeAll (Invoke stub st function args).state rest

/-- The creator text of a transaction (empty when `GetCreator` fails). -/
def callerOf (stub : Stub) : String :=
  match stub.Creator with
  | Except.ok who => who
  | Except.error _ => ""

/-- The MSP id that `shim.GetMSPID` answers in a transaction, that of the
executing peer (empty when `GetMSPID` fails). -/
def orgOf (stub : Stub) : String :=
  match stub.MSPID with
  | Except.ok org => org
  | Except.error _ => ""

/-- The kind of custody event a call records. -/
def Op.eventType : Op → String
  | Op.create _ _ _ => "CREATE"
  | Op.transfer _ _ => "TRANSFER"
  | Op.archive _ => "ARCHIVE"
  | Op.reactivate _ => "REACTIVATE"
  | Op.invalidate _ _ => "INVALIDATE"

/-- The description of the custody event a call records. -/
def Op.description : Op → String
  | Op.create _ _ _ => "Evidence created and registered"
  | Op.transfer newCustodian transferReason =>
    "Custody transferred to " ++ newCustodian ++ ". Reason: " ++ transferReason
  | Op.archive archiveReason => "Evidence archived to cold chain. Reason: " ++ archiveReason
  | Op.reactivate reactivationReason =>
    "Evidence reactivated from cold chain. Reason: " ++ reactivationReason
  | Op.invalidate reason wrongTxID =>
    "Evidence invalidated. Reason: " ++ reason ++ ". Wrong TxID: " ++ wrongTxID

/-- The custody event that a successful call appends. -/
def stepEvent (step : Stub × Op) : CustodyEvent :=
  custodyEvent step.1 step.2.eventType (callerOf step.1) (orgOf step.1) step.2.description

/-! ## Records after a mutation -/

/-- The record `e` after a transfer to `newCustodian`, for the creator text
`who` and the MSP id `org` that `shim.GetMSPID` answers. -/
def transferredEvidence (stub : Stub) (e : Evidence)
    (newCustodian transferReason who org : String) : Evidence :=
  { e with
    CurrentOwner := newCustodian
    OwnerOrgMSP := org
    UpdatedAt := stub.Now
    Events := e.Events ++ [custodyEvent stub "TRANSFER" who org
      ("Custody transferred to " ++ newCustodian ++ ". Reason: " ++ transferReason)] }

/-- The record `e` after its archival, for the creator text `who` and the MSP id
`org` that `shim.GetMSPID` answers. -/
def archivedEvidence (stub : Stub) (e : Evidence) (archiveReason who org : String) : Evidence :=
  { e with
    Status := StatusArchived
    UpdatedAt := stub.Now
    Events := e.Events ++ [custodyEvent stub "ARCHIVE" who org
      ("Evidence archived to cold chain. Reason: " ++ archiveReason)] }

/-- The record `e` after its reactivation, for the creator text `who` and the
MSP id `org` that `shim.GetMSPID` answers. -/
def reactivatedEvidence (stub : Stub) (e : Evidence) (reactivationReason who org : String) :
    Evidence :=
  { e with
    Status := StatusReactivated
    UpdatedAt := stub.Now
    Events := e.Events ++ [custodyEvent stub "REACTIVATE" who org
      ("Evidence reactivated from cold chain. Reason: " ++ reactivationReason)] }

/-- The record `e` after its invalidation, for the creator text `who` and the
MSP id `org` that `shim.GetMSPID` answers. -/
def invalidatedEvidence (stub : Stub) (e : Evidence) (reason wrongTxID who org : String) :
    Evidence :=
  { e with
    Status := StatusInvalidated
    UpdatedAt := stub.Now
    Events := e.Events ++ [custodyEvent stub "INVALIDATE" who org
      ("Evidence invalidated. Reason: " ++ reason ++ ". Wrong TxID: " ++ wrongTxID)] }

/-- The call ended before any write: the world state is the one before the
call, no event is set, and the response is an error other than the report of a
failed notification. -/
def NoWrite (r : Result) (st : State) : Prop :=
  r.state = st ∧ r.event = none ∧ r.response.Status = 500 ∧
    ∀ err : String, r.response ≠ shimError ("Failed to emit event: " ++ err)

/-- The call wrote `value` under `key`, and then either set the event `name`
and returned `value`, or failed on the notification. -/
def Wrote (stub : Stub) (r : Result) (st : State) (key : String) (value : Bytes)
    (name : String) : Prop :=
  r.state = insertKey key value st ∧
    ((stub.SetEventErr = none ∧ r.response = shimSuccess (Payload.evidence value) ∧
        r.event = some (name, value)) ∨
      ∃ err : String, stub.SetEventErr = some err ∧
        r.response = shimError ("Failed to emit event: " ++ err) ∧ r.event = none)

/-- The error messages of the rejections: a wrong argument count, an invalid
argument, an absent record, an already existing record, an unmet status
precondition. -/
inductive Rejection : String → Prop where
  | argumentCount (expecting : String) :
    Rejection ("Incorrect number of arguments. Expecting: " ++ expecting)
  | emptyField : Rejection "caseID, evidenceID, cid, and hash cannot be empty"
  | hashLength : Rejection "Invalid hash format. Expected SHA-256 (64 hex characters)"
  | hashHex : Rejection "Invalid hash format. Must be hexadecimal"
  | notFound (key : String) : Rejection ("Evidence not found: " ++ key)
  | alreadyExists (key : String) : Rejection ("Evidence already exists: " ++ key)
  | transferState (status : String) :
    Rejection ("Cannot transfer custody. Evidence status is: " ++ status)
  | archiveState (status : String) :
    Rejection ("Cannot archive evidence. Current status: " ++ status)
  | reactivateState (status : String) :
    Rejection ("Cannot reactivate evidence. Current status: " ++ status)

/-- The names of the four functions that mutate an existing record. -/
def IsMutation (function : String) : Prop :=
  function = "TransferCustody" ∨ function = "ArchiveToCold" ∨
    function = "ReactivateFromCold" ∨ function = "InvalidateEvidence"

/-- The call addresses the record under `key`: its first two arguments are a
case identifier and an evidence identifier that build `key`. -/
def Addresses (args : List String) (key : String) : Prop :=
  ∃ (caseID evidenceID : String) (rest : List String),
    args = caseID :: evidenceID :: rest ∧ caseID ++ ":" ++ evidenceID = key

/-- The response of a call that reached its write: success, or the report of a
notification that failed after the write. -/
def ReachedWrite (response : Response) : Prop :=
  response.Status = 200 ∨ ∃ err : String, response = shimError ("Failed to emit event: " ++ err)

/-- The fields that no mutation may change have in `e1` the values they have in `e`. -/
def ImmutableFieldsKept (e e1 : Evidence) : Prop :=
  e1.CaseID = e.CaseID ∧ e1.EvidenceID = e.EvidenceID ∧ e1.CID = e.CID ∧ e1.Hash = e.Hash ∧
    e1.Metadata = e.Metadata ∧ e1.CreatedAt = e.CreatedAt

/-- The fields `CurrentOwner` and `OwnerOrgMSP` are in `e1` those of `e`. -/
def CustodianKept (e e1 : Evidence) : Prop :=
  e1.CurrentOwner = e.CurrentOwner ∧ e1.OwnerOrgMSP = e.OwnerOrgMSP

/-- The transaction in which every call before the notification succeeds, for
the creator text `who` and the MSP id `org` that `shim.GetMSPID` answers, and
`SetEvent` fails with `err`. -/
def EmitFails (stub : Stub) (who org err : String) : Prop :=
  stub.Creator = Except.ok who ∧ stub.MSPID = Except.ok org ∧ stub.GetStateErr = none ∧
    stub.PutStateErr = none ∧ stub.SetEventErr = some err

/-- The text `needle` occurs in `text`. -/
def Mentions (text needle : String) : Prop :=
  ∃ before after : String, text = before ++ needle ++ after

/-- The list `text` starts with `needle`. -/
def startsWith : List Char → List Char → Bool
  | _, [] => true
  | [], _ :: _ => false
  | t :: ts, n :: ns => t == n && startsWith ts ns

/-- The list `needle` occurs in `text`, at the first position or later. -/
def occurs (needle : List Char) : List Char → Bool
  | [] => startsWith [] needle
  | t :: ts => startsWith (t :: ts) needle || occurs needle ts

/-- The transaction context of one execution: the creator, the MSP id that
`shim.GetMSPID` answers on the executing peer, the transaction id and the
timestamp of the transaction (`stub.GetTxTimestamp()`).  The chaincode reads the
first three and never the timestamp. -/
structure TxContext where
  Creator : String
  MSPID : String
  TxID : String
  Timestamp : String

/-- The execution of a transaction by a peer whose clock (`time.Now()`) reads
`now`, without failing shim call.  The clock reading is not part of the
transaction context. -/
def execStub (tx : TxContext) (now : String) : Stub := okStub tx.Creator tx.MSPID tx.TxID now

/-- One edge of the transition graph, read off the kind of a custody event: the
status after an event of kind `kind` recorded on a record of status `s`, and
`none` when the graph has no such edge. -/
def kindStep (s : EvidenceStatus) (kind : String) : Option EvidenceStatus :=
  if kind = "TRANSFER" then (if s = StatusActive ∨ s = StatusReactivated then some s else none)
  else if kind = "ARCHIVE" then (if s = StatusActive then some StatusArchived else none)
  else if kind = "REACTIVATE" then (if s = StatusArchived then some StatusReactivated else none)
  else if kind = "INVALIDATE" then some StatusInvalidated
  else none

/-- The status that a sequence of event kinds leads to from `s` along the
transition graph. -/
def replayKinds : EvidenceStatus → List String → Option EvidenceStatus
  | s, [] => some s
  | s, kind :: rest =>
    match kindStep s kind with
    | some s1 => replayKinds s1 rest
    | none => none

/-- A record whose log is one `CREATE` event followed by events that lead from
`ACTIVE` to the status of the record along the transition graph. -/
def WellFormed (e : Evidence) : Prop :=
  ∃ (c : CustodyEvent) (rest : List CustodyEvent),
    e.Events = c :: rest ∧ c.EventType = "CREATE" ∧
    replayKinds StatusActive (rest.map (fun ev => ev.EventType)) = some e.Status

/-- The shape of a custody log: the first event is a `CREATE` and no later one
is; at most one `ARCHIVE` and at most one `REACTIVATE` event; an `ARCHIVE`
event before every `REACTIVATE` event; and the status `INVALIDATED` exactly
when the log holds an `INVALIDATE` event. -/
def LogShape (e : Evidence) : Prop :=
  (∃ (c : CustodyEvent) (rest : List CustodyEvent),
    e.Events = c :: rest ∧ c.EventType = "CREATE" ∧ ∀ ev ∈ rest, ev.EventType ≠ "CREATE") ∧
  (e.Events.map (fun ev => ev.EventType)).count "ARCHIVE" ≤ 1 ∧
  (e.Events.map (fun ev => ev.EventType)).count "REACTIVATE" ≤ 1 ∧
  (∀ (before : List CustodyEvent) (ev : CustodyEvent) (later : List CustodyEvent),
    e.Events = before ++ ev :: later → ev.EventType = "REACTIVATE" →
    ∃ a ∈ before, a.EventType = "ARCHIVE") ∧
  (e.Status = StatusInvalidated ↔ ∃ ev ∈ e.Events, ev.EventType = "INVALIDATE")

/-- Every record of the store is well formed. -/
def StateWellFormed (st : State) : Prop :=
  ∀ (key : String) (e : Evidence), lookupKey key st = some (Bytes.json e) → WellFormed e

/-- The lowercase hexadecimal digits. -/
def IsLowerHexChar (c : Char) : Prop := c ∈ "0123456789abcdef".data

instance (c : Char) : Decidable (IsLowerHexChar c) := by unfold IsLowerHexChar; infer_instance

/-! ## Sequences of calls in arbitrary transactions -/

/-- Every shim call that precedes the notification succeeds in the transaction:
`GetState`, `GetCreator`, `GetMSPID` and `PutState`. -/
def reachesWrite (stub : Stub) : Bool :=
  stub.GetStateErr.isNone && stub.Creator.toBool && stub.MSPID.toBool && stub.PutStateErr.isNone

/-- The notification `SetEvent` succeeds in the transaction. -/
def notifies (stub : Stub) : Bool := stub.SetEventErr.isNone


/-- One step of the transition graph on the pair of the status and the number
of mutations written since the creation (`none` before the creation), in the
transaction of `stub`: whether the call reports success, and the pair after it.
A call performs its write when it is a valid creation on a free key or lies on
an edge of the graph, and the shim calls up to the write succeed; it reports
success when the notification after the write succeeds too.  A call that does
not perform its write changes nothing. -/
def specWriteStep (caseID evidenceID : String) :
    Option (EvidenceStatus × Nat) → Stub × Op → Bool × Option (EvidenceStatus × Nat)
  | none, (stub, op) =>
    if createValid caseID evidenceID op ∧ reachesWrite stub = true then
      (notifies stub, some (StatusActive, 0))
    else (false, none)
  | some (s, n), (stub, op) =>
    match graphNext s op with
    | some s1 =>
      if reachesWrite stub then (notifies stub, some (s1, n + 1)) else (false, some (s, n))
    | none => (false, some (s, n))

/-- The transition graph along a sequence of calls, each in its own
transaction: for every call whether it reports success, and the status and the
log length `1 + n` after it. -/
def specWriteTrace (caseID evidenceID : String) :
    Option (EvidenceStatus × Nat) → List (Stub × Op) →
      List (Bool × Option (EvidenceStatus × Nat))
  | _, [] => []
  | a, step :: rest =>
    ((specWriteStep caseID evidenceID a step).1,
      (specWriteStep caseID evidenceID a step).2.map (fun p => (p.1, 1 + p.2))) ::
      specWriteTrace caseID evidenceID (specWriteStep caseID evidenceID a step).2 rest

/-! ## The creator of a transaction -/

/-- Fabric: `msp.SerializedIdentity`, the creator of a transaction: the MSP id
of the organization the caller belongs to, and the certificate of the caller as
PEM text. -/
structure SerializedIdentity where
  Mspid : String
  IdBytes : String
deriving DecidableEq, Repr

/-- Go: `utf8.AppendRune`, the UTF-8 bytes of one character. -/
def utf8EncodeRune (c : Char) : List Nat :=
  if c.toNat < 0x80 then [c.toNat]
  else if c.toNat < 0x800 then [0xC0 + c.toNat / 64, 0x80 + c.toNat % 64]
  else if c.toNat < 0x10000 then
    [0xE0 + c.toNat / 4096, 0x80 + c.toNat / 64 % 64, 0x80 + c.toNat % 64]
  else
    [0xF0 + c.toNat / 262144, 0x80 + c.toNat / 4096 % 64, 0x80 + c.toNat / 64 % 64,
      0x80 + c.toNat % 64]

/-- Go: `[]byte(s)`, the bytes of a text. -/
def stringBytes (s : String) : List Nat := s.data.flatMap utf8EncodeRune

/-- Protocol buffers: the base 128 varint of `n`, low group first; `fuel`
bounds the number of groups. -/
def protoVarint : Nat → Nat → List Nat
  | 0, n => [n % 128]
  | fuel + 1, n => if n < 128 then [n] else (128 + n % 128) :: protoVarint fuel (n / 128)

/-- Protocol buffers: the length-delimited field `fieldNumber` (wire type 2);
proto3 leaves an empty field out. -/
def protoField (fieldNumber : Nat) (content : List Nat) : List Nat :=
  if content = [] then []
  else (fieldNumber * 8 + 2) :: (protoVarint 9 content.length ++ content)

/-- Go: `proto.Marshal` of a `msp.SerializedIdentity` (field 1 `mspid`, field 2
`id_bytes`), the bytes that `stub.GetCreator()` returns. -/
def marshalIdentity (id : SerializedIdentity) : List Nat :=
  protoField 1 (stringBytes id.Mspid) ++ protoField 2 (stringBytes id.IdBytes)

/-- A UTF-8 continuation byte. -/
def isContinuation (b : Nat) : Bool := 0x80 ≤ b && b ≤ 0xBF

/-- Go: `utf8.DecodeRune` at the head of the bytes: the character and the size
of a well-formed UTF-8 sequence, and `none` where Go answers
`(utf8.RuneError, 1)`. -/
def decodeRune : List Nat → Option (Char × Nat)
  | [] => none
  | b0 :: rest =>
    if b0 < 0x80 then some (Char.ofNat b0, 1)
    else if 0xC2 ≤ b0 ∧ b0 ≤ 0xDF then
      match rest with
      | b1 :: _ =>
        if isContinuation b1 then some (Char.ofNat ((b0 - 0xC0) * 64 + (b1 - 0x80)), 2)
        else none
      | _ => none
    else if 0xE0 ≤ b0 ∧ b0 ≤ 0xEF then
      match rest with
      | b1 :: b2 :: _ =>
        if (if b0 = 0xE0 then 0xA0 else 0x80) ≤ b1 ∧ b1 ≤ (if b0 = 0xED then 0x9F else 0xBF) ∧
            isContinuation b2 = true then
          some (Char.ofNat ((b0 - 0xE0) * 4096 + (b1 - 0x80) * 64 + (b2 - 0x80)), 3)
        else none
      | _ => none
    else if 0xF0 ≤ b0 ∧ b0 ≤ 0xF4 then
      match rest with
      | b1 :: b2 :: b3 :: _ =>
        if (if b0 = 0xF0 then 0x90 else 0x80) ≤ b1 ∧ b1 ≤ (if b0 = 0xF4 then 0x8F else 0xBF) ∧
            isContinuation b2 = true ∧ isContinuation b3 = true then
          some (Char.ofNat
            ((b0 - 0xF0) * 262144 + (b1 - 0x80) * 4096 + (b2 - 0x80) * 64 + (b3 - 0x80)), 4)
        else none
      | _ => none
    else none

/-- The characters of `jsonText`; `fuel` bounds the number of characters. -/
def jsonRunes : Nat → List Nat → List Char
  | 0, _ => []
  | _ + 1, [] => []
  | fuel + 1, b :: rest =>
    match decodeRune (b :: rest) with
    | some (c, size) => c :: jsonRunes fuel (rest.drop (size - 1))
    | none => Char.ofNat 0xFFFD :: jsonRunes fuel rest

/-- The text that `json.Marshal` writes for the Go string `string(bytes)` and
that `json.Unmarshal` reads back: the well-formed UTF-8 sequences are kept and
every other byte is replaced by U+FFFD. -/
def jsonText (bytes : List Nat) : String := String.mk (jsonRunes bytes.length bytes)

/-- Fabric shim: `shim.GetMSPID()` on a peer whose environment variable
`CORE_PEER_LOCALMSPID` is `localMSPID`; it reads neither the stub nor the
creator. -/
def shimGetMSPID (localMSPID : String) : Except String String :=
  if localMSPID = "" then Except.error "'CORE_PEER_LOCALMSPID' is not set"
  else Except.ok localMSPID

/-- The transaction of the caller `creator`, executed without failing shim call
on a peer whose `CORE_PEER_LOCALMSPID` is `localMSPID`: `stub.GetCreator()`
gives the serialized identity of the caller, `shim.GetMSPID()` the MSP id of
the peer. -/
def peerStub (localMSPID : String) (creator : SerializedIdentity) (txID now : String) : Stub :=
  { Creator := Except.ok (jsonText (marshalIdentity creator)),
    MSPID := shimGetMSPID localMSPID, TxID := txID, Now := now,
    GetStateErr := none, PutStateErr := none, SetEventErr := none, RangeErr := none,
    NextErr := none }

/-! ## Sample data -/

/-- A 64 digit hash with lowercase and uppercase digits. -/
def sampleHash : String := "0123456789abcdefABCDEF0123456789abcdefABCDEF0123456789abcdefABCD"

/-- The transaction of alice (creator text `alice`) on a peer of `Org1MSP`. -/
def aliceStub : Stub := okStub "alice" "Org1MSP" "tx1" "2024-01-01T00:00:00Z"

/-- The transaction of carol (creator text `carol`) on a peer of `Org2MSP`. -/
def carolStub : Stub := okStub "carol" "Org2MSP" "tx2" "2024-01-02T00:00:00Z"

/-- The record `C1:E1` as alice created it, put in the given status. -/
def sampleRecord (status : EvidenceStatus) : Evidence :=
  { createdEvidence aliceStub "C1" "E1" "cidA" sampleHash "" "alice" "Org1MSP" with
    Status := status }

/-- A world state holding only the record `C1:E1`, in the given status. -/
def sampleState (status : EvidenceStatus) : State := [("C1:E1", Bytes.json (sampleRecord status))]

/-- The scenario of the specification: create, transfer to bob, archive,
reactivate, archive again, invalidate. -/
def exampleSteps : List (Stub × Op) :=
  [(aliceStub, Op.create "cidA" sampleHash "\x7b\x7d"),
   (aliceStub, Op.transfer "bob" "handover"),
   (carolStub, Op.archive "cold"),
   (carolStub, Op.reactivate "reopen"),
   (carolStub, Op.archive "again"),
   (aliceStub, Op.invalidate "tampered" "tx1")]

/-- Invocations tried on the invalidated record `C1:E1`. -/
def sampleCalls : List (Stub × String × List String) :=
  [(carolStub, "ReactivateFromCold", ["C1", "E1", "reopen"]),
   (aliceStub, "TransferCustody", ["C1", "E1", "bob", "handover"]),
   (carolStub, "InvalidateEvidence", ["C1", "E1", "again", "tx7"]),
   (aliceStub, "ArchiveToCold", ["C1", "E1", "cold"]),
   (aliceStub, "CreateEvidence", ["C1", "E1", "cidB", sampleHash, ""]),
   (carolStub, "CreateEvidence", ["C2", "E1", "cidC", sampleHash, ""])]

/-- The transaction of carol in which the notification is the one call that
fails. -/
def emitFailStub : Stub := { carolStub with SetEventErr := some "event hub unavailable" }

/-- The transaction of alice, stamped at midnight. -/
def aliceTx : TxContext :=
  { Creator := "alice", MSPID := "Org1MSP", TxID := "tx1", Timestamp := "2024-01-01T00:00:00Z" }

/-- The scenario of the specification as invocations on the item `C1:E1`. -/
def exampleCalls : List (Stub × String × List String) :=
  exampleSteps.map (fun step => (step.1, step.2.function, step.2.args "C1" "E1"))

/-- The record `C1:E1` at the end of the scenario of the specification. -/
def exampleRecord : Evidence :=
  invalidatedEvidence aliceStub
    (reactivatedEvidence carolStub
      (archivedEvidence carolStub
        (transferredEvidence aliceStub
          (createdEvidence aliceStub "C1" "E1" "cidA" sampleHash "\x7b\x7d" "alice" "Org1MSP")
          "bob" "handover" "alice" "Org1MSP")
        "cold" "carol" "Org2MSP")
      "reopen" "carol" "Org2MSP")
    "tampered" "tx1" "alice" "Org1MSP"

/-- The bytes of the text `abc`. -/
def abcBytes : List Nat := [97, 98, 99]

/-- An X.509 certificate of carol (`CN=carol`, `O=org2.example.com`), PEM text. -/
def carolCertificate : String :=
  "-----BEGIN CERTIFICATE-----\n" ++
  "MIIB5zCCAY2gAwIBAgIUAP2y0qtGQZgVIlRg1sbUL3FpGrIwCgYIKoZIzj0EAwIw\n" ++
  "STELMAkGA1UEBhMCVVMxGTAXBgNVBAoMEG9yZzIuZXhhbXBsZS5jb20xDzANBgNV\n" ++
  "BAsMBmNsaWVudDEOMAwGA1UEAwwFY2Fyb2wwHhcNMjYxMTA0MjAzNzU3WhcNMzYx\n" ++
  "MTAxMjAzNzU3WjBJMQswCQYDVQQGEwJVUzEZMBcGA1UECgwQb3JnMi5leGFtcGxl\n" ++
  "LmNvbTEPMA0GA1UECwwGY2xpZW50MQ4wDAYDVQQDDAVjYXJvbDBZMBMGByqGSM49\n" ++
  "AgEGCCqGSM49AwEHA0IABEgsMheYdwDBrqi4D5eTlIkNaD08AksvDgWBFRlQ+R86\n" ++
  "bx+oP/6IpIwdxfvQEhWx6pnmcurWElCexcoWA7sWFhajUzBRMB0GA1UdDgQWBBS8\n" ++
  "GnqbtwIXyr0ExKbVtBYF6eEBZTAfBgNVHSMEGDAWgBS8GnqbtwIXyr0ExKbVtBYF\n" ++
  "6eEBZTAPBgNVHRMBAf8EBTADAQH/MAoGCCqGSM49BAMCA0gAMEUCIFom3Rqx4k6x\n" ++
  "XrruJe0bjvV2bdfxmNfpKvlZW6HzClLiAiEA1oaVvrxFmt5PghYKUIVNeAEpkcU8\n" ++
  "0Js89UbKOh+ozM0=\n" ++
  "-----END CERTIFICATE-----\n"

/-- The identity of carol, a member of `Org2MSP`. -/
def carolIdentity : SerializedIdentity := { Mspid := "Org2MSP", IdBytes := carolCertificate }

/-- The transaction of carol, a member of `Org2MSP`, executed on a peer of
`Org1MSP`. -/
def carolOnOrg1Peer : Stub := peerStub "Org1MSP" carolIdentity "tx2" "2024-01-02T00:00:00Z"

/-- The creation followed by an invalidation whose notification fails. -/
def failedNotificationSteps : List (Stub × Op) :=
  [(aliceStub, Op.create "cidA" sampleHash ""),
   (emitFailStub, Op.invalidate "tampered" "tx1")]

/-! ## Lemmas on the world state and on the validation -/

theorem lookupKey_insertKey_same (key : String) (value : Bytes) (st : State) :
    lookupKey key (insertKey key value st) = some value := by
  induction st with
  | nil => simp [insertKey, lookupKey]
  | cons kv rest ih =>
    obtain ⟨k, v⟩ := kv
    by_cases h : k = key
    · simp [insertKey, lookupKey, h]
    · by_cases h2 : keyLt key k = true
      · simp [insertKey, lookupKey, h, h2]
      · simp [insertKey, lookupKey, h, h2, ih]

theorem lookupKey_insertKey_other (key other : String) (value : Bytes) (st : State)
    (hne : other ≠ key) : lookupKey other (insertKey key value st) = lookupKey other st := by
  have hne2 : ¬ key = other := fun h => hne h.symm
  induction st with
  | nil => simp [insertKey, lookupKey, hne2]
  | cons kv rest ih =>
    obtain ⟨k, v⟩ := kv
    by_cases h : k = key
    · subst h
      simp [insertKey, lookupKey, hne2]
    · by_cases h2 : keyLt key k = true
      · simp [insertKey, lookupKey, h, h2, hne2]
      · by_cases h3 : k = other
        · subst h3
          simp [insertKey, lookupKey, h, h2]
        · simp [insertKey, lookupKey, h, h2, h3, ih]

theorem key_ne_empty (caseID evidenceID : String) : caseID ++ ":" ++ evidenceID ≠ "" := by
  intro h
  have := congrArg String.length h
  simp at this
  exact absurd this.1.2 (by decide)

theorem fromHexChar_isSome_iff (c : Char) : (fromHexChar c).isSome = true ↔ IsHexChar c := by
  constructor
  · intro h
    unfold fromHexChar at h
    have hc : c = Char.ofNat c.toNat := (Char.ofNat_toNat c).symm
    simp only [Char.reduceToNat] at h
    unfold IsHexChar
    split_ifs at h with h1 h2 h3
    · obtain ⟨a, b⟩ := h1
      rw [hc]
      interval_cases c.toNat <;> decide
    · obtain ⟨a, b⟩ := h2
      rw [hc]
      interval_cases c.toNat <;> decide
    · obtain ⟨a, b⟩ := h3
      rw [hc]
      interval_cases c.toNat <;> decide
    · simp at h
  · intro h
    unfold IsHexChar at h
    simp only [List.mem_cons, List.mem_singleton] at h
    simp at h
    rcases h with h | h | h | h | h | h | h | h | h | h | h | h | h | h | h | h | h | h | h | h | h | h <;>
      (subst h; decide)

theorem hexDecode_ok_iff (l : List Char) :
    (∃ bytes, hexDecode l = Except.ok bytes) ↔ (l.length % 2 = 0 ∧ ∀ c ∈ l, IsHexChar c) := by
  induction l using hexDecode.induct with
  | case1 => simp [hexDecode]
  | case2 p h => simp [hexDecode, h]
  | case3 p a h => simp [hexDecode, h]
  | case4 p q rest h =>
    have : ¬ IsHexChar p := by
      rw [← fromHexChar_isSome_iff]; simp [h]
    simp [hexDecode, h, this]
  | case5 p q rest a h1 h2 =>
    have : ¬ IsHexChar q := by
      rw [← fromHexChar_isSome_iff]; simp [h2]
    simp [hexDecode, h1, h2, this]
  | case6 p q rest a h1 b h2 err h3 ih =>
    have hp : IsHexChar p := by
      rw [← fromHexChar_isSome_iff]; simp [h1]
    have hq : IsHexChar q := by
      rw [← fromHexChar_isSome_iff]; simp [h2]
    simp [h3] at ih
    simp [hexDecode, h1, h2, h3, hp, hq]
    intro hlen
    exact ih (by omega)
  | case7 p q rest a h1 b h2 bytes h3 ih =>
    have hp : IsHexChar p := by
      rw [← fromHexChar_isSome_iff]; simp [h1]
    have hq : IsHexChar q := by
      rw [← fromHexChar_isSome_iff]; simp [h2]
    simp [h3] at ih
    simp [hexDecode, h1, h2, h3, hp, hq]
    exact ⟨by omega, ih.2⟩

theorem utf8Size_of_hex (c : Char) (h : IsHexChar c) : c.utf8Size = 1 := by
  unfold IsHexChar at h
  simp at h
  rcases h with h | h | h | h | h | h | h | h | h | h | h | h | h | h | h | h | h | h | h | h | h | h <;>
    (subst h; decide)

theorem utf8ByteSize_go_of_hex (l : List Char) (h : ∀ c ∈ l, IsHexChar c) :
    String.utf8ByteSize.go l = l.length := by
  induction l with
  | nil => rfl
  | cons c cs ih =>
    simp only [String.utf8ByteSize.go, List.length_cons]
    rw [ih (fun c hc => h c (List.mem_cons_of_mem _ hc)), utf8Size_of_hex c (h c (List.mem_cons_self _ _))]

theorem len_of_hex (s : String) (h : ∀ c ∈ s.data, IsHexChar c) : len s = s.length := by
  obtain ⟨l⟩ := s
  exact utf8ByteSize_go_of_hex l h

/-- The two hash checks of `CreateEvidence` pass exactly on the strings of 64
hexadecimal digits. -/
theorem hash_checks_iff (hash : String) :
    (len hash = 64 ∧ ∃ bytes, hexDecodeString hash = Except.ok bytes) ↔
      (hash.length = 64 ∧ ∀ c ∈ hash.data, IsHexChar c) := by
  unfold hexDecodeString
  rw [hexDecode_ok_iff]
  constructor
  · rintro ⟨h1, -, h3⟩
    exact ⟨by rw [← len_of_hex hash h3]; exact h1, h3⟩
  · rintro ⟨h1, h2⟩
    refine ⟨by rw [len_of_hex hash h2]; exact h1, ?_, h2⟩
    have : hash.data.length = 64 := h1
    omega

/-- What `CreateEvidence` does on valid arguments, a free key and a healthy stub. -/
theorem CreateEvidence_ok (stub : Stub) (st : State)
    (caseID evidenceID cid hash metadata who org : String)
    (hcase : caseID ≠ "") (hev : evidenceID ≠ "") (hcid : cid ≠ "") (hhash : IsHex64 hash)
    (hfree : lookupKey (caseID ++ ":" ++ evidenceID) st = none) (hstub : Healthy stub who org) :
    CreateEvidence stub st [caseID, evidenceID, cid, hash, metadata] =
      ⟨shimSuccess (Payload.evidence
          (Bytes.json (createdEvidence stub caseID evidenceID cid hash metadata who org))),
        insertKey (caseID ++ ":" ++ evidenceID)
          (Bytes.json (createdEvidence stub caseID evidenceID cid hash metadata who org)) st,
        some ("EvidenceCreated",
          Bytes.json (createdEvidence stub caseID evidenceID cid hash metadata who org))⟩ := by
  obtain ⟨h1, h2, h3, h4, h5⟩ := hstub
  obtain ⟨hl, bytes, hb⟩ := (hash_checks_iff hash).2 hhash
  have hne : hash ≠ "" := by
    intro h
    rw [h] at hl
    exact absurd hl (by decide)
  simp [CreateEvidence, hcase, hev, hcid, hne, hl, hb, GetState, h3, hfree, h1, getMSPID, h2,
    PutState, key_ne_empty, h4, SetEvent, h5, jsonMarshal, createdEvidence, custodyEvent]

/-- Rejection by `CreateEvidence` of invalid arguments, before any ledger access. -/
theorem CreateEvidence_invalid (stub : Stub) (st : State)
    (caseID evidenceID cid hash metadata : String)
    (h : caseID = "" ∨ evidenceID = "" ∨ cid = "" ∨ hash = "" ∨ ¬ IsHex64 hash) :
    ((CreateEvidence stub st [caseID, evidenceID, cid, hash, metadata]).response =
          shimError "caseID, evidenceID, cid, and hash cannot be empty" ∨
        (CreateEvidence stub st [caseID, evidenceID, cid, hash, metadata]).response =
          shimError "Invalid hash format. Expected SHA-256 (64 hex characters)" ∨
        (CreateEvidence stub st [caseID, evidenceID, cid, hash, metadata]).response =
          shimError "Invalid hash format. Must be hexadecimal") ∧
      (CreateEvidence stub st [caseID, evidenceID, cid, hash, metadata]).state = st := by
  by_cases hempty : caseID = "" ∨ evidenceID = "" ∨ cid = "" ∨ hash = ""
  · simp [CreateEvidence, hempty]
  · by_cases hl : len hash ≠ 64
    · simp [CreateEvidence, hempty, hl]
    · have hbad : ¬ IsHex64 hash := by
        rcases h with h | h | h | h | h
        · exact absurd (Or.inl h) hempty
        · exact absurd (Or.inr (Or.inl h)) hempty
        · exact absurd (Or.inr (Or.inr (Or.inl h))) hempty
        · exact absurd (Or.inr (Or.inr (Or.inr h))) hempty
        · exact h
      cases hd : hexDecodeString hash with
      | error err => simp [CreateEvidence, hempty, hl, hd]
      | ok bytes => exact absurd ((hash_checks_iff hash).1 ⟨not_not.1 hl, bytes, hd⟩) hbad

/-- The call of `CreateEvidence` on an occupied key, valid arguments. -/
theorem CreateEvidence_exists (stub : Stub) (st : State)
    (caseID evidenceID cid hash metadata : String) (existing : Bytes)
    (hcase : caseID ≠ "") (hev : evidenceID ≠ "") (hcid : cid ≠ "") (hhash : IsHex64 hash)
    (hget : stub.GetStateErr = none)
    (hex : lookupKey (caseID ++ ":" ++ evidenceID) st = some existing) :
    CreateEvidence stub st [caseID, evidenceID, cid, hash, metadata] =
      ⟨shimError ("Evidence already exists: " ++ (caseID ++ ":" ++ evidenceID)), st, none⟩ := by
  obtain ⟨hl, bytes, hb⟩ := (hash_checks_iff hash).2 hhash
  have hne : hash ≠ "" := by
    intro h
    rw [h] at hl
    exact absurd hl (by decide)
  simp [CreateEvidence, hcase, hev, hcid, hne, hl, hb, GetState, hget, hex]

/-- The call of `TransferCustody` on a record that is `ACTIVE` or `REACTIVATED`. -/
theorem TransferCustody_ok (stub : Stub) (st : State)
    (caseID evidenceID newCustodian transferReason who org : String) (e : Evidence)
    (hrec : lookupKey (caseID ++ ":" ++ evidenceID) st = some (Bytes.json e))
    (hstatus : e.Status = StatusActive ∨ e.Status = StatusReactivated)
    (hstub : Healthy stub who org) :
    TransferCustody stub st [caseID, evidenceID, newCustodian, transferReason] =
      ⟨shimSuccess (Payload.evidence (Bytes.json
          { e with
            CurrentOwner := newCustodian
            OwnerOrgMSP := org
            UpdatedAt := stub.Now
            Events := e.Events ++ [custodyEvent stub "TRANSFER" who org
              ("Custody transferred to " ++ newCustodian ++ ". Reason: " ++ transferReason)] })),
        insertKey (caseID ++ ":" ++ evidenceID) (Bytes.json
          { e with
            CurrentOwner := newCustodian
            OwnerOrgMSP := org
            UpdatedAt := stub.Now
            Events := e.Events ++ [custodyEvent stub "TRANSFER" who org
              ("Custody transferred to " ++ newCustodian ++ ". Reason: " ++ transferReason)] }) st,
        some ("CustodyTransferred", Bytes.json
          { e with
            CurrentOwner := newCustodian
            OwnerOrgMSP := org
            UpdatedAt := stub.Now
            Events := e.Events ++ [custodyEvent stub "TRANSFER" who org
              ("Custody transferred to " ++ newCustodian ++ ". Reason: " ++ transferReason)] })⟩ := by
  obtain ⟨h1, h2, h3, h4, h5⟩ := hstub
  have hcond : ¬ (e.Status ≠ StatusActive ∧ e.Status ≠ StatusReactivated) := by
    rintro ⟨ha, hb⟩
    rcases hstatus with h | h
    · exact ha h
    · exact hb h
  simp only [TransferCustody, GetState, h3, hrec, jsonUnmarshal, if_neg hcond, getMSPID, h2, h1,
    PutState, key_ne_empty, if_false, h4, SetEvent, h5, jsonMarshal, custodyEvent]
  simp

/-- The call of `TransferCustody` on a record that is neither `ACTIVE` nor `REACTIVATED`. -/
theorem TransferCustody_reject (stub : Stub) (st : State)
    (caseID evidenceID newCustodian transferReason : String) (e : Evidence)
    (hrec : lookupKey (caseID ++ ":" ++ evidenceID) st = some (Bytes.json e))
    (hstatus : e.Status ≠ StatusActive ∧ e.Status ≠ StatusReactivated)
    (hget : stub.GetStateErr = none) :
    TransferCustody stub st [caseID, evidenceID, newCustodian, transferReason] =
      ⟨shimError ("Cannot transfer custody. Evidence status is: " ++ e.Status), st, none⟩ := by
  simp only [TransferCustody, GetState, hget, hrec, jsonUnmarshal, if_pos hstatus]

/-- The call of `ArchiveToCold` on an `ACTIVE` record. -/
theorem ArchiveToCold_ok (stub : Stub) (st : State)
    (caseID evidenceID archiveReason who org : String) (e : Evidence)
    (hrec : lookupKey (caseID ++ ":" ++ evidenceID) st = some (Bytes.json e))
    (hstatus : e.Status = StatusActive) (hstub : Healthy stub who org) :
    ArchiveToCold stub st [caseID, evidenceID, archiveReason] =
      ⟨shimSuccess (Payload.evidence (Bytes.json
          { e with
            Status := StatusArchived
            UpdatedAt := stub.Now
            Events := e.Events ++ [custodyEvent stub "ARCHIVE" who org
              ("Evidence archived to cold chain. Reason: " ++ archiveReason)] })),
        insertKey (caseID ++ ":" ++ evidenceID) (Bytes.json
          { e with
            Status := StatusArchived
            UpdatedAt := stub.Now
            Events := e.Events ++ [custodyEvent stub "ARCHIVE" who org
              ("Evidence archived to cold chain. Reason: " ++ archiveReason)] }) st,
        some ("EvidenceArchived", Bytes.json
          { e with
            Status := StatusArchived
            UpdatedAt := stub.Now
            Events := e.Events ++ [custodyEvent stub "ARCHIVE" who org
              ("Evidence archived to cold chain. Reason: " ++ archiveReason)] })⟩ := by
  obtain ⟨h1, h2, h3, h4, h5⟩ := hstub
  have hcond : ¬ (e.Status ≠ StatusActive) := not_not.2 hstatus
  simp only [ArchiveToCold, GetState, h3, hrec, jsonUnmarshal, if_neg hcond, getMSPID, h2, h1,
    PutState, key_ne_empty, if_false, h4, SetEvent, h5, jsonMarshal, custodyEvent]
  simp

/-- The call of `ArchiveToCold` on a record that is not `ACTIVE`. -/
theorem ArchiveToCold_reject (stub : Stub) (st : State)
    (caseID evidenceID archiveReason : String) (e : Evidence)
    (hrec : lookupKey (caseID ++ ":" ++ evidenceID) st = some (Bytes.json e))
    (hstatus : e.Status ≠ StatusActive) (hget : stub.GetStateErr = none) :
    ArchiveToCold stub st [caseID, evidenceID, archiveReason] =
      ⟨shimError ("Cannot archive evidence. Current status: " ++ e.Status), st, none⟩ := by
  simp only [ArchiveToCold, GetState, hget, hrec, jsonUnmarshal, if_pos hstatus]

/-- The call of `ReactivateFromCold` on an `ARCHIVED` record. -/
theorem ReactivateFromCold_ok (stub : Stub) (st : State)
    (caseID evidenceID reactivationReason who org : String) (e : Evidence)
    (hrec : lookupKey (caseID ++ ":" ++ evidenceID) st = some (Bytes.json e))
    (hstatus : e.Status = StatusArchived) (hstub : Healthy stub who org) :
    ReactivateFromCold stub st [caseID, evidenceID, reactivationReason] =
      ⟨shimSuccess (Payload.evidence (Bytes.json
          { e with
            Status := StatusReactivated
            UpdatedAt := stub.Now
            Events := e.Events ++ [custodyEvent stub "REACTIVATE" who org
              ("Evidence reactivated from cold chain. Reason: " ++ reactivationReason)] })),
        insertKey (caseID ++ ":" ++ evidenceID) (Bytes.json
          { e with
            Status := StatusReactivated
            UpdatedAt := stub.Now
            Events := e.Events ++ [custodyEvent stub "REACTIVATE" who org
              ("Evidence reactivated from cold chain. Reason: " ++ reactivationReason)] }) st,
        some ("EvidenceReactivated", Bytes.json
          { e with
            Status := StatusReactivated
            UpdatedAt := stub.Now
            Events := e.Events ++ [custodyEvent stub "REACTIVATE" who org
              ("Evidence reactivated from cold chain. Reason: " ++ reactivationReason)] })⟩ := by
  obtain ⟨h1, h2, h3, h4, h5⟩ := hstub
  have hcond : ¬ (e.Status ≠ StatusArchived) := not_not.2 hstatus
  simp only [ReactivateFromCold, GetState, h3, hrec, jsonUnmarshal, if_neg hcond, getMSPID, h2,
    h1, PutState, key_ne_empty, if_false, h4, SetEvent, h5, jsonMarshal, custodyEvent]
  simp

/-- The call of `ReactivateFromCold` on a record that is not `ARCHIVED`. -/
theorem ReactivateFromCold_reject (stub : Stub) (st : State)
    (caseID evidenceID reactivationReason : String) (e : Evidence)
    (hrec : lookupKey (caseID ++ ":" ++ evidenceID) st = some (Bytes.json e))
    (hstatus : e.Status ≠ StatusArchived) (hget : stub.GetStateErr = none) :
    ReactivateFromCold stub st [caseID, evidenceID, reactivationReason] =
      ⟨shimError ("Cannot reactivate evidence. Current status: " ++ e.Status), st, none⟩ := by
  simp only [ReactivateFromCold, GetState, hget, hrec, jsonUnmarshal, if_pos hstatus]

/-- The call of `InvalidateEvidence` on any record. -/
theorem InvalidateEvidence_ok (stub : Stub) (st : State)
    (caseID evidenceID reason wrongTxID who org : String) (e : Evidence)
    (hrec : lookupKey (caseID ++ ":" ++ evidenceID) st = some (Bytes.json e))
    (hstub : Healthy stub who org) :
    InvalidateEvidence stub st [caseID, evidenceID, reason, wrongTxID] =
      ⟨shimSuccess (Payload.evidence (Bytes.json
          { e with
            Status := StatusInvalidated
            UpdatedAt := stub.Now
            Events := e.Events ++ [custodyEvent stub "INVALIDATE" who org
              ("Evidence invalidated. Reason: " ++ reason ++ ". Wrong TxID: " ++ wrongTxID)] })),
        insertKey (caseID ++ ":" ++ evidenceID) (Bytes.json
          { e with
            Status := StatusInvalidated
            UpdatedAt := stub.Now
            Events := e.Events ++ [custodyEvent stub "INVALIDATE" who org
              ("Evidence invalidated. Reason: " ++ reason ++ ". Wrong TxID: " ++ wrongTxID)] }) st,
        some ("EvidenceInvalidated", Bytes.json
          { e with
            Status := StatusInvalidated
            UpdatedAt := stub.Now
            Events := e.Events ++ [custodyEvent stub "INVALIDATE" who org
              ("Evidence invalidated. Reason: " ++ reason ++ ". Wrong TxID: " ++ wrongTxID)] })⟩ := by
  obtain ⟨h1, h2, h3, h4, h5⟩ := hstub
  simp only [InvalidateEvidence, GetState, h3, hrec, jsonUnmarshal, getMSPID, h2, h1,
    PutState, key_ne_empty, if_false, h4, SetEvent, h5, jsonMarshal, custodyEvent]
  simp

/-- Two messages that start with different characters differ. -/
theorem append_ne_of_head (c d : Char) (p q a b : String)
    (hp : p.data.head? = some c) (hq : q.data.head? = some d) (h : c ≠ d) : p ++ a ≠ q ++ b := by
  intro heq
  have h1 : (p ++ a).data.head? = (q ++ b).data.head? := by rw [heq]
  obtain ⟨pl⟩ := p
  obtain ⟨ql⟩ := q
  cases pl with
  | nil => simp at hp
  | cons x xs =>
    cases ql with
    | nil => simp at hq
    | cons y ys =>
      simp at hp hq h1
      exact h (by rw [← hp, ← hq, h1])

/-- The call of `TransferCustody` without a record at the key. -/
theorem TransferCustody_absent (stub : Stub) (st : State)
    (caseID evidenceID newCustodian transferReason : String)
    (hrec : lookupKey (caseID ++ ":" ++ evidenceID) st = none) (hget : stub.GetStateErr = none) :
    TransferCustody stub st [caseID, evidenceID, newCustodian, transferReason] =
      ⟨shimError ("Evidence not found: " ++ (caseID ++ ":" ++ evidenceID)), st, none⟩ := by
  simp only [TransferCustody, GetState, hget, hrec]

/-- Dispatch: `Invoke` routes every call of `Op` to its function. -/
theorem applyOp_eq (caseID evidenceID : String) (stub : Stub) (st : State) (op : Op) :
    applyOp caseID evidenceID stub st op =
      match op with
      | Op.create cid hash metadata =>
        CreateEvidence stub st [caseID, evidenceID, cid, hash, metadata]
      | Op.transfer newCustodian transferReason =>
        TransferCustody stub st [caseID, evidenceID, newCustodian, transferReason]
      | Op.archive archiveReason => ArchiveToCold stub st [caseID, evidenceID, archiveReason]
      | Op.reactivate reactivationReason =>
        ReactivateFromCold stub st [caseID, evidenceID, reactivationReason]
      | Op.invalidate reason wrongTxID =>
        InvalidateEvidence stub st [caseID, evidenceID, reason, wrongTxID] := by
  cases op <;> rfl

theorem ArchiveToCold_absent (stub : Stub) (st : State) (caseID evidenceID archiveReason : String)
    (hrec : lookupKey (caseID ++ ":" ++ evidenceID) st = none) (hget : stub.GetStateErr = none) :
    ArchiveToCold stub st [caseID, evidenceID, archiveReason] =
      ⟨shimError ("Evidence not found: " ++ (caseID ++ ":" ++ evidenceID)), st, none⟩ := by
  simp only [ArchiveToCold, GetState, hget, hrec]

theorem ReactivateFromCold_absent (stub : Stub) (st : State)
    (caseID evidenceID reactivationReason : String)
    (hrec : lookupKey (caseID ++ ":" ++ evidenceID) st = none) (hget : stub.GetStateErr = none) :
    ReactivateFromCold stub st [caseID, evidenceID, reactivationReason] =
      ⟨shimError ("Evidence not found: " ++ (caseID ++ ":" ++ evidenceID)), st, none⟩ := by
  simp only [ReactivateFromCold, GetState, hget, hrec]

theorem InvalidateEvidence_absent (stub : Stub) (st : State)
    (caseID evidenceID reason wrongTxID : String)
    (hrec : lookupKey (caseID ++ ":" ++ evidenceID) st = none) (hget : stub.GetStateErr = none) :
    InvalidateEvidence stub st [caseID, evidenceID, reason, wrongTxID] =
      ⟨shimError ("Evidence not found: " ++ (caseID ++ ":" ++ evidenceID)), st, none⟩ := by
  simp only [InvalidateEvidence, GetState, hget, hrec]

theorem stepEvent_healthy (stub : Stub) (op : Op) (who org : String) (hstub : Healthy stub who org) :
    stepEvent (stub, op) = custodyEvent stub op.eventType who org op.description := by
  obtain ⟨h1, h2, -⟩ := hstub
  simp [stepEvent, callerOf, orgOf, h1, h2]

/-- One call on a key without record: a valid creation succeeds and stores an
`ACTIVE` record with the `CREATE` event, every other call fails and writes
nothing. -/
theorem applyOp_absent (caseID evidenceID who org : String) (stub : Stub) (st : State) (op : Op)
    (hnone : lookupKey (caseID ++ ":" ++ evidenceID) st = none) (hstub : Healthy stub who org) :
    (createValid caseID evidenceID op →
      succeeded (applyOp caseID evidenceID stub st op) = true ∧
      ∃ e : Evidence,
        lookupKey (caseID ++ ":" ++ evidenceID) (applyOp caseID evidenceID stub st op).state =
          some (Bytes.json e) ∧
        e.Status = StatusActive ∧ e.Events = [stepEvent (stub, op)]) ∧
    (¬ createValid caseID evidenceID op →
      succeeded (applyOp caseID evidenceID stub st op) = false ∧
      (applyOp caseID evidenceID stub st op).state = st) := by
  have hget : stub.GetStateErr = none := hstub.2.2.1
  rw [applyOp_eq, stepEvent_healthy stub op who org hstub]
  cases op with
  | create cid hash metadata =>
    constructor
    · rintro ⟨hcase, hev, hcid, hhash⟩
      simp only []
      rw [CreateEvidence_ok stub st caseID evidenceID cid hash metadata who org hcase hev hcid
        hhash hnone hstub]
      exact ⟨rfl, _, lookupKey_insertKey_same _ _ _, rfl, rfl⟩
    · intro hbad
      have hinv : caseID = "" ∨ evidenceID = "" ∨ cid = "" ∨ hash = "" ∨ ¬ IsHex64 hash := by
        unfold createValid at hbad
        by_contra hn
        push_neg at hn
        exact hbad ⟨hn.1, hn.2.1, hn.2.2.1, hn.2.2.2.2⟩
      obtain ⟨hr, hs⟩ := CreateEvidence_invalid stub st caseID evidenceID cid hash metadata hinv
      refine ⟨?_, hs⟩
      simp only [succeeded]
      rcases hr with hr | hr | hr <;> rw [hr] <;> rfl
  | transfer newCustodian transferReason =>
    refine ⟨fun h => absurd h (by simp [createValid]), fun _ => ?_⟩
    simp only []
    rw [TransferCustody_absent stub st caseID evidenceID newCustodian transferReason hnone hget]
    exact ⟨rfl, rfl⟩
  | archive archiveReason =>
    refine ⟨fun h => absurd h (by simp [createValid]), fun _ => ?_⟩
    simp only []
    rw [ArchiveToCold_absent stub st caseID evidenceID archiveReason hnone hget]
    exact ⟨rfl, rfl⟩
  | reactivate reactivationReason =>
    refine ⟨fun h => absurd h (by simp [createValid]), fun _ => ?_⟩
    simp only []
    rw [ReactivateFromCold_absent stub st caseID evidenceID reactivationReason hnone hget]
    exact ⟨rfl, rfl⟩
  | invalidate reason wrongTxID =>
    refine ⟨fun h => absurd h (by simp [createValid]), fun _ => ?_⟩
    simp only []
    rw [InvalidateEvidence_absent stub st caseID evidenceID reason wrongTxID hnone hget]
    exact ⟨rfl, rfl⟩

/-- One call on a key with a record: along an edge of the transition graph the
call succeeds, the status becomes the target of the edge and the event of the
call is appended; without an edge the call fails and writes nothing. -/
theorem applyOp_present (caseID evidenceID who org : String) (stub : Stub) (st : State) (op : Op)
    (e : Evidence) (hrec : lookupKey (caseID ++ ":" ++ evidenceID) st = some (Bytes.json e))
    (hstub : Healthy stub who org) :
    (∀ s1 : EvidenceStatus, graphNext e.Status op = some s1 →
      succeeded (applyOp caseID evidenceID stub st op) = true ∧
      ∃ e1 : Evidence,
        lookupKey (caseID ++ ":" ++ evidenceID) (applyOp caseID evidenceID stub st op).state =
          some (Bytes.json e1) ∧
        e1.Status = s1 ∧ e1.Events = e.Events ++ [stepEvent (stub, op)]) ∧
    (graphNext e.Status op = none →
      succeeded (applyOp caseID evidenceID stub st op) = false ∧
      (applyOp caseID evidenceID stub st op).state = st) := by
  have hget : stub.GetStateErr = none := hstub.2.2.1
  rw [applyOp_eq, stepEvent_healthy stub op who org hstub]
  cases op with
  | create cid hash metadata =>
    refine ⟨fun s1 h => absurd h (by simp [graphNext]), fun _ => ?_⟩
    simp only []
    by_cases hinv : caseID = "" ∨ evidenceID = "" ∨ cid = "" ∨ hash = "" ∨ ¬ IsHex64 hash
    · obtain ⟨hr, hs⟩ := CreateEvidence_invalid stub st caseID evidenceID cid hash metadata hinv
      refine ⟨?_, hs⟩
      simp only [succeeded]
      rcases hr with hr | hr | hr <;> rw [hr] <;> rfl
    · push_neg at hinv
      rw [CreateEvidence_exists stub st caseID evidenceID cid hash metadata (Bytes.json e)
        hinv.1 hinv.2.1 hinv.2.2.1 hinv.2.2.2.2 hget hrec]
      exact ⟨rfl, rfl⟩
  | transfer newCustodian transferReason =>
    simp only [graphNext]
    by_cases hs : e.Status = StatusActive ∨ e.Status = StatusReactivated
    · rw [if_pos hs,
        TransferCustody_ok stub st caseID evidenceID newCustodian transferReason who org e hrec
          hs hstub]
      refine ⟨fun s1 h => ?_, fun h => absurd h (by simp)⟩
      have hs1 : e.Status = s1 := Option.some.inj h
      exact ⟨rfl, _, lookupKey_insertKey_same _ _ _, hs1, rfl⟩
    · rw [if_neg hs]
      have hs2 : e.Status ≠ StatusActive ∧ e.Status ≠ StatusReactivated := by
        push_neg at hs
        exact hs
      rw [TransferCustody_reject stub st caseID evidenceID newCustodian transferReason e hrec hs2
        hget]
      exact ⟨fun s1 h => absurd h (by simp), fun _ => ⟨rfl, rfl⟩⟩
  | archive archiveReason =>
    simp only [graphNext]
    by_cases hs : e.Status = StatusActive
    · rw [if_pos hs, ArchiveToCold_ok stub st caseID evidenceID archiveReason who org e hrec hs
        hstub]
      refine ⟨fun s1 h => ?_, fun h => absurd h (by simp)⟩
      have hs1 : StatusArchived = s1 := Option.some.inj h
      exact ⟨rfl, _, lookupKey_insertKey_same _ _ _, hs1, rfl⟩
    · rw [if_neg hs, ArchiveToCold_reject stub st caseID evidenceID archiveReason e hrec hs hget]
      exact ⟨fun s1 h => absurd h (by simp), fun _ => ⟨rfl, rfl⟩⟩
  | reactivate reactivationReason =>
    simp only [graphNext]
    by_cases hs : e.Status = StatusArchived
    · rw [if_pos hs, ReactivateFromCold_ok stub st caseID evidenceID reactivationReason who org e
        hrec hs hstub]
      refine ⟨fun s1 h => ?_, fun h => absurd h (by simp)⟩
      have hs1 : StatusReactivated = s1 := Option.some.inj h
      exact ⟨rfl, _, lookupKey_insertKey_same _ _ _, hs1, rfl⟩
    · rw [if_neg hs, ReactivateFromCold_reject stub st caseID evidenceID reactivationReason e hrec
        hs hget]
      exact ⟨fun s1 h => absurd h (by simp), fun _ => ⟨rfl, rfl⟩⟩
  | invalidate reason wrongTxID =>
    simp only [graphNext]
    rw [InvalidateEvidence_ok stub st caseID evidenceID reason wrongTxID who org e hrec hstub]
    refine ⟨fun s1 h => ?_, fun h => absurd h (by simp)⟩
    have hs1 : StatusInvalidated = s1 := Option.some.inj h
    exact ⟨rfl, _, lookupKey_insertKey_same _ _ _, hs1, rfl⟩

theorem observe_of_record (key : String) (st : State) (e : Evidence)
    (h : lookupKey key st = some (Bytes.json e)) :
    observe key st = some (e.Status, e.Events.length) := by
  simp [observe, h]

theorem observe_of_absent (key : String) (st : State) (h : lookupKey key st = none) :
    observe key st = none := by
  simp [observe, h]

/-- The code follows the specification from every pair of agreeing states. -/
theorem runTrace_refines (caseID evidenceID : String) (steps : List (Stub × Op)) :
    ∀ (st : State) (a : Option (EvidenceStatus × Nat)), AllHealthy steps →
      Agrees (caseID ++ ":" ++ evidenceID) st a →
      runTrace caseID evidenceID st steps =
        specTrace caseID evidenceID a (steps.map Prod.snd) := by
  induction steps with
  | nil => intro st a _ _; rfl
  | cons step rest ih =>
    intro st a hall hag
    obtain ⟨stub, op⟩ := step
    obtain ⟨who, org, hstub⟩ := hall (stub, op) (List.mem_cons_self _ _)
    have hrest : AllHealthy rest := fun s hs => hall s (List.mem_cons_of_mem _ hs)
    simp only [runTrace, List.map_cons, specTrace]
    cases a with
    | none =>
      have hnone : lookupKey (caseID ++ ":" ++ evidenceID) st = none := hag
      obtain ⟨hyes, hno⟩ := applyOp_absent caseID evidenceID who org stub st op hnone hstub
      by_cases hv : createValid caseID evidenceID op
      · obtain ⟨hsucc, e, hrec, hs, hev⟩ := hyes hv
        have hlen : e.Events.length = 1 + 0 := by rw [hev]; rfl
        rw [ih _ (some (StatusActive, 0)) hrest ⟨e, hrec, hs, hlen⟩, hsucc,
          observe_of_record _ _ e hrec, hs, hlen]
        simp [specStep, hv]
      · obtain ⟨hsucc, hst⟩ := hno hv
        rw [hst, ih st none hrest hnone, hsucc, observe_of_absent _ _ hnone]
        simp [specStep, hv]
    | some p =>
      obtain ⟨s, n⟩ := p
      obtain ⟨e, hrec, hs, hlen⟩ := hag
      obtain ⟨hyes, hno⟩ := applyOp_present caseID evidenceID who org stub st op e hrec hstub
      rw [hs] at hyes hno
      cases hg : graphNext s op with
      | none =>
        obtain ⟨hsucc, hst⟩ := hno hg
        rw [hst, ih st (some (s, n)) hrest ⟨e, hrec, hs, hlen⟩, hsucc,
          observe_of_record _ _ e hrec, hs, hlen]
        simp [specStep, hg]
      | some s1 =>
        obtain ⟨hsucc, e1, hrec1, hs1, hev1⟩ := hyes s1 hg
        have hlen1 : e1.Events.length = 1 + (n + 1) := by
          rw [hev1, List.length_append, hlen]; rfl
        rw [ih _ (some (s1, n + 1)) hrest ⟨e1, hrec1, hs1, hlen1⟩, hsucc,
          observe_of_record _ _ e1 hrec1, hs1, hlen1]
        simp [specStep, hg]

/-- Calls on an existing record: the final log is the log at the start followed
by the events of the successful calls, none of which is a creation. -/
theorem run_present (caseID evidenceID : String) (steps : List (Stub × Op)) :
    ∀ (st : State) (e : Evidence), AllHealthy steps →
      lookupKey (caseID ++ ":" ++ evidenceID) st = some (Bytes.json e) →
      ∃ e1 : Evidence,
        lookupKey (caseID ++ ":" ++ evidenceID) (runState caseID evidenceID st steps) =
          some (Bytes.json e1) ∧
        e1.Events = e.Events ++ (successfulSteps caseID evidenceID st steps).map stepEvent ∧
        ∀ s ∈ successfulSteps caseID evidenceID st steps, s.2.isCreate = false := by
  induction steps with
  | nil =>
    intro st e _ hrec
    exact ⟨e, hrec, by simp [successfulSteps], by simp [successfulSteps]⟩
  | cons step rest ih =>
    intro st e hall hrec
    obtain ⟨stub, op⟩ := step
    obtain ⟨who, org, hstub⟩ := hall (stub, op) (List.mem_cons_self _ _)
    have hrest : AllHealthy rest := fun s hs => hall s (List.mem_cons_of_mem _ hs)
    obtain ⟨hyes, hno⟩ := applyOp_present caseID evidenceID who org stub st op e hrec hstub
    simp only [runState, successfulSteps]
    cases hg : graphNext e.Status op with
    | none =>
      obtain ⟨hsucc, hst⟩ := hno hg
      rw [hsucc, hst]
      simpa using ih st e hrest hrec
    | some s1 =>
      obtain ⟨hsucc, e1, hrec1, -, hev1⟩ := hyes s1 hg
      obtain ⟨e2, hrec2, hev2, hnc⟩ := ih _ e1 hrest hrec1
      rw [hsucc]
      refine ⟨e2, hrec2, ?_, ?_⟩
      · rw [hev2, hev1]
        simp
      · intro s hs
        simp only [if_true, List.mem_cons] at hs
        rcases hs with hs | hs
        · subst hs
          cases op <;> first | rfl | simp [graphNext] at hg
        · exact hnc s hs

/-- Calls from a store without record at the key: either nothing succeeded and
the key is still free, or the first success is a creation, no later success is,
and the log lists the events of the successful calls in order. -/
theorem run_absent (caseID evidenceID : String) (steps : List (Stub × Op)) :
    ∀ (st : State), AllHealthy steps →
      lookupKey (caseID ++ ":" ++ evidenceID) st = none →
      (lookupKey (caseID ++ ":" ++ evidenceID) (runState caseID evidenceID st steps) = none ∧
        successfulSteps caseID evidenceID st steps = []) ∨
      ∃ (e1 : Evidence) (c : Stub × Op) (muts : List (Stub × Op)),
        lookupKey (caseID ++ ":" ++ evidenceID) (runState caseID evidenceID st steps) =
          some (Bytes.json e1) ∧
        successfulSteps caseID evidenceID st steps = c :: muts ∧
        c.2.isCreate = true ∧ (∀ s ∈ muts, s.2.isCreate = false) ∧
        e1.Events = (c :: muts).map stepEvent := by
  induction steps with
  | nil =>
    intro st _ hnone
    exact Or.inl ⟨hnone, rfl⟩
  | cons step rest ih =>
    intro st hall hnone
    obtain ⟨stub, op⟩ := step
    obtain ⟨who, org, hstub⟩ := hall (stub, op) (List.mem_cons_self _ _)
    have hrest : AllHealthy rest := fun s hs => hall s (List.mem_cons_of_mem _ hs)
    obtain ⟨hyes, hno⟩ := applyOp_absent caseID evidenceID who org stub st op hnone hstub
    simp only [runState, successfulSteps]
    by_cases hv : createValid caseID evidenceID op
    · obtain ⟨hsucc, e, hrec, -, hev⟩ := hyes hv
      obtain ⟨e2, hrec2, hev2, hnc⟩ := run_present caseID evidenceID rest _ e hrest hrec
      rw [hsucc]
      refine Or.inr ⟨e2, (stub, op), _, hrec2, by simp, ?_, hnc, ?_⟩
      · cases op <;> first | rfl | exact absurd hv (by simp [createValid])
      · rw [hev2, hev]
        simp
    · obtain ⟨hsucc, hst⟩ := hno hv
      rw [hsucc, hst]
      simpa using ih st hrest hnone

theorem GetCustodyChain_record (stub : Stub) (st : State) (caseID evidenceID : String)
    (e : Evidence) (hrec : lookupKey (caseID ++ ":" ++ evidenceID) st = some (Bytes.json e))
    (hget : stub.GetStateErr = none) :
    GetCustodyChain stub st [caseID, evidenceID] =
      ⟨shimSuccess (Payload.events e.Events), st, none⟩ := by
  simp only [GetCustodyChain, GetState, hget, hrec, jsonUnmarshal]

theorem GetCustodyChain_absent (stub : Stub) (st : State) (caseID evidenceID : String)
    (hrec : lookupKey (caseID ++ ":" ++ evidenceID) st = none) (hget : stub.GetStateErr = none) :
    GetCustodyChain stub st [caseID, evidenceID] =
      ⟨shimError ("Evidence not found: " ++ (caseID ++ ":" ++ evidenceID)), st, none⟩ := by
  simp only [GetCustodyChain, GetState, hget, hrec]

theorem GetEvidenceSummary_record (stub : Stub) (st : State) (caseID evidenceID : String)
    (b : Bytes) (hrec : lookupKey (caseID ++ ":" ++ evidenceID) st = some b)
    (hget : stub.GetStateErr = none) :
    GetEvidenceSummary stub st [caseID, evidenceID] =
      ⟨shimSuccess (Payload.evidence b), st, none⟩ := by
  simp only [GetEvidenceSummary, GetState, hget, hrec]

/-- The only write of `TransferCustody`: on four arguments and a record that is
`ACTIVE` or `REACTIVATED`, the updated record under the same key. -/
theorem TransferCustody_effect (stub : Stub) (st : State) (args : List String) :
    (TransferCustody stub st args).state = st ∨
    ∃ (caseID evidenceID newCustodian transferReason who org : String) (e : Evidence),
      args = [caseID, evidenceID, newCustodian, transferReason] ∧
      lookupKey (caseID ++ ":" ++ evidenceID) st = some (Bytes.json e) ∧
      (e.Status = StatusActive ∨ e.Status = StatusReactivated) ∧
      stub.Creator = Except.ok who ∧ stub.MSPID = Except.ok org ∧
      (TransferCustody stub st args).state =
        insertKey (caseID ++ ":" ++ evidenceID) (Bytes.json
          { e with
            CurrentOwner := newCustodian
            OwnerOrgMSP := org
            UpdatedAt := stub.Now
            Events := e.Events ++ [custodyEvent stub "TRANSFER" who org
              ("Custody transferred to " ++ newCustodian ++ ". Reason: " ++ transferReason)] })
          st := by
  unfold TransferCustody
  split
  · rename_i caseID evidenceID newCustodian transferReason
    simp only [GetState, getMSPID, PutState, SetEvent, key_ne_empty, if_false, jsonMarshal]
    cases hg : stub.GetStateErr with
    | some err => exact Or.inl rfl
    | none =>
      cases hl : lookupKey (caseID ++ ":" ++ evidenceID) st with
      | none => exact Or.inl rfl
      | some b =>
        cases b with
        | invalid raw => exact Or.inl rfl
        | json e =>
          simp only [jsonUnmarshal]
          by_cases hcond : e.Status ≠ StatusActive ∧ e.Status ≠ StatusReactivated
          · rw [if_pos hcond]
            exact Or.inl rfl
          · rw [if_neg hcond]
            have hstatus : e.Status = StatusActive ∨ e.Status = StatusReactivated := by
              by_contra hn
              push_neg at hn
              exact hcond hn
            cases hm : stub.MSPID with
            | error err => exact Or.inl rfl
            | ok org =>
              cases hc : stub.Creator with
              | error err => exact Or.inl rfl
              | ok who =>
                cases hp : stub.PutStateErr with
                | some err => exact Or.inl rfl
                | none =>
                  refine Or.inr ⟨caseID, evidenceID, newCustodian, transferReason, who, org, e,
                    rfl, hl, hstatus, rfl, rfl, ?_⟩
                  cases hs : stub.SetEventErr <;> simp [custodyEvent]
  · exact Or.inl rfl

/-- The only write of `ArchiveToCold`: on three arguments and an `ACTIVE`
record, the updated record under the same key. -/
theorem ArchiveToCold_effect (stub : Stub) (st : State) (args : List String) :
    (ArchiveToCold stub st args).state = st ∨
    ∃ (caseID evidenceID archiveReason who org : String) (e : Evidence),
      args = [caseID, evidenceID, archiveReason] ∧
      lookupKey (caseID ++ ":" ++ evidenceID) st = some (Bytes.json e) ∧
      e.Status = StatusActive ∧
      stub.Creator = Except.ok who ∧ stub.MSPID = Except.ok org ∧
      (ArchiveToCold stub st args).state =
        insertKey (caseID ++ ":" ++ evidenceID) (Bytes.json
          { e with
            Status := StatusArchived
            UpdatedAt := stub.Now
            Events := e.Events ++ [custodyEvent stub "ARCHIVE" who org
              ("Evidence archived to cold chain. Reason: " ++ archiveReason)] })
          st := by
  unfold ArchiveToCold
  split
  · rename_i caseID evidenceID archiveReason
    simp only [GetState, getMSPID, PutState, SetEvent, key_ne_empty, if_false, jsonMarshal]
    cases hg : stub.GetStateErr with
    | some err => exact Or.inl rfl
    | none =>
      cases hl : lookupKey (caseID ++ ":" ++ evidenceID) st with
      | none => exact Or.inl rfl
      | some b =>
        cases b with
        | invalid raw => exact Or.inl rfl
        | json e =>
          simp only [jsonUnmarshal]
          by_cases hcond : e.Status ≠ StatusActive
          · rw [if_pos hcond]
            exact Or.inl rfl
          · rw [if_neg hcond]
            cases hm : stub.MSPID with
            | error err => exact Or.inl rfl
            | ok org =>
              cases hc : stub.Creator with
              | error err => exact Or.inl rfl
              | ok who =>
                cases hp : stub.PutStateErr with
                | some err => exact Or.inl rfl
                | none =>
                  refine Or.inr ⟨caseID, evidenceID, archiveReason, who, org, e,
                    rfl, hl, not_not.1 hcond, rfl, rfl, ?_⟩
                  cases hs : stub.SetEventErr <;> simp [custodyEvent]
  · exact Or.inl rfl

/-- The only write of `ReactivateFromCold`: on three arguments and an
`ARCHIVED` record, the updated record under the same key. -/
theorem ReactivateFromCold_effect (stub : Stub) (st : State) (args : List String) :
    (ReactivateFromCold stub st args).state = st ∨
    ∃ (caseID evidenceID reactivationReason who org : String) (e : Evidence),
      args = [caseID, evidenceID, reactivationReason] ∧
      lookupKey (caseID ++ ":" ++ evidenceID) st = some (Bytes.json e) ∧
      e.Status = StatusArchived ∧
      stub.Creator = Except.ok who ∧ stub.MSPID = Except.ok org ∧
      (ReactivateFromCold stub st args).state =
        insertKey (caseID ++ ":" ++ evidenceID) (Bytes.json
          { e with
            Status := StatusReactivated
            UpdatedAt := stub.Now
            Events := e.Events ++ [custodyEvent stub "REACTIVATE" who org
              ("Evidence reactivated from cold chain. Reason: " ++ reactivationReason)] })
          st := by
  unfold ReactivateFromCold
  split
  · rename_i caseID evidenceID reactivationReason
    simp only [GetState, getMSPID, PutState, SetEvent, key_ne_empty, if_false, jsonMarshal]
    cases hg : stub.GetStateErr with
    | some err => exact Or.inl rfl
    | none =>
      cases hl : lookupKey (caseID ++ ":" ++ evidenceID) st with
      | none => exact Or.inl rfl
      | some b =>
        cases b with
        | invalid raw => exact Or.inl rfl
        | json e =>
          simp only [jsonUnmarshal]
          by_cases hcond : e.Status ≠ StatusArchived
          · rw [if_pos hcond]
            exact Or.inl rfl
          · rw [if_neg hcond]
            cases hm : stub.MSPID with
            | error err => exact Or.inl rfl
            | ok org =>
              cases hc : stub.Creator with
              | error err => exact Or.inl rfl
              | ok who =>
                cases hp : stub.PutStateErr with
                | some err => exact Or.inl rfl
                | none =>
                  refine Or.inr ⟨caseID, evidenceID, reactivationReason, who, org, e,
                    rfl, hl, not_not.1 hcond, rfl, rfl, ?_⟩
                  cases hs : stub.SetEventErr <;> simp [custodyEvent]
  · exact Or.inl rfl

/-- The only write of `InvalidateEvidence`: on four arguments and a record, the
record with status `INVALIDATED` under the same key. -/
theorem InvalidateEvidence_effect (stub : Stub) (st : State) (args : List String) :
    (InvalidateEvidence stub st args).state = st ∨
    ∃ (caseID evidenceID reason wrongTxID who org : String) (e : Evidence),
      args = [caseID, evidenceID, reason, wrongTxID] ∧
      lookupKey (caseID ++ ":" ++ evidenceID) st = some (Bytes.json e) ∧
      stub.Creator = Except.ok who ∧ stub.MSPID = Except.ok org ∧
      (InvalidateEvidence stub st args).state =
        insertKey (caseID ++ ":" ++ evidenceID) (Bytes.json
          { e with
            Status := StatusInvalidated
            UpdatedAt := stub.Now
            Events := e.Events ++ [custodyEvent stub "INVALIDATE" who org
              ("Evidence invalidated. Reason: " ++ reason ++ ". Wrong TxID: " ++ wrongTxID)] })
          st := by
  unfold InvalidateEvidence
  split
  · rename_i caseID evidenceID reason wrongTxID
    simp only [GetState, getMSPID, PutState, SetEvent, key_ne_empty, if_false, jsonMarshal]
    cases hg : stub.GetStateErr with
    | some err => exact Or.inl rfl
    | none =>
      cases hl : lookupKey (caseID ++ ":" ++ evidenceID) st with
      | none => exact Or.inl rfl
      | some b =>
        cases b with
        | invalid raw => exact Or.inl rfl
        | json e =>
          simp only [jsonUnmarshal]
          cases hm : stub.MSPID with
          | error err => exact Or.inl rfl
          | ok org =>
            cases hc : stub.Creator with
            | error err => exact Or.inl rfl
            | ok who =>
              cases hp : stub.PutStateErr with
              | some err => exact Or.inl rfl
              | none =>
                refine Or.inr ⟨caseID, evidenceID, reason, wrongTxID, who, org, e,
                  rfl, hl, rfl, rfl, ?_⟩
                cases hs : stub.SetEventErr <;> simp [custodyEvent]
  · exact Or.inl rfl

/-- The only write of `CreateEvidence`: on five valid arguments and a free key,
the fresh record under that key. -/
theorem CreateEvidence_effect (stub : Stub) (st : State) (args : List String) :
    (CreateEvidence stub st args).state = st ∨
    ∃ (caseID evidenceID cid hash metadata who org : String),
      args = [caseID, evidenceID, cid, hash, metadata] ∧
      caseID ≠ "" ∧ evidenceID ≠ "" ∧ cid ≠ "" ∧ IsHex64 hash ∧
      lookupKey (caseID ++ ":" ++ evidenceID) st = none ∧
      stub.Creator = Except.ok who ∧ stub.MSPID = Except.ok org ∧
      (CreateEvidence stub st args).state =
        insertKey (caseID ++ ":" ++ evidenceID)
          (Bytes.json (createdEvidence stub caseID evidenceID cid hash metadata who org)) st := by
  unfold CreateEvidence
  split
  · rename_i caseID evidenceID cid hash metadata
    by_cases hempty : caseID = "" ∨ evidenceID = "" ∨ cid = "" ∨ hash = ""
    · rw [if_pos hempty]
      exact Or.inl rfl
    · rw [if_neg hempty]
      by_cases hlen : len hash ≠ 64
      · rw [if_pos hlen]
        exact Or.inl rfl
      · rw [if_neg hlen]
        cases hd : hexDecodeString hash with
        | error err => exact Or.inl rfl
        | ok bytes =>
          have hhex : IsHex64 hash := (hash_checks_iff hash).1 ⟨not_not.1 hlen, bytes, hd⟩
          push_neg at hempty
          simp only [GetState, getMSPID, PutState, SetEvent, key_ne_empty, if_false, jsonMarshal]
          cases hg : stub.GetStateErr with
          | some err => exact Or.inl rfl
          | none =>
            cases hl : lookupKey (caseID ++ ":" ++ evidenceID) st with
            | some b => exact Or.inl rfl
            | none =>
              cases hc : stub.Creator with
              | error err => exact Or.inl rfl
              | ok who =>
                cases hm : stub.MSPID with
                | error err => exact Or.inl rfl
                | ok org =>
                  cases hp : stub.PutStateErr with
                  | some err => exact Or.inl rfl
                  | none =>
                    refine Or.inr ⟨caseID, evidenceID, cid, hash, metadata, who, org, rfl,
                      hempty.1, hempty.2.1, hempty.2.2.1, hhex, hl, rfl, rfl, ?_⟩
                    cases hs : stub.SetEventErr <;> simp [createdEvidence, custodyEvent]
  · exact Or.inl rfl

theorem GetEvidenceSummary_state (stub : Stub) (st : State) (args : List String) :
    (GetEvidenceSummary stub st args).state = st := by
  unfold GetEvidenceSummary
  split
  · simp only []
    split <;> rfl
  · rfl

theorem GetCustodyChain_state (stub : Stub) (st : State) (args : List String) :
    (GetCustodyChain stub st args).state = st := by
  unfold GetCustodyChain
  split
  · simp only []
    split
    · rfl
    · rfl
    · split <;> rfl
  · rfl

theorem QueryEvidencesByCase_state (stub : Stub) (st : State) (args : List String) :
    (QueryEvidencesByCase stub st args).state = st := by
  unfold QueryEvidencesByCase
  split
  · split
    · rfl
    · split <;> rfl
  · rfl

/-- A write under one key keeps an `INVALIDATED` record under `key`, provided
the write under `key` itself carries that status. -/
theorem invalidated_after_insert (key other : String) (st : State) (e e1 : Evidence)
    (hrec : lookupKey key st = some (Bytes.json e)) (hs : e.Status = StatusInvalidated)
    (hsame : other = key → e1.Status = StatusInvalidated) :
    ∃ e2 : Evidence,
      lookupKey key (insertKey other (Bytes.json e1) st) = some (Bytes.json e2) ∧
      e2.Status = StatusInvalidated := by
  by_cases hk : other = key
  · subst hk
    exact ⟨e1, lookupKey_insertKey_same _ _ _, hsame rfl⟩
  · have hne : key ≠ other := fun h => hk h.symm
    exact ⟨e, by rw [lookupKey_insertKey_other other key _ st hne]; exact hrec, hs⟩

/-- No invocation takes the record under `key` out of `INVALIDATED`. -/
theorem Invoke_keeps_invalidated (key : String) (stub : Stub) (st : State) (function : String)
    (args : List String) (e : Evidence) (hrec : lookupKey key st = some (Bytes.json e))
    (hs : e.Status = StatusInvalidated) :
    ∃ e1 : Evidence,
      lookupKey key (Invoke stub st function args).state = some (Bytes.json e1) ∧
      e1.Status = StatusInvalidated := by
  have hkeep : ∀ st1 : State, st1 = st →
      ∃ e1 : Evidence, lookupKey key st1 = some (Bytes.json e1) ∧
        e1.Status = StatusInvalidated := by
    intro st1 h
    subst h
    exact ⟨e, hrec, hs⟩
  have hA : e.Status ≠ StatusActive := by rw [hs]; decide
  have hR : e.Status ≠ StatusReactivated := by rw [hs]; decide
  have hC : e.Status ≠ StatusArchived := by rw [hs]; decide
  unfold Invoke
  split_ifs
  · rcases CreateEvidence_effect stub st args with h | ⟨c, ev, cid, hash, md, who, org, -, -, -,
      -, -, hfree, -, -, h⟩
    · exact hkeep _ h
    · rw [h]
      refine invalidated_after_insert key _ st e _ hrec hs (fun hk => ?_)
      rw [hk, hrec] at hfree
      exact absurd hfree (by simp)
  · rcases TransferCustody_effect stub st args with h | ⟨c, ev, nc, tr, who, org, e0, -, hl, hst,
      -, -, h⟩
    · exact hkeep _ h
    · rw [h]
      refine invalidated_after_insert key _ st e _ hrec hs (fun hk => ?_)
      rw [hk, hrec] at hl
      have he : e = e0 := by injection hl with hl; injection hl
      subst he
      rcases hst with hst | hst
      · exact absurd hst hA
      · exact absurd hst hR
  · rcases ArchiveToCold_effect stub st args with h | ⟨c, ev, r, who, org, e0, -, hl, hst, -, -,
      h⟩
    · exact hkeep _ h
    · rw [h]
      refine invalidated_after_insert key _ st e _ hrec hs (fun hk => ?_)
      rw [hk, hrec] at hl
      have he : e = e0 := by injection hl with hl; injection hl
      subst he
      exact absurd hst hA
  · rcases ReactivateFromCold_effect stub st args with h | ⟨c, ev, r, who, org, e0, -, hl, hst, -,
      -, h⟩
    · exact hkeep _ h
    · rw [h]
      refine invalidated_after_insert key _ st e _ hrec hs (fun hk => ?_)
      rw [hk, hrec] at hl
      have he : e = e0 := by injection hl with hl; injection hl
      subst he
      exact absurd hst hC
  · rcases InvalidateEvidence_effect stub st args with h | ⟨c, ev, r, w, who, org, e0, -, hl, -,
      -, h⟩
    · exact hkeep _ h
    · rw [h]
      exact invalidated_after_insert key _ st e _ hrec hs (fun _ => rfl)
  · exact hkeep _ (GetEvidenceSummary_state stub st args)
  · exact hkeep _ (QueryEvidencesByCase_state stub st args)
  · exact hkeep _ (GetCustodyChain_state stub st args)
  · exact hkeep _ rfl

theorem invokeAll_keeps_invalidated (key : String)
    (calls : List (Stub × String × List String)) :
    ∀ (st : State) (e : Evidence), lookupKey key st = some (Bytes.json e) →
      e.Status = StatusInvalidated →
      ∃ e1 : Evidence, lookupKey key (invokeAll st calls) = some (Bytes.json e1) ∧
        e1.Status = StatusInvalidated := by
  induction calls with
  | nil => intro st e hrec hs; exact ⟨e, hrec, hs⟩
  | cons call rest ih =>
    intro st e hrec hs
    obtain ⟨stub, function, args⟩ := call
    obtain ⟨e1, hrec1, hs1⟩ := Invoke_keeps_invalidated key stub st function args e hrec hs
    exact ih _ e1 hrec1 hs1

/-- A key whose first character is not U+0000 is not below a bound that starts
with U+0000. -/
theorem keyLt_nul_false (key bound : String) (c : Char)
    (hk : key.data.head? = some c) (hc : c.toNat ≠ 0)
    (hb : bound.data.head? = some (Char.ofNat 0)) : keyLt key bound = false := by
  have h0 : (Char.ofNat 0).toNat = 0 := by decide
  have hpos : 0 < c.toNat := Nat.pos_of_ne_zero hc
  obtain ⟨kl⟩ := key
  obtain ⟨bl⟩ := bound
  cases kl with
  | nil => simp at hk
  | cons x xs =>
    cases bl with
    | nil => simp at hb
    | cons y ys =>
      simp at hk hb
      subst hk hb
      simp [keyLt, bytesLt, h0, hpos]

/-- A range that ends at a key of the composite key namespace holds no key that
starts outside of it. -/
theorem rangeKeys_single_nul (startKey endKey key : String) (b : Bytes) (c : Char)
    (hk : key.data.head? = some c) (hc : c.toNat ≠ 0)
    (hb : endKey.data.head? = some (Char.ofNat 0)) :
    rangeKeys startKey endKey [(key, b)] = [] := by
  simp [rangeKeys, keyLt_nul_false key endKey c hk hc hb]

/-- On a store that holds one value under the plain key `caseID:evidenceID`,
the partial composite key query for `caseID` does not reach that value. -/
theorem QueryEvidencesByCase_single (reader : Stub) (caseID evidenceID : String) (b : Bytes)
    (hcase : caseID ≠ "") :
    (QueryEvidencesByCase reader [(caseID ++ ":" ++ evidenceID, b)] [caseID]).response =
        shimSuccess (Payload.evidenceList []) ∨
      (QueryEvidencesByCase reader [(caseID ++ ":" ++ evidenceID, b)]
        [caseID]).response.Status = 500 := by
  unfold QueryEvidencesByCase
  simp only [GetStateByPartialCompositeKey, CreateCompositeKey, List.foldl]
  have hempty : validateCompositeKeyAttribute "" = Except.ok () := rfl
  rw [hempty]
  simp only []
  by_cases hany : caseID.data.any (fun c => c.toNat == 0 || c.toNat == 0x10FFFF) = true
  · right
    simp [validateCompositeKeyAttribute, hany, shimError]
  · have hval : validateCompositeKeyAttribute caseID = Except.ok () := by
      simp only [validateCompositeKeyAttribute, if_neg hany]
    rw [hval]
    simp only []
    cases hr : reader.RangeErr with
    | some err =>
      right
      rfl
    | none =>
      left
      simp only []
      obtain ⟨l⟩ := caseID
      cases l with
      | nil => exact absurd rfl hcase
      | cons c cs =>
        have hc : c.toNat ≠ 0 := by
          intro h0
          apply hany
          simp [h0]
        rw [rangeKeys_single_nul _ _ _ b c (by simp) hc (by simp)]
        rfl

/-- After a valid creation on the empty store, the query for the case of the
new record either fails or returns the empty list. -/
theorem QueryEvidencesByCase_after_create (stub reader : Stub)
    (caseID evidenceID cid hash metadata who org : String)
    (hcase : caseID ≠ "") (hev : evidenceID ≠ "") (hcid : cid ≠ "") (hhash : IsHex64 hash)
    (hstub : Healthy stub who org) :
    (CreateEvidence stub [] [caseID, evidenceID, cid, hash, metadata]).response.Status = 200 ∧
    ((QueryEvidencesByCase reader
        (CreateEvidence stub [] [caseID, evidenceID, cid, hash, metadata]).state
        [caseID]).response = shimSuccess (Payload.evidenceList []) ∨
      (QueryEvidencesByCase reader
        (CreateEvidence stub [] [caseID, evidenceID, cid, hash, metadata]).state
        [caseID]).response.Status = 500) := by
  rw [CreateEvidence_ok stub [] caseID evidenceID cid hash metadata who org hcase hev hcid hhash
    rfl hstub]
  exact ⟨rfl, QueryEvidencesByCase_single reader caseID evidenceID _ hcase⟩

/-- A message whose first eleven characters are not `Failed to e` is not the
report of a failed notification. -/
theorem not_emit_failure (msg : String) (h : msg.data.take 11 ≠ "Failed to e".data) (err : String) :
    shimError msg ≠ shimError ("Failed to emit event: " ++ err) := by
  intro heq
  have hm : msg = "Failed to emit event: " ++ err := congrArg Response.Message heq
  apply h
  rw [hm, String.data_append, List.take_append_of_le_length (by decide)]
  decide

/-- The same for a message that starts with a fixed text of eleven characters or more. -/
theorem not_emit_failure_append (p x : String) (hlen : 11 ≤ p.data.length)
    (h : p.data.take 11 ≠ "Failed to e".data) (err : String) :
    shimError (p ++ x) ≠ shimError ("Failed to emit event: " ++ err) := by
  apply not_emit_failure
  rw [String.data_append, List.take_append_of_le_length hlen]
  exact h

/-- An early error return is a call without write. -/
theorem noWrite_error (msg : String) (st : State)
    (h : ∀ err : String, shimError msg ≠ shimError ("Failed to emit event: " ++ err)) :
    NoWrite ⟨shimError msg, st, none⟩ st :=
  ⟨rfl, rfl, rfl, h⟩

/-- Every call of `TransferCustody` either ends before any write, or writes the
transferred record under the key of an `ACTIVE` or `REACTIVATED` record. -/
theorem TransferCustody_outcome (stub : Stub) (st : State) (args : List String) :
    NoWrite (TransferCustody stub st args) st ∨
    ∃ (caseID evidenceID newCustodian transferReason who org : String) (e : Evidence),
      args = [caseID, evidenceID, newCustodian, transferReason] ∧
      lookupKey (caseID ++ ":" ++ evidenceID) st = some (Bytes.json e) ∧
      (e.Status = StatusActive ∨ e.Status = StatusReactivated) ∧
      stub.Creator = Except.ok who ∧ stub.MSPID = Except.ok org ∧
      Wrote stub (TransferCustody stub st args) st (caseID ++ ":" ++ evidenceID)
        (Bytes.json (transferredEvidence stub e newCustodian transferReason who org))
        "CustodyTransferred" := by
  unfold TransferCustody
  split
  · rename_i caseID evidenceID newCustodian transferReason
    simp only [GetState, getMSPID, PutState, SetEvent, key_ne_empty, if_false, jsonMarshal]
    cases hg : stub.GetStateErr with
    | some err =>
      exact Or.inl (noWrite_error _ _ (not_emit_failure_append _ _ (by decide) (by decide)))
    | none =>
      cases hl : lookupKey (caseID ++ ":" ++ evidenceID) st with
      | none =>
        exact Or.inl (noWrite_error _ _ (not_emit_failure_append _ _ (by decide) (by decide)))
      | some b =>
        cases b with
        | invalid raw =>
          exact Or.inl (noWrite_error _ _ (not_emit_failure_append _ _ (by decide) (by decide)))
        | json e =>
          simp only [jsonUnmarshal]
          by_cases hcond : e.Status ≠ StatusActive ∧ e.Status ≠ StatusReactivated
          · rw [if_pos hcond]
            exact Or.inl (noWrite_error _ _
              (not_emit_failure_append _ _ (by decide) (by decide)))
          · rw [if_neg hcond]
            have hstatus : e.Status = StatusActive ∨ e.Status = StatusReactivated := by
              by_contra hn
              push_neg at hn
              exact hcond hn
            cases hm : stub.MSPID with
            | error err =>
              exact Or.inl (noWrite_error _ _
                (not_emit_failure_append _ _ (by decide) (by decide)))
            | ok org =>
              cases hc : stub.Creator with
              | error err =>
                exact Or.inl (noWrite_error _ _
                  (not_emit_failure_append _ _ (by decide) (by decide)))
              | ok who =>
                cases hp : stub.PutStateErr with
                | some err =>
                  exact Or.inl (noWrite_error _ _
                    (not_emit_failure_append _ _ (by decide) (by decide)))
                | none =>
                  refine Or.inr ⟨caseID, evidenceID, newCustodian, transferReason, who, org, e,
                    rfl, hl, hstatus, rfl, rfl, ?_⟩
                  cases hs : stub.SetEventErr with
                  | none =>
                    exact ⟨by simp [transferredEvidence, custodyEvent],
                      Or.inl ⟨hs, by simp [hs, transferredEvidence, custodyEvent],
                        by simp [hs, transferredEvidence, custodyEvent]⟩⟩
                  | some err =>
                    exact ⟨by simp [transferredEvidence, custodyEvent],
                      Or.inr ⟨err, hs, by simp [hs], by simp [hs]⟩⟩
  · exact Or.inl (noWrite_error _ _ (not_emit_failure _ (by decide)))

/-- Every call of `ArchiveToCold` either ends before any write, or writes the
archived record under the key of an `ACTIVE` record. -/
theorem ArchiveToCold_outcome (stub : Stub) (st : State) (args : List String) :
    NoWrite (ArchiveToCold stub st args) st ∨
    ∃ (caseID evidenceID archiveReason who org : String) (e : Evidence),
      args = [caseID, evidenceID, archiveReason] ∧
      lookupKey (caseID ++ ":" ++ evidenceID) st = some (Bytes.json e) ∧
      e.Status = StatusActive ∧
      stub.Creator = Except.ok who ∧ stub.MSPID = Except.ok org ∧
      Wrote stub (ArchiveToCold stub st args) st (caseID ++ ":" ++ evidenceID)
        (Bytes.json (archivedEvidence stub e archiveReason who org)) "EvidenceArchived" := by
  unfold ArchiveToCold
  split
  · rename_i caseID evidenceID archiveReason
    simp only [GetState, getMSPID, PutState, SetEvent, key_ne_empty, if_false, jsonMarshal]
    cases hg : stub.GetStateErr with
    | some err =>
      exact Or.inl (noWrite_error _ _
        (not_emit_failure_append _ _ (by decide) (by decide)))
    | none =>
      cases hl : lookupKey (caseID ++ ":" ++ evidenceID) st with
      | none =>
        exact Or.inl (noWrite_error _ _
          (not_emit_failure_append _ _ (by decide) (by decide)))
      | some b =>
        cases b with
        | invalid raw =>
          exact Or.inl (noWrite_error _ _
            (not_emit_failure_append _ _ (by decide) (by decide)))
        | json e =>
          simp only [jsonUnmarshal]
          by_cases hcond : e.Status ≠ StatusActive
          · rw [if_pos hcond]
            exact Or.inl (noWrite_error _ _ (not_emit_failure_append _ _ (by decide) (by decide)))
          · rw [if_neg hcond]
            cases hm : stub.MSPID with
            | error err =>
              exact Or.inl (noWrite_error _ _
                (not_emit_failure_append _ _ (by decide) (by decide)))
            | ok org =>
              cases hc : stub.Creator with
              | error err =>
                exact Or.inl (noWrite_error _ _
                  (not_emit_failure_append _ _ (by decide) (by decide)))
              | ok who =>
                cases hp : stub.PutStateErr with
                | some err =>
                  exact Or.inl (noWrite_error _ _
                    (not_emit_failure_append _ _ (by decide) (by decide)))
                | none =>
                  refine Or.inr ⟨caseID, evidenceID, archiveReason, who, org, e, rfl, hl, not_not.1 hcond, rfl, rfl, ?_⟩
                  cases hs : stub.SetEventErr with
                  | none =>
                    exact ⟨by simp [archivedEvidence, custodyEvent],
                      Or.inl ⟨hs, by simp [hs, archivedEvidence, custodyEvent],
                        by simp [hs, archivedEvidence, custodyEvent]⟩⟩
                  | some err =>
                    exact ⟨by simp [archivedEvidence, custodyEvent],
                      Or.inr ⟨err, hs, by simp [hs], by simp [hs]⟩⟩
  · exact Or.inl (noWrite_error _ _ (not_emit_failure _ (by decide)))

/-- Every call of `ReactivateFromCold` either ends before any write, or writes the
reactivated record under the key of an `ARCHIVED` record. -/
theorem ReactivateFromCold_outcome (stub : Stub) (st : State) (args : List String) :
    NoWrite (ReactivateFromCold stub st args) st ∨
    ∃ (caseID evidenceID reactivationReason who org : String) (e : Evidence),
      args = [caseID, evidenceID, reactivationReason] ∧
      lookupKey (caseID ++ ":" ++ evidenceID) st = some (Bytes.json e) ∧
      e.Status = StatusArchived ∧
      stub.Creator = Except.ok who ∧ stub.MSPID = Except.ok org ∧
      Wrote stub (ReactivateFromCold stub st args) st (caseID ++ ":" ++ evidenceID)
        (Bytes.json (reactivatedEvidence stub e reactivationReason who org)) "EvidenceReactivated" := by
  unfold ReactivateFromCold
  split
  · rename_i caseID evidenceID reactivationReason
    simp only [GetState, getMSPID, PutState, SetEvent, key_ne_empty, if_false, jsonMarshal]
    cases hg : stub.GetStateErr with
    | some err =>
      exact Or.inl (noWrite_error _ _
        (not_emit_failure_append _ _ (by decide) (by decide)))
    | none =>
      cases hl : lookupKey (caseID ++ ":" ++ evidenceID) st with
      | none =>
        exact Or.inl (noWrite_error _ _
          (not_emit_failure_append _ _ (by decide) (by decide)))
      | some b =>
        cases b with
        | invalid raw =>
          exact Or.inl (noWrite_error _ _
            (not_emit_failure_append _ _ (by decide) (by decide)))
        | json e =>
          simp only [jsonUnmarshal]
          by_cases hcond : e.Status ≠ StatusArchived
          · rw [if_pos hcond]
            exact Or.inl (noWrite_error _ _ (not_emit_failure_append _ _ (by decide) (by decide)))
          · rw [if_neg hcond]
            cases hm : stub.MSPID with
            | error err =>
              exact Or.inl (noWrite_error _ _
                (not_emit_failure_append _ _ (by decide) (by decide)))
            | ok org =>
              cases hc : stub.Creator with
              | error err =>
                exact Or.inl (noWrite_error _ _
                  (not_emit_failure_append _ _ (by decide) (by decide)))
              | ok who =>
                cases hp : stub.PutStateErr with
                | some err =>
                  exact Or.inl (noWrite_error _ _
                    (not_emit_failure_append _ _ (by decide) (by decide)))
                | none =>
                  refine Or.inr ⟨caseID, evidenceID, reactivationReason, who, org, e, rfl, hl, not_not.1 hcond, rfl, rfl, ?_⟩
                  cases hs : stub.SetEventErr with
                  | none =>
                    exact ⟨by simp [reactivatedEvidence, custodyEvent],
                      Or.inl ⟨hs, by simp [hs, reactivatedEvidence, custodyEvent],
                        by simp [hs, reactivatedEvidence, custodyEvent]⟩⟩
                  | some err =>
                    exact ⟨by simp [reactivatedEvidence, custodyEvent],
                      Or.inr ⟨err, hs, by simp [hs], by simp [hs]⟩⟩
  · exact Or.inl (noWrite_error _ _ (not_emit_failure _ (by decide)))

/-- Every call of `InvalidateEvidence` either ends before any write, or writes the
invalidated record under the key of a record. -/
theorem InvalidateEvidence_outcome (stub : Stub) (st : State) (args : List String) :
    NoWrite (InvalidateEvidence stub st args) st ∨
    ∃ (caseID evidenceID reason wrongTxID who org : String) (e : Evidence),
      args = [caseID, evidenceID, reason, wrongTxID] ∧
      lookupKey (caseID ++ ":" ++ evidenceID) st = some (Bytes.json e) ∧
      stub.Creator = Except.ok who ∧ stub.MSPID = Except.ok org ∧
      Wrote stub (InvalidateEvidence stub st args) st (caseID ++ ":" ++ evidenceID)
        (Bytes.json (invalidatedEvidence stub e reason wrongTxID who org)) "EvidenceInvalidated" := by
  unfold InvalidateEvidence
  split
  · rename_i caseID evidenceID reason wrongTxID
    simp only [GetState, getMSPID, PutState, SetEvent, key_ne_empty, if_false, jsonMarshal]
    cases hg : stub.GetStateErr with
    | some err =>
      exact Or.inl (noWrite_error _ _
        (not_emit_failure_append _ _ (by decide) (by decide)))
    | none =>
      cases hl : lookupKey (caseID ++ ":" ++ evidenceID) st with
      | none =>
        exact Or.inl (noWrite_error _ _
          (not_emit_failure_append _ _ (by decide) (by decide)))
      | some b =>
        cases b with
        | invalid raw =>
          exact Or.inl (noWrite_error _ _
            (not_emit_failure_append _ _ (by decide) (by decide)))
        | json e =>
          simp only [jsonUnmarshal]
          cases hm : stub.MSPID with
          | error err =>
            exact Or.inl (noWrite_error _ _
              (not_emit_failure_append _ _ (by decide) (by decide)))
          | ok org =>
            cases hc : stub.Creator with
            | error err =>
              exact Or.inl (noWrite_error _ _
                (not_emit_failure_append _ _ (by decide) (by decide)))
            | ok who =>
              cases hp : stub.PutStateErr with
              | some err =>
                exact Or.inl (noWrite_error _ _
                  (not_emit_failure_append _ _ (by decide) (by decide)))
              | none =>
                refine Or.inr ⟨caseID, evidenceID, reason, wrongTxID, who, org, e, rfl, hl, rfl, rfl, ?_⟩
                cases hs : stub.SetEventErr with
                | none =>
                  exact ⟨by simp [invalidatedEvidence, custodyEvent],
                    Or.inl ⟨hs, by simp [hs, invalidatedEvidence, custodyEvent],
                      by simp [hs, invalidatedEvidence, custodyEvent]⟩⟩
                | some err =>
                  exact ⟨by simp [invalidatedEvidence, custodyEvent],
                    Or.inr ⟨err, hs, by simp [hs], by simp [hs]⟩⟩
  · exact Or.inl (noWrite_error _ _ (not_emit_failure _ (by decide)))

/-- Every call of `CreateEvidence` either ends before any write, or writes the
fresh record under a free key, on valid arguments. -/
theorem CreateEvidence_outcome (stub : Stub) (st : State) (args : List String) :
    NoWrite (CreateEvidence stub st args) st ∨
    ∃ (caseID evidenceID cid hash metadata who org : String),
      args = [caseID, evidenceID, cid, hash, metadata] ∧
      caseID ≠ "" ∧ evidenceID ≠ "" ∧ cid ≠ "" ∧ IsHex64 hash ∧
      lookupKey (caseID ++ ":" ++ evidenceID) st = none ∧
      stub.Creator = Except.ok who ∧ stub.MSPID = Except.ok org ∧
      Wrote stub (CreateEvidence stub st args) st (caseID ++ ":" ++ evidenceID)
        (Bytes.json (createdEvidence stub caseID evidenceID cid hash metadata who org))
        "EvidenceCreated" := by
  unfold CreateEvidence
  split
  · rename_i caseID evidenceID cid hash metadata
    by_cases hempty : caseID = "" ∨ evidenceID = "" ∨ cid = "" ∨ hash = ""
    · rw [if_pos hempty]
      exact Or.inl (noWrite_error _ _ (not_emit_failure _ (by decide)))
    · rw [if_neg hempty]
      by_cases hlen : len hash ≠ 64
      · rw [if_pos hlen]
        exact Or.inl (noWrite_error _ _ (not_emit_failure _ (by decide)))
      · rw [if_neg hlen]
        cases hd : hexDecodeString hash with
        | error err => exact Or.inl (noWrite_error _ _ (not_emit_failure _ (by decide)))
        | ok bytes =>
          have hhex : IsHex64 hash := (hash_checks_iff hash).1 ⟨not_not.1 hlen, bytes, hd⟩
          push_neg at hempty
          simp only [GetState, getMSPID, PutState, SetEvent, key_ne_empty, if_false, jsonMarshal]
          cases hg : stub.GetStateErr with
          | some err =>
            exact Or.inl (noWrite_error _ _
              (not_emit_failure_append _ _ (by decide) (by decide)))
          | none =>
            cases hl : lookupKey (caseID ++ ":" ++ evidenceID) st with
            | some b =>
              exact Or.inl (noWrite_error _ _
                (not_emit_failure_append _ _ (by decide) (by decide)))
            | none =>
              cases hc : stub.Creator with
              | error err =>
                exact Or.inl (noWrite_error _ _
                  (not_emit_failure_append _ _ (by decide) (by decide)))
              | ok who =>
                cases hm : stub.MSPID with
                | error err =>
                  exact Or.inl (noWrite_error _ _
                    (not_emit_failure_append _ _ (by decide) (by decide)))
                | ok org =>
                  cases hp : stub.PutStateErr with
                  | some err =>
                    exact Or.inl (noWrite_error _ _
                      (not_emit_failure_append _ _ (by decide) (by decide)))
                  | none =>
                    refine Or.inr ⟨caseID, evidenceID, cid, hash, metadata, who, org, rfl,
                      hempty.1, hempty.2.1, hempty.2.2.1, hhex, hl, rfl, rfl, ?_⟩
                    cases hs : stub.SetEventErr with
                    | none =>
                      exact ⟨by simp [createdEvidence, custodyEvent],
                        Or.inl ⟨hs, by simp [hs, createdEvidence, custodyEvent],
                          by simp [hs, createdEvidence, custodyEvent]⟩⟩
                    | some err =>
                      exact ⟨by simp [createdEvidence, custodyEvent],
                        Or.inr ⟨err, hs, by simp [hs], by simp [hs]⟩⟩
  · exact Or.inl (noWrite_error _ _ (not_emit_failure _ (by decide)))

/-- No rejection message starts with the letter `F`. -/
theorem rejection_head (msg : String) (h : Rejection msg) :
    msg.data.head? ≠ some (Char.ofNat 70) := by
  cases h <;> simp [String.data_append]

/-- A call that wrote does not answer with a rejection. -/
theorem wrote_not_rejection (stub : Stub) (r : Result) (st : State) (key : String) (value : Bytes)
    (name msg : String) (hw : Wrote stub r st key value name) (hmsg : Rejection msg) :
    r.response ≠ shimError msg := by
  intro hresp
  obtain ⟨-, h | ⟨err, -, h, -⟩⟩ := hw
  · rw [h.2.1] at hresp
    have := congrArg Response.Status hresp
    simp [shimSuccess, shimError] at this
  · rw [h] at hresp
    have hm : "Failed to emit event: " ++ err = msg := congrArg Response.Message hresp
    apply rejection_head msg hmsg
    rw [← hm]
    simp [String.data_append]

theorem reachedWrite_of_wrote (stub : Stub) (r : Result) (st : State) (key : String)
    (value : Bytes) (name : String) (hw : Wrote stub r st key value name) :
    ReachedWrite r.response := by
  obtain ⟨-, h | ⟨err, -, h, -⟩⟩ := hw
  · left
    rw [h.2.1]
    rfl
  · exact Or.inr ⟨err, h⟩

theorem not_reachedWrite_of_noWrite (r : Result) (st : State) (hn : NoWrite r st) :
    ¬ ReachedWrite r.response := by
  rintro (h | ⟨err, h⟩)
  · rw [hn.2.2.1] at h
    exact absurd h (by decide)
  · exact hn.2.2.2 err h

/-- The effect on the record under `key` of a call that either wrote nothing or
wrote, under the key it addresses, a record whose log is the former log of that
key followed by one event. -/
theorem append_only_of_outcome (stub : Stub) (r : Result) (st : State) (args : List String)
    (key : String) (e : Evidence) (hrec : lookupKey key st = some (Bytes.json e))
    (hout : NoWrite r st ∨
      ∃ (caseID evidenceID name : String) (rest : List String) (e0 e1 : Evidence),
        args = caseID :: evidenceID :: rest ∧
        lookupKey (caseID ++ ":" ++ evidenceID) st = some (Bytes.json e0) ∧
        (∃ ev : CustodyEvent, e1.Events = e0.Events ++ [ev]) ∧
        Wrote stub r st (caseID ++ ":" ++ evidenceID) (Bytes.json e1) name) :
    ∃ e1 : Evidence,
      lookupKey key r.state = some (Bytes.json e1) ∧
      ((Addresses args key ∧ ReachedWrite r.response) →
        ∃ ev : CustodyEvent, e1.Events = e.Events ++ [ev]) ∧
      (¬ (Addresses args key ∧ ReachedWrite r.response) → e1 = e) := by
  rcases hout with hn | ⟨caseID, evidenceID, name, rest, e0, e1, hargs, hl, hev, hw⟩
  · refine ⟨e, by rw [hn.1]; exact hrec, fun h => ?_, fun _ => rfl⟩
    exact absurd h.2 (not_reachedWrite_of_noWrite r st hn)
  · by_cases hk : caseID ++ ":" ++ evidenceID = key
    · refine ⟨e1, by rw [hw.1, hk]; exact lookupKey_insertKey_same _ _ _, fun _ => ?_, fun h => ?_⟩
      · rw [hk, hrec] at hl
        have he : e = e0 := by injection hl with hl; injection hl
        rw [he]
        exact hev
      · exact absurd ⟨⟨caseID, evidenceID, rest, hargs, hk⟩,
          reachedWrite_of_wrote stub r st _ _ _ hw⟩ h
    · have hne : key ≠ caseID ++ ":" ++ evidenceID := fun h => hk h.symm
      refine ⟨e, by rw [hw.1, lookupKey_insertKey_other _ _ _ _ hne]; exact hrec,
        fun h => ?_, fun _ => rfl⟩
      obtain ⟨⟨c, ev, rest1, hargs1, hkey⟩, -⟩ := h
      rw [hargs] at hargs1
      injection hargs1 with h1 h2
      injection h2 with h2 h3
      rw [h1, h2] at hk
      exact absurd hkey hk

/-- A call that leaves the state alone or writes a record with a non-empty log
changes no value except into such a record. -/
theorem written_nonempty (r : Result) (st : State)
    (h : r.state = st ∨ ∃ (key : String) (e1 : Evidence),
      r.state = insertKey key (Bytes.json e1) st ∧ e1.Events ≠ []) :
    ∀ (k : String) (b : Bytes), lookupKey k r.state = some b → lookupKey k st ≠ some b →
      ∃ e2 : Evidence, b = Bytes.json e2 ∧ e2.Events ≠ [] := by
  intro k b hb hne
  rcases h with h | ⟨key, e1, h, hev⟩
  · rw [h] at hb
    exact absurd hb hne
  · rw [h] at hb
    by_cases hk : k = key
    · rw [hk, lookupKey_insertKey_same] at hb
      injection hb with hb
      exact ⟨e1, hb.symm, hev⟩
    · rw [lookupKey_insertKey_other _ _ _ _ hk] at hb
      exact absurd hb hne

/-- A call that does not touch the state leaves the record under `key`. -/
theorem unchanged_of_state (r : Result) (st : State) (key : String) (e : Evidence) (P : Prop)
    (hrec : lookupKey key st = some (Bytes.json e)) (hstate : r.state = st) (hP : ¬ P) :
    ∃ e1 : Evidence,
      lookupKey key r.state = some (Bytes.json e1) ∧
      (P → ∃ ev : CustodyEvent, e1.Events = e.Events ++ [ev]) ∧ (¬ P → e1 = e) :=
  ⟨e, by rw [hstate]; exact hrec, fun h => absurd h hP, fun _ => rfl⟩

/-- The record under `key` and the written values after a mutating call, from
the outcome of the call. -/
theorem mutation_append_only (stub : Stub) (r : Result) (st : State) (function : String)
    (args : List String) (key : String) (e : Evidence)
    (hrec : lookupKey key st = some (Bytes.json e)) (hmut : IsMutation function)
    (hout : NoWrite r st ∨
      ∃ (caseID evidenceID name : String) (rest : List String) (e0 e1 : Evidence),
        args = caseID :: evidenceID :: rest ∧
        lookupKey (caseID ++ ":" ++ evidenceID) st = some (Bytes.json e0) ∧
        (∃ ev : CustodyEvent, e1.Events = e0.Events ++ [ev]) ∧
        Wrote stub r st (caseID ++ ":" ++ evidenceID) (Bytes.json e1) name) :
    (∃ e1 : Evidence,
      lookupKey key r.state = some (Bytes.json e1) ∧
      ((IsMutation function ∧ Addresses args key ∧ ReachedWrite r.response) →
        ∃ ev : CustodyEvent, e1.Events = e.Events ++ [ev]) ∧
      (¬ (IsMutation function ∧ Addresses args key ∧ ReachedWrite r.response) → e1 = e)) ∧
    (∀ (k : String) (b : Bytes), lookupKey k r.state = some b → lookupKey k st ≠ some b →
      ∃ e2 : Evidence, b = Bytes.json e2 ∧ e2.Events ≠ []) := by
  constructor
  · obtain ⟨e1, h1, h2, h3⟩ := append_only_of_outcome stub r st args key e hrec hout
    exact ⟨e1, h1, fun h => h2 h.2, fun h => h3 (fun h4 => h ⟨hmut, h4⟩)⟩
  · apply written_nonempty
    rcases hout with hn | ⟨caseID, evidenceID, name, rest, e0, e1, -, -, ⟨ev, hev⟩, hw⟩
    · exact Or.inl hn.1
    · exact Or.inr ⟨_, e1, hw.1, by rw [hev]; simp⟩

/-- The record under the addressed key after a successful call, from the
outcome of the call. -/
theorem record_of_success (Q : Evidence → Evidence → Prop) (stub : Stub) (r : Result)
    (st : State) (args : List String) (caseID evidenceID : String) (rest : List String)
    (e : Evidence) (hargs : args = caseID :: evidenceID :: rest)
    (hrec : lookupKey (caseID ++ ":" ++ evidenceID) st = some (Bytes.json e))
    (hok : r.response.Status = 200)
    (hout : NoWrite r st ∨
      ∃ (c ev name : String) (rest0 : List String) (e0 e1 : Evidence),
        args = c :: ev :: rest0 ∧
        lookupKey (c ++ ":" ++ ev) st = some (Bytes.json e0) ∧ Q e0 e1 ∧
        Wrote stub r st (c ++ ":" ++ ev) (Bytes.json e1) name) :
    ∃ e1 : Evidence,
      lookupKey (caseID ++ ":" ++ evidenceID) r.state = some (Bytes.json e1) ∧ Q e e1 := by
  rcases hout with hn | ⟨c, ev, name, rest0, e0, e1, hargs0, hl, hq, hw⟩
  · rw [hn.2.2.1] at hok
    exact absurd hok (by decide)
  · rw [hargs] at hargs0
    injection hargs0 with h1 h2
    injection h2 with h2 h3
    subst h1 h2
    rw [hrec] at hl
    have he : e = e0 := by injection hl with hl; injection hl
    subst he
    exact ⟨e1, by rw [hw.1]; exact lookupKey_insertKey_same _ _ _, hq⟩

/-- Splitting two lists at a colon that is the first one in both. -/
theorem split_at_first_colon (c1 e1 c2 e2 : List Char)
    (h1 : ':' ∉ c1) (h2 : ':' ∉ c2)
    (h : c1 ++ ':' :: e1 = c2 ++ ':' :: e2) : c1 = c2 ∧ e1 = e2 := by
  induction c1 generalizing c2 with
  | nil =>
    cases c2 with
    | nil => simpa using h
    | cons y ys =>
      simp at h
      exact absurd (h.1 ▸ List.mem_cons_self _ _) h2
  | cons x xs ih =>
    cases c2 with
    | nil =>
      simp at h
      exact absurd (h.1 ▸ List.mem_cons_self _ _) h1
    | cons y ys =>
      simp at h
      obtain ⟨hxy, hrest⟩ := h
      obtain ⟨ha, hb⟩ := ih ys (fun hm => h1 (List.mem_cons_of_mem _ hm))
        (fun hm => h2 (List.mem_cons_of_mem _ hm)) hrest
      exact ⟨by rw [hxy, ha], hb⟩

/-- Two pairs of identifiers whose case identifiers hold no colon have the same
key only if they are the same pair. -/
theorem key_injective_without_colon (c1 e1 c2 e2 : String)
    (h1 : ':' ∉ c1.data) (h2 : ':' ∉ c2.data) (h : c1 ++ ":" ++ e1 = c2 ++ ":" ++ e2) :
    c1 = c2 ∧ e1 = e2 := by
  have hd : c1.data ++ ':' :: e1.data = c2.data ++ ':' :: e2.data := by
    have := congrArg String.data h
    simpa [String.data_append] using this
  obtain ⟨ha, hb⟩ := split_at_first_colon _ _ _ _ h1 h2 hd
  exact ⟨String.ext ha, String.ext hb⟩

theorem startsWith_append (needle rest : List Char) : startsWith (needle ++ rest) needle = true := by
  induction needle with
  | nil => cases rest <;> rfl
  | cons n ns ih => simp [startsWith, ih]

theorem occurs_of_startsWith (needle text : List Char) (h : startsWith text needle = true) :
    occurs needle text = true := by
  cases text with
  | nil => simpa [occurs] using h
  | cons t ts => simp [occurs, h]

theorem occurs_append (before needle rest : List Char) :
    occurs needle (before ++ (needle ++ rest)) = true := by
  induction before with
  | nil => exact occurs_of_startsWith _ _ (startsWith_append needle rest)
  | cons b bs ih => simp [occurs, ih]

/-- A text that is mentioned is found by the search. -/
theorem occurs_of_mentions (text needle : String) (h : Mentions text needle) :
    occurs needle.data text.data = true := by
  obtain ⟨before, rest, heq⟩ := h
  rw [heq]
  simp only [String.data_append, List.append_assoc]
  exact occurs_append _ _ _

/-- A write under the key that the call addresses leaves every other key. -/
theorem frame_of_effect (r : Result) (st : State) (caseID evidenceID other : String)
    (rest : List String) (hother : other ≠ caseID ++ ":" ++ evidenceID)
    (h : r.state = st ∨ ∃ (c ev : String) (rest0 : List String) (v : Bytes),
      caseID :: evidenceID :: rest = c :: ev :: rest0 ∧
      r.state = insertKey (c ++ ":" ++ ev) v st) :
    lookupKey other r.state = lookupKey other st := by
  rcases h with h | ⟨c, ev, rest0, v, hargs, h⟩
  · rw [h]
  · injection hargs with h1 h2
    injection h2 with h2 h3
    subst h1 h2
    rw [h, lookupKey_insertKey_other _ _ _ _ hother]

/-- The edges of the graph, one by one. -/
theorem kindStep_cases (s s1 : EvidenceStatus) (kind : String) (h : kindStep s kind = some s1) :
    (kind = "TRANSFER" ∧ (s = StatusActive ∨ s = StatusReactivated) ∧ s1 = s) ∨
    (kind = "ARCHIVE" ∧ s = StatusActive ∧ s1 = StatusArchived) ∨
    (kind = "REACTIVATE" ∧ s = StatusArchived ∧ s1 = StatusReactivated) ∨
    (kind = "INVALIDATE" ∧ s1 = StatusInvalidated) := by
  unfold kindStep at h
  split_ifs at h with h1 h2 h3 h4 h5 h6 h7
  · exact Or.inl ⟨h1, h2, (Option.some.inj h).symm⟩
  · exact Or.inr (Or.inl ⟨h3, h4, (Option.some.inj h).symm⟩)
  · exact Or.inr (Or.inr (Or.inl ⟨h5, h6, (Option.some.inj h).symm⟩))
  · exact Or.inr (Or.inr (Or.inr ⟨h7, (Option.some.inj h).symm⟩))

theorem replayKinds_cons (s s2 : EvidenceStatus) (kind : String) (rest : List String)
    (h : replayKinds s (kind :: rest) = some s2) :
    ∃ s1 : EvidenceStatus, kindStep s kind = some s1 ∧ replayKinds s1 rest = some s2 := by
  simp only [replayKinds] at h
  cases hk : kindStep s kind with
  | none => simp [hk] at h
  | some s1 => exact ⟨s1, rfl, by simpa [hk] using h⟩

theorem replayKinds_append (kinds : List String) (kind : String) :
    ∀ s s1 s2 : EvidenceStatus, replayKinds s kinds = some s1 → kindStep s1 kind = some s2 →
      replayKinds s (kinds ++ [kind]) = some s2 := by
  induction kinds with
  | nil =>
    intro s s1 s2 h hk
    simp only [replayKinds] at h
    have : s = s1 := Option.some.inj h
    subst this
    simp [replayKinds, hk]
  | cons k rest ih =>
    intro s s1 s2 h hk
    obtain ⟨s0, hs0, hrest⟩ := replayKinds_cons s s1 k rest h
    simp only [List.cons_append, replayKinds, hs0]
    exact ih s0 s1 s2 hrest hk

/-- No replayed kind is `CREATE`. -/
theorem replayKinds_no_create (kinds : List String) :
    ∀ s s2 : EvidenceStatus, replayKinds s kinds = some s2 → "CREATE" ∉ kinds := by
  induction kinds with
  | nil => intro s s2 _; simp
  | cons k rest ih =>
    intro s s2 h
    obtain ⟨s1, hs1, hrest⟩ := replayKinds_cons s s2 k rest h
    have hk : k ≠ "CREATE" := by
      rcases kindStep_cases s s1 k hs1 with ⟨hk, -⟩ | ⟨hk, -⟩ | ⟨hk, -⟩ | ⟨hk, -⟩ <;>
        (rw [hk]; decide)
    intro hmem
    rcases List.mem_cons.1 hmem with hm | hm
    · exact hk hm.symm
    · exact ih s1 s2 hrest hm

/-- At most one `ARCHIVE`, and none once the status has left `ACTIVE`. -/
theorem replayKinds_archive (kinds : List String) :
    ∀ s s2 : EvidenceStatus, replayKinds s kinds = some s2 →
      kinds.count "ARCHIVE" ≤ 1 ∧ (s ≠ StatusActive → kinds.count "ARCHIVE" = 0) := by
  induction kinds with
  | nil => intro s s2 _; simp
  | cons k rest ih =>
    intro s s2 h
    obtain ⟨s1, hs1, hrest⟩ := replayKinds_cons s s2 k rest h
    obtain ⟨ih1, ih2⟩ := ih s1 s2 hrest
    rcases kindStep_cases s s1 k hs1 with ⟨hk, hs, hs1e⟩ | ⟨hk, hs, hs1e⟩ | ⟨hk, hs, hs1e⟩ |
      ⟨hk, hs1e⟩
    · subst hk hs1e
      have hc : List.count "ARCHIVE" ("TRANSFER" :: rest) = List.count "ARCHIVE" rest := by
        simp [List.count_cons]
      rw [hc]
      exact ⟨ih1, ih2⟩
    · subst hk hs1e
      have h0 : List.count "ARCHIVE" rest = 0 := ih2 (by decide)
      have hc : List.count "ARCHIVE" ("ARCHIVE" :: rest) = List.count "ARCHIVE" rest + 1 := by
        simp [List.count_cons]
      rw [hc, h0]
      exact ⟨le_refl _, fun hne => absurd hs hne⟩
    · subst hk hs1e
      have h0 : List.count "ARCHIVE" rest = 0 := ih2 (by decide)
      have hc : List.count "ARCHIVE" ("REACTIVATE" :: rest) = List.count "ARCHIVE" rest := by
        simp [List.count_cons]
      rw [hc, h0]
      exact ⟨Nat.zero_le _, fun _ => rfl⟩
    · subst hk hs1e
      have h0 : List.count "ARCHIVE" rest = 0 := ih2 (by decide)
      have hc : List.count "ARCHIVE" ("INVALIDATE" :: rest) = List.count "ARCHIVE" rest := by
        simp [List.count_cons]
      rw [hc, h0]
      exact ⟨Nat.zero_le _, fun _ => rfl⟩

/-- At most one `REACTIVATE`, and none once the status is neither `ACTIVE` nor
`ARCHIVED`. -/
theorem replayKinds_reactivate (kinds : List String) :
    ∀ s s2 : EvidenceStatus, replayKinds s kinds = some s2 →
      kinds.count "REACTIVATE" ≤ 1 ∧
        (s ≠ StatusActive → s ≠ StatusArchived → kinds.count "REACTIVATE" = 0) := by
  induction kinds with
  | nil => intro s s2 _; simp
  | cons k rest ih =>
    intro s s2 h
    obtain ⟨s1, hs1, hrest⟩ := replayKinds_cons s s2 k rest h
    obtain ⟨ih1, ih2⟩ := ih s1 s2 hrest
    rcases kindStep_cases s s1 k hs1 with ⟨hk, hs, hs1e⟩ | ⟨hk, hs, hs1e⟩ | ⟨hk, hs, hs1e⟩ |
      ⟨hk, hs1e⟩
    · subst hk hs1e
      have hc : List.count "REACTIVATE" ("TRANSFER" :: rest) = List.count "REACTIVATE" rest := by
        simp [List.count_cons]
      rw [hc]
      exact ⟨ih1, ih2⟩
    · subst hk hs1e
      have hc : List.count "REACTIVATE" ("ARCHIVE" :: rest) = List.count "REACTIVATE" rest := by
        simp [List.count_cons]
      rw [hc]
      exact ⟨ih1, fun hne => absurd hs hne⟩
    · subst hk hs1e
      have h0 : List.count "REACTIVATE" rest = 0 := ih2 (by decide) (by decide)
      have hc : List.count "REACTIVATE" ("REACTIVATE" :: rest) =
          List.count "REACTIVATE" rest + 1 := by
        simp [List.count_cons]
      rw [hc, h0]
      exact ⟨le_refl _, fun _ hne => absurd hs hne⟩
    · subst hk hs1e
      have h0 : List.count "REACTIVATE" rest = 0 := ih2 (by decide) (by decide)
      have hc : List.count "REACTIVATE" ("INVALIDATE" :: rest) =
          List.count "REACTIVATE" rest := by
        simp [List.count_cons]
      rw [hc, h0]
      exact ⟨Nat.zero_le _, fun _ _ => rfl⟩

/-- Every `REACTIVATE` of a replayed sequence comes after an `ARCHIVE` of the
sequence, unless the sequence starts in `ARCHIVED`. -/
theorem replayKinds_order (kinds : List String) :
    ∀ s s2 : EvidenceStatus, replayKinds s kinds = some s2 →
      ∀ before later : List String, kinds = before ++ "REACTIVATE" :: later →
        s = StatusArchived ∨ "ARCHIVE" ∈ before := by
  induction kinds with
  | nil =>
    intro s s2 _ before later h
    simp at h
  | cons k rest ih =>
    intro s s2 h before later hsplit
    obtain ⟨s1, hs1, hrest⟩ := replayKinds_cons s s2 k rest h
    cases before with
    | nil =>
      simp only [List.nil_append, List.cons.injEq] at hsplit
      obtain ⟨hk, -⟩ := hsplit
      subst hk
      rcases kindStep_cases s s1 "REACTIVATE" hs1 with ⟨hk, -⟩ | ⟨hk, -⟩ | ⟨-, hs, -⟩ | ⟨hk, -⟩
      · exact absurd hk (by decide)
      · exact absurd hk (by decide)
      · exact Or.inl hs
      · exact absurd hk (by decide)
    | cons b bs =>
      simp only [List.cons_append, List.cons.injEq] at hsplit
      obtain ⟨hk, hrestsplit⟩ := hsplit
      subst hk
      rcases ih s1 s2 hrest bs later hrestsplit with harch | hmem
      · right
        rcases kindStep_cases s s1 k hs1 with ⟨-, hs, hs1e⟩ | ⟨hk, -, -⟩ | ⟨-, -, hs1e⟩ |
          ⟨-, hs1e⟩
        · rw [hs1e] at harch
          rcases hs with hs | hs
          · rw [hs] at harch
            exact absurd harch (by decide)
          · rw [hs] at harch
            exact absurd harch (by decide)
        · rw [hk]
          exact List.mem_cons_self _ _
        · rw [hs1e] at harch
          exact absurd harch (by decide)
        · rw [hs1e] at harch
          exact absurd harch (by decide)
      · exact Or.inr (List.mem_cons_of_mem _ hmem)

/-- The replayed status is `INVALIDATED` exactly when the start is, or the
sequence holds an `INVALIDATE`. -/
theorem replayKinds_invalidated (kinds : List String) :
    ∀ s s2 : EvidenceStatus, replayKinds s kinds = some s2 →
      (s2 = StatusInvalidated ↔ (s = StatusInvalidated ∨ "INVALIDATE" ∈ kinds)) := by
  induction kinds with
  | nil =>
    intro s s2 h
    simp only [replayKinds] at h
    have : s = s2 := Option.some.inj h
    subst this
    simp
  | cons k rest ih =>
    intro s s2 h
    obtain ⟨s1, hs1, hrest⟩ := replayKinds_cons s s2 k rest h
    rw [ih s1 s2 hrest]
    rcases kindStep_cases s s1 k hs1 with ⟨hk, hs, hs1e⟩ | ⟨hk, hs, hs1e⟩ | ⟨hk, hs, hs1e⟩ |
      ⟨hk, hs1e⟩
    · subst hk hs1e
      simp
    · subst hk hs1e hs
      have h1 : ¬ StatusArchived = StatusInvalidated := by decide
      have h2 : ¬ StatusActive = StatusInvalidated := by decide
      simp [h1, h2]
    · subst hk hs1e hs
      have h1 : ¬ StatusArchived = StatusInvalidated := by decide
      have h2 : ¬ StatusReactivated = StatusInvalidated := by decide
      simp [h1, h2]
    · subst hk hs1e
      simp

/-- A well formed record has a log of the stated shape. -/
theorem logShape_of_wellFormed (e : Evidence) (h : WellFormed e) : LogShape e := by
  obtain ⟨c, rest, hev, hc, hreplay⟩ := h
  have hno := replayKinds_no_create _ _ _ hreplay
  have harch := (replayKinds_archive _ _ _ hreplay).1
  have hreact := (replayKinds_reactivate _ _ _ hreplay).1
  have hinv := replayKinds_invalidated _ _ _ hreplay
  refine ⟨⟨c, rest, hev, hc, fun ev hmem heq => hno ?_⟩, ?_, ?_, ?_, ?_⟩
  · rw [← heq]
    exact List.mem_map_of_mem _ hmem
  · rw [hev, List.map_cons, hc]
    have hcount : List.count "ARCHIVE" ("CREATE" :: rest.map (fun ev => ev.EventType)) =
        List.count "ARCHIVE" (rest.map (fun ev => ev.EventType)) := by
      simp [List.count_cons]
    rw [hcount]
    exact harch
  · rw [hev, List.map_cons, hc]
    have hcount : List.count "REACTIVATE" ("CREATE" :: rest.map (fun ev => ev.EventType)) =
        List.count "REACTIVATE" (rest.map (fun ev => ev.EventType)) := by
      simp [List.count_cons]
    rw [hcount]
    exact hreact
  · intro before ev later hsplit hty
    rw [hev] at hsplit
    cases before with
    | nil =>
      simp only [List.nil_append, List.cons.injEq] at hsplit
      rw [← hsplit.1, hc] at hty
      exact absurd hty (by decide)
    | cons b bs =>
      simp only [List.cons_append, List.cons.injEq] at hsplit
      obtain ⟨-, hrest⟩ := hsplit
      have hkinds : rest.map (fun ev => ev.EventType) =
          bs.map (fun ev => ev.EventType) ++ "REACTIVATE" ::
            later.map (fun ev => ev.EventType) := by
        rw [hrest, List.map_append, List.map_cons, hty]
      rcases replayKinds_order _ _ _ hreplay _ _ hkinds with h | h
      · exact absurd h (by decide)
      · obtain ⟨a, ha, hat⟩ := List.mem_map.1 h
        exact ⟨a, List.mem_cons_of_mem _ ha, hat⟩
  · rw [hinv]
    constructor
    · rintro (h | h)
      · exact absurd h (by decide)
      · obtain ⟨a, ha, hat⟩ := List.mem_map.1 h
        exact ⟨a, by rw [hev]; exact List.mem_cons_of_mem _ ha, hat⟩
    · rintro ⟨a, ha, hat⟩
      rw [hev] at ha
      rcases List.mem_cons.1 ha with h | h
      · rw [h, hc] at hat
        exact absurd hat (by decide)
      · right
        rw [← hat]
        exact List.mem_map_of_mem _ h

/-- A fresh record is well formed. -/
theorem wellFormed_created (stub : Stub) (caseID evidenceID cid hash metadata who org : String) :
    WellFormed (createdEvidence stub caseID evidenceID cid hash metadata who org) :=
  ⟨_, [], rfl, rfl, rfl⟩

/-- Appending the event of an edge of the graph keeps a record well formed. -/
theorem wellFormed_append (e e1 : Evidence) (ev : CustodyEvent) (h : WellFormed e)
    (hstep : kindStep e.Status ev.EventType = some e1.Status)
    (hev : e1.Events = e.Events ++ [ev]) : WellFormed e1 := by
  obtain ⟨c, rest, hevs, hc, hreplay⟩ := h
  refine ⟨c, rest ++ [ev], by rw [hev, hevs]; rfl, hc, ?_⟩
  rw [List.map_append]
  exact replayKinds_append _ _ _ _ _ hreplay hstep

/-- A write of a well formed record keeps the store well formed. -/
theorem stateWellFormed_insert (st : State) (key : String) (e1 : Evidence)
    (hst : StateWellFormed st) (he1 : WellFormed e1) :
    StateWellFormed (insertKey key (Bytes.json e1) st) := by
  intro k e hl
  by_cases hk : k = key
  · rw [hk, lookupKey_insertKey_same] at hl
    have : e1 = e := by injection hl with hl; injection hl
    rw [← this]
    exact he1
  · rw [lookupKey_insertKey_other _ _ _ _ hk] at hl
    exact hst k e hl

/-- Every invocation keeps the store well formed. -/
theorem Invoke_wellFormed (stub : Stub) (st : State) (function : String) (args : List String)
    (hst : StateWellFormed st) : StateWellFormed (Invoke stub st function args).state := by
  unfold Invoke
  split_ifs
  · rcases CreateEvidence_effect stub st args with h | ⟨c, ev, cid, hash, md, who, org, -, -, -,
      -, -, -, -, -, h⟩
    · rw [h]; exact hst
    · rw [h]
      exact stateWellFormed_insert st _ _ hst (wellFormed_created _ _ _ _ _ _ _ _)
  · rcases TransferCustody_effect stub st args with h | ⟨c, ev, nc, tr, who, org, e0, -, hl, hs,
      -, -, h⟩
    · rw [h]; exact hst
    · rw [h]
      refine stateWellFormed_insert st _ _ hst (wellFormed_append e0 _ _ (hst _ e0 hl) ?_ rfl)
      simp only [kindStep, custodyEvent, if_true, if_pos hs]
  · rcases ArchiveToCold_effect stub st args with h | ⟨c, ev, r, who, org, e0, -, hl, hs, -, -,
      h⟩
    · rw [h]; exact hst
    · rw [h]
      refine stateWellFormed_insert st _ _ hst (wellFormed_append e0 _ _ (hst _ e0 hl) ?_ rfl)
      simp [kindStep, custodyEvent, hs]
  · rcases ReactivateFromCold_effect stub st args with h | ⟨c, ev, r, who, org, e0, -, hl, hs, -,
      -, h⟩
    · rw [h]; exact hst
    · rw [h]
      refine stateWellFormed_insert st _ _ hst (wellFormed_append e0 _ _ (hst _ e0 hl) ?_ rfl)
      simp [kindStep, custodyEvent, hs]
  · rcases InvalidateEvidence_effect stub st args with h | ⟨c, ev, r, w, who, org, e0, -, hl, -,
      -, h⟩
    · rw [h]; exact hst
    · rw [h]
      refine stateWellFormed_insert st _ _ hst (wellFormed_append e0 _ _ (hst _ e0 hl) ?_ rfl)
      simp [kindStep, custodyEvent]
  · rw [GetEvidenceSummary_state]; exact hst
  · rw [QueryEvidencesByCase_state]; exact hst
  · rw [GetCustodyChain_state]; exact hst
  · exact hst

theorem invokeAll_wellFormed (calls : List (Stub × String × List String)) :
    ∀ st : State, StateWellFormed st → StateWellFormed (invokeAll st calls) := by
  induction calls with
  | nil => intro st hst; exact hst
  | cons call rest ih =>
    intro st hst
    obtain ⟨stub, function, args⟩ := call
    exact ih _ (Invoke_wellFormed stub st function args hst)

theorem sha256Sum256_length (data : List Nat) : (sha256Sum256 data).length = 32 := by
  simp [sha256Sum256, putUint32]

theorem sha256Sum256_bytes (data : List Nat) : ∀ b ∈ sha256Sum256 data, b < 256 := by
  intro b hb
  simp only [sha256Sum256, putUint32, List.mem_append, List.mem_cons, List.mem_singleton,
    List.not_mem_nil, or_false] at hb
  rcases hb with ((((((hb | hb) | hb) | hb) | hb) | hb) | hb) | hb <;>
    rcases hb with hb | hb | hb | hb <;> (rw [hb]; exact Nat.mod_lt _ (by decide))

theorem hextable_lower : ∀ i : Nat, i < 16 → IsLowerHexChar (hextable.getD i '0') := by
  decide

theorem hextable_value : ∀ i : Nat, i < 16 → fromHexChar (hextable.getD i '0') = some i := by
  decide

theorem high_nibble_lt (v : Nat) : (v % 256) >>> 4 < 16 := by
  rw [Nat.shiftRight_eq_div_pow]
  omega

theorem low_nibble_eq (v : Nat) : v &&& 0x0f = v % 16 :=
  Nat.and_pow_two_sub_one_eq_mod v 4

theorem hexEncodeToString_data_cons (v : Nat) (src : List Nat) :
    (hexEncodeToString (v :: src)).data =
      hextable.getD ((v % 256) >>> 4) '0' :: hextable.getD (v &&& 0x0f) '0' ::
        (hexEncodeToString src).data := by
  simp [hexEncodeToString]

theorem hexEncodeToString_length (src : List Nat) :
    (hexEncodeToString src).length = 2 * src.length := by
  induction src with
  | nil => rfl
  | cons v vs ih =>
    have h := hexEncodeToString_data_cons v vs
    simp only [String.length] at ih ⊢
    rw [h]
    simp only [List.length_cons, ih]
    omega

theorem hexEncodeToString_lower (src : List Nat) :
    ∀ c ∈ (hexEncodeToString src).data, IsLowerHexChar c := by
  induction src with
  | nil => intro c hc; simp [hexEncodeToString] at hc
  | cons v vs ih =>
    intro c hc
    rw [hexEncodeToString_data_cons] at hc
    rcases List.mem_cons.1 hc with h | h
    · rw [h]
      exact hextable_lower _ (high_nibble_lt v)
    · rcases List.mem_cons.1 h with h | h
      · rw [h, low_nibble_eq]
        exact hextable_lower _ (Nat.mod_lt _ (by decide))
      · exact ih c h

/-- Decoding the encoding of bytes gives the bytes back. -/
theorem hexDecode_hexEncodeToString (src : List Nat) (hsrc : ∀ b ∈ src, b < 256) :
    hexDecodeString (hexEncodeToString src) = Except.ok src := by
  unfold hexDecodeString
  induction src with
  | nil => rfl
  | cons v vs ih =>
    have hv : v < 256 := hsrc v (List.mem_cons_self _ _)
    have hvs : ∀ b ∈ vs, b < 256 := fun b hb => hsrc b (List.mem_cons_of_mem _ hb)
    rw [hexEncodeToString_data_cons, hexDecode, hextable_value _ (high_nibble_lt v),
      low_nibble_eq, hextable_value _ (Nat.mod_lt _ (by decide)), ih hvs]
    have hsum : (v % 256) >>> 4 * 16 + v % 16 = v := by
      rw [Nat.shiftRight_eq_div_pow]
      omega
    simp [hsum]

theorem lower_is_hex (c : Char) (h : IsLowerHexChar c) : IsHexChar c := by
  unfold IsLowerHexChar at h
  unfold IsHexChar
  simp at h ⊢
  rcases h with h | h | h | h | h | h | h | h | h | h | h | h | h | h | h | h <;> simp [h]

theorem computeHash_isHex64 (data : List Nat) : IsHex64 (ComputeHash data) := by
  refine ⟨?_, fun c hc => lower_is_hex c (hexEncodeToString_lower _ c hc)⟩
  rw [ComputeHash, hexEncodeToString_length, sha256Sum256_length]

/-! ## Lemmas on calls in arbitrary transactions -/

/-- The call of `TransferCustody` on an existing record, whatever the shim
answers: with a status that allows the transfer and shim calls that succeed up
to the write, the transferred record is written and success is reported exactly
when the notification succeeds; otherwise nothing is written and the call
fails. -/
theorem TransferCustody_any (stub : Stub) (st : State)
    (caseID evidenceID newCustodian transferReason : String) (e : Evidence)
    (hrec : lookupKey (caseID ++ ":" ++ evidenceID) st = some (Bytes.json e)) :
    (((e.Status = StatusActive ∨ e.Status = StatusReactivated) ∧ reachesWrite stub = true) →
      (TransferCustody stub st [caseID, evidenceID, newCustodian, transferReason]).state =
        insertKey (caseID ++ ":" ++ evidenceID)
          (Bytes.json (transferredEvidence stub e newCustodian transferReason (callerOf stub)
            (orgOf stub))) st ∧
      succeeded (TransferCustody stub st [caseID, evidenceID, newCustodian, transferReason]) =
        notifies stub) ∧
    (¬ ((e.Status = StatusActive ∨ e.Status = StatusReactivated) ∧ reachesWrite stub = true) →
      (TransferCustody stub st [caseID, evidenceID, newCustodian, transferReason]).state = st ∧
      succeeded (TransferCustody stub st [caseID, evidenceID, newCustodian, transferReason]) =
        false) := by
  simp only [TransferCustody, GetState, getMSPID, PutState, SetEvent, key_ne_empty, if_false,
    jsonMarshal, reachesWrite, notifies, callerOf, orgOf]
  cases hg : stub.GetStateErr with
  | some err => simp [succeeded, shimError]
  | none =>
    simp only [hrec, jsonUnmarshal]
    by_cases hcond : e.Status ≠ StatusActive ∧ e.Status ≠ StatusReactivated
    · rw [if_pos hcond]
      have hn : ¬ (e.Status = StatusActive ∨ e.Status = StatusReactivated) := by
        push_neg; exact hcond
      simp [succeeded, shimError, hn]
    · rw [if_neg hcond]
      have hstatus : e.Status = StatusActive ∨ e.Status = StatusReactivated := by
        by_contra hn
        push_neg at hn
        exact hcond hn
      cases hm : stub.MSPID with
      | error err => simp [succeeded, shimError, Except.toBool]
      | ok org =>
        cases hc : stub.Creator with
        | error err => simp [succeeded, shimError, Except.toBool]
        | ok who =>
          cases hp : stub.PutStateErr with
          | some err => simp [succeeded, shimError, Except.toBool]
          | none =>
            cases hs : stub.SetEventErr with
            | none =>
              simp [succeeded, shimSuccess, Except.toBool, hstatus, transferredEvidence, custodyEvent]
            | some err =>
              simp [succeeded, shimError, Except.toBool, hstatus, transferredEvidence, custodyEvent]

/-- The same for `ArchiveToCold` on an existing record. -/
theorem ArchiveToCold_any (stub : Stub) (st : State)
    (caseID evidenceID archiveReason : String) (e : Evidence)
    (hrec : lookupKey (caseID ++ ":" ++ evidenceID) st = some (Bytes.json e)) :
    (((e.Status = StatusActive) ∧ reachesWrite stub = true) →
      (ArchiveToCold stub st [caseID, evidenceID, archiveReason]).state =
        insertKey (caseID ++ ":" ++ evidenceID)
          (Bytes.json (archivedEvidence stub e archiveReason (callerOf stub) (orgOf stub))) st ∧
      succeeded (ArchiveToCold stub st [caseID, evidenceID, archiveReason]) = notifies stub) ∧
    (¬ ((e.Status = StatusActive) ∧ reachesWrite stub = true) →
      (ArchiveToCold stub st [caseID, evidenceID, archiveReason]).state = st ∧
      succeeded (ArchiveToCold stub st [caseID, evidenceID, archiveReason]) = false) := by
  simp only [ArchiveToCold, GetState, getMSPID, PutState, SetEvent, key_ne_empty, if_false,
    jsonMarshal, reachesWrite, notifies, callerOf, orgOf]
  cases hg : stub.GetStateErr with
  | some err => simp [succeeded, shimError]
  | none =>
    simp only [hrec, jsonUnmarshal]
    by_cases hcond : e.Status ≠ StatusActive
    · rw [if_pos hcond]
      simp [succeeded, shimError, hcond]
    · rw [if_neg hcond]
      have hstatus : e.Status = StatusActive := not_not.1 hcond
      cases hm : stub.MSPID with
      | error err => simp [succeeded, shimError, Except.toBool]
      | ok org =>
        cases hc : stub.Creator with
        | error err => simp [succeeded, shimError, Except.toBool]
        | ok who =>
          cases hp : stub.PutStateErr with
          | some err => simp [succeeded, shimError, Except.toBool]
          | none =>
            cases hs : stub.SetEventErr with
            | none =>
              simp [succeeded, shimSuccess, Except.toBool, hstatus, archivedEvidence, custodyEvent]
            | some err =>
              simp [succeeded, shimError, Except.toBool, hstatus, archivedEvidence, custodyEvent]

/-- The same for `ReactivateFromCold` on an existing record. -/
theorem ReactivateFromCold_any (stub : Stub) (st : State)
    (caseID evidenceID reactivationReason : String) (e : Evidence)
    (hrec : lookupKey (caseID ++ ":" ++ evidenceID) st = some (Bytes.json e)) :
    (((e.Status = StatusArchived) ∧ reachesWrite stub = true) →
      (ReactivateFromCold stub st [caseID, evidenceID, reactivationReason]).state =
        insertKey (caseID ++ ":" ++ evidenceID)
          (Bytes.json (reactivatedEvidence stub e reactivationReason
            (callerOf stub) (orgOf stub))) st ∧
      succeeded (ReactivateFromCold stub st [caseID, evidenceID, reactivationReason]) =
        notifies stub) ∧
    (¬ ((e.Status = StatusArchived) ∧ reachesWrite stub = true) →
      (ReactivateFromCold stub st [caseID, evidenceID, reactivationReason]).state = st ∧
      succeeded (ReactivateFromCold stub st [caseID, evidenceID, reactivationReason]) = false) := by
  simp only [ReactivateFromCold, GetState, getMSPID, PutState, SetEvent, key_ne_empty, if_false,
    jsonMarshal, reachesWrite, notifies, callerOf, orgOf]
  cases hg : stub.GetStateErr with
  | some err => simp [succeeded, shimError]
  | none =>
    simp only [hrec, jsonUnmarshal]
    by_cases hcond : e.Status ≠ StatusArchived
    · rw [if_pos hcond]
      simp [succeeded, shimError, hcond]
    · rw [if_neg hcond]
      have hstatus : e.Status = StatusArchived := not_not.1 hcond
      cases hm : stub.MSPID with
      | error err => simp [succeeded, shimError, Except.toBool]
      | ok org =>
        cases hc : stub.Creator with
        | error err => simp [succeeded, shimError, Except.toBool]
        | ok who =>
          cases hp : stub.PutStateErr with
          | some err => simp [succeeded, shimError, Except.toBool]
          | none =>
            cases hs : stub.SetEventErr with
            | none =>
              simp [succeeded, shimSuccess, Except.toBool, hstatus, reactivatedEvidence, custodyEvent]
            | some err =>
              simp [succeeded, shimError, Except.toBool, hstatus, reactivatedEvidence, custodyEvent]

/-- The same for `InvalidateEvidence` on an existing record, which has no status
precondition. -/
theorem InvalidateEvidence_any (stub : Stub) (st : State)
    (caseID evidenceID reason wrongTxID : String) (e : Evidence)
    (hrec : lookupKey (caseID ++ ":" ++ evidenceID) st = some (Bytes.json e)) :
    (reachesWrite stub = true →
      (InvalidateEvidence stub st [caseID, evidenceID, reason, wrongTxID]).state =
        insertKey (caseID ++ ":" ++ evidenceID)
          (Bytes.json (invalidatedEvidence stub e reason wrongTxID
            (callerOf stub) (orgOf stub))) st ∧
      succeeded (InvalidateEvidence stub st [caseID, evidenceID, reason, wrongTxID]) =
        notifies stub) ∧
    (¬ reachesWrite stub = true →
      (InvalidateEvidence stub st [caseID, evidenceID, reason, wrongTxID]).state = st ∧
      succeeded (InvalidateEvidence stub st [caseID, evidenceID, reason, wrongTxID]) = false) := by
  simp only [InvalidateEvidence, GetState, getMSPID, PutState, SetEvent, key_ne_empty, if_false,
    jsonMarshal, reachesWrite, notifies, callerOf, orgOf]
  cases hg : stub.GetStateErr with
  | some err => simp [succeeded, shimError]
  | none =>
    simp only [hrec, jsonUnmarshal]
    cases hm : stub.MSPID with
    | error err => simp [succeeded, shimError, Except.toBool]
    | ok org =>
      cases hc : stub.Creator with
      | error err => simp [succeeded, shimError, Except.toBool]
      | ok who =>
        cases hp : stub.PutStateErr with
        | some err => simp [succeeded, shimError, Except.toBool]
        | none =>
          cases hs : stub.SetEventErr with
          | none => simp [succeeded, shimSuccess, Except.toBool, invalidatedEvidence, custodyEvent]
          | some err =>
            simp [succeeded, shimError, Except.toBool, invalidatedEvidence, custodyEvent]

/-- The same for `CreateEvidence` on a free key, with the validation of the
arguments in place of the status precondition. -/
theorem CreateEvidence_any (stub : Stub) (st : State)
    (caseID evidenceID cid hash metadata : String)
    (hrec : lookupKey (caseID ++ ":" ++ evidenceID) st = none) :
    (((caseID ≠ "" ∧ evidenceID ≠ "" ∧ cid ≠ "" ∧ IsHex64 hash) ∧ reachesWrite stub = true) →
      (CreateEvidence stub st [caseID, evidenceID, cid, hash, metadata]).state =
        insertKey (caseID ++ ":" ++ evidenceID)
          (Bytes.json (createdEvidence stub caseID evidenceID cid hash metadata (callerOf stub)
            (orgOf stub))) st ∧
      succeeded (CreateEvidence stub st [caseID, evidenceID, cid, hash, metadata]) =
        notifies stub) ∧
    (¬ ((caseID ≠ "" ∧ evidenceID ≠ "" ∧ cid ≠ "" ∧ IsHex64 hash) ∧ reachesWrite stub = true) →
      (CreateEvidence stub st [caseID, evidenceID, cid, hash, metadata]).state = st ∧
      succeeded (CreateEvidence stub st [caseID, evidenceID, cid, hash, metadata]) = false) := by
  by_cases hinv : caseID = "" ∨ evidenceID = "" ∨ cid = "" ∨ hash = "" ∨ ¬ IsHex64 hash
  · obtain ⟨hr, hs⟩ := CreateEvidence_invalid stub st caseID evidenceID cid hash metadata hinv
    have hsucc : succeeded (CreateEvidence stub st [caseID, evidenceID, cid, hash, metadata]) =
        false := by
      simp only [succeeded]
      rcases hr with hr | hr | hr <;> rw [hr] <;> rfl
    have hne : hash = "" → ¬ IsHex64 hash := by
      intro h hh
      rw [h] at hh
      exact absurd hh (by decide)
    refine ⟨fun h => ?_, fun _ => ⟨hs, hsucc⟩⟩
    obtain ⟨⟨h1, h2, h3, h4⟩, -⟩ := h
    rcases hinv with h | h | h | h | h
    · exact absurd h h1
    · exact absurd h h2
    · exact absurd h h3
    · exact absurd h4 (hne h)
    · exact absurd h4 h
  · push_neg at hinv
    obtain ⟨h1, h2, h3, h4, h5⟩ := hinv
    obtain ⟨hlen, bytes, hd⟩ := (hash_checks_iff hash).2 h5
    have hempty : ¬ (caseID = "" ∨ evidenceID = "" ∨ cid = "" ∨ hash = "") := by
      push_neg
      exact ⟨h1, h2, h3, h4⟩
    simp only [CreateEvidence, if_neg hempty, hlen, ne_eq, not_true_eq_false, if_false, hd,
      GetState, getMSPID, PutState, SetEvent, key_ne_empty, jsonMarshal, reachesWrite, notifies,
      callerOf, orgOf]
    cases hg : stub.GetStateErr with
    | some err => simp [succeeded, shimError]
    | none =>
      simp only [hrec]
      cases hc : stub.Creator with
      | error err => simp [succeeded, shimError, Except.toBool]
      | ok who =>
        cases hm : stub.MSPID with
        | error err => simp [succeeded, shimError, Except.toBool]
        | ok org =>
          cases hp : stub.PutStateErr with
          | some err => simp [succeeded, shimError, Except.toBool]
          | none =>
            cases hs : stub.SetEventErr with
            | none =>
              simp [succeeded, shimSuccess, Except.toBool, h1, h2, h3, h5, createdEvidence,
                custodyEvent]
            | some err =>
              simp [succeeded, shimError, Except.toBool, h1, h2, h3, h5, createdEvidence,
                custodyEvent]

/-- A call without write reports no success and keeps the store. -/
theorem fails_of_noWrite (r : Result) (st : State) (h : NoWrite r st) :
    succeeded r = false ∧ r.state = st := by
  refine ⟨?_, h.1⟩
  simp [succeeded, h.2.2.1]

/-- One call on a key without record, whatever the shim answers: a valid
creation whose shim calls up to the write succeed stores an `ACTIVE` record
with one event and reports success exactly when the notification succeeds;
every other call fails and writes nothing. -/
theorem applyOp_absent_any (caseID evidenceID : String) (stub : Stub) (st : State) (op : Op)
    (hnone : lookupKey (caseID ++ ":" ++ evidenceID) st = none) :
    ((createValid caseID evidenceID op ∧ reachesWrite stub = true) →
      succeeded (applyOp caseID evidenceID stub st op) = notifies stub ∧
      ∃ e : Evidence,
        lookupKey (caseID ++ ":" ++ evidenceID) (applyOp caseID evidenceID stub st op).state =
          some (Bytes.json e) ∧
        e.Status = StatusActive ∧ e.Events.length = 1) ∧
    (¬ (createValid caseID evidenceID op ∧ reachesWrite stub = true) →
      succeeded (applyOp caseID evidenceID stub st op) = false ∧
      (applyOp caseID evidenceID stub st op).state = st) := by
  rw [applyOp_eq]
  cases op with
  | create cid hash metadata =>
    simp only []
    obtain ⟨hyes, hno⟩ := CreateEvidence_any stub st caseID evidenceID cid hash metadata hnone
    refine ⟨fun h => ?_, fun h => ⟨(hno h).2, (hno h).1⟩⟩
    obtain ⟨hst, hsucc⟩ := hyes h
    refine ⟨hsucc, createdEvidence stub caseID evidenceID cid hash metadata (callerOf stub)
      (orgOf stub), ?_, rfl, rfl⟩
    rw [hst]
    exact lookupKey_insertKey_same _ _ _
  | transfer newCustodian transferReason =>
    refine ⟨fun h => absurd h.1 (by simp [createValid]), fun _ => ?_⟩
    simp only []
    rcases TransferCustody_outcome stub st [caseID, evidenceID, newCustodian, transferReason]
      with h | ⟨c, v, _, _, _, _, e, hargs, hrec, -⟩
    · exact fails_of_noWrite _ _ h
    · simp only [List.cons.injEq] at hargs
      rw [← hargs.1, ← hargs.2.1, hnone] at hrec
      exact absurd hrec (by simp)
  | archive archiveReason =>
    refine ⟨fun h => absurd h.1 (by simp [createValid]), fun _ => ?_⟩
    simp only []
    rcases ArchiveToCold_outcome stub st [caseID, evidenceID, archiveReason]
      with h | ⟨c, v, _, _, _, e, hargs, hrec, -⟩
    · exact fails_of_noWrite _ _ h
    · simp only [List.cons.injEq] at hargs
      rw [← hargs.1, ← hargs.2.1, hnone] at hrec
      exact absurd hrec (by simp)
  | reactivate reactivationReason =>
    refine ⟨fun h => absurd h.1 (by simp [createValid]), fun _ => ?_⟩
    simp only []
    rcases ReactivateFromCold_outcome stub st [caseID, evidenceID, reactivationReason]
      with h | ⟨c, v, _, _, _, e, hargs, hrec, -⟩
    · exact fails_of_noWrite _ _ h
    · simp only [List.cons.injEq] at hargs
      rw [← hargs.1, ← hargs.2.1, hnone] at hrec
      exact absurd hrec (by simp)
  | invalidate reason wrongTxID =>
    refine ⟨fun h => absurd h.1 (by simp [createValid]), fun _ => ?_⟩
    simp only []
    rcases InvalidateEvidence_outcome stub st [caseID, evidenceID, reason, wrongTxID]
      with h | ⟨c, v, _, _, _, _, e, hargs, hrec, -⟩
    · exact fails_of_noWrite _ _ h
    · simp only [List.cons.injEq] at hargs
      rw [← hargs.1, ← hargs.2.1, hnone] at hrec
      exact absurd hrec (by simp)

/-- One call on a key with a record, whatever the shim answers: along an edge
of the transition graph, when the shim calls up to the write succeed, the
status becomes the target of the edge, one event is appended, and the call
reports success exactly when the notification succeeds; otherwise the call
fails and writes nothing. -/
theorem applyOp_present_any (caseID evidenceID : String) (stub : Stub) (st : State) (op : Op)
    (e : Evidence) (hrec : lookupKey (caseID ++ ":" ++ evidenceID) st = some (Bytes.json e)) :
    (∀ s1 : EvidenceStatus, graphNext e.Status op = some s1 → reachesWrite stub = true →
      succeeded (applyOp caseID evidenceID stub st op) = notifies stub ∧
      ∃ e1 : Evidence,
        lookupKey (caseID ++ ":" ++ evidenceID) (applyOp caseID evidenceID stub st op).state =
          some (Bytes.json e1) ∧
        e1.Status = s1 ∧ e1.Events.length = e.Events.length + 1) ∧
    ((graphNext e.Status op = none ∨ reachesWrite stub = false) →
      succeeded (applyOp caseID evidenceID stub st op) = false ∧
      (applyOp caseID evidenceID stub st op).state = st) := by
  rw [applyOp_eq]
  cases op with
  | create cid hash metadata =>
    refine ⟨fun s1 h => absurd h (by simp [graphNext]), fun _ => ?_⟩
    simp only []
    rcases CreateEvidence_outcome stub st [caseID, evidenceID, cid, hash, metadata]
      with h | ⟨c, v, _, _, _, _, _, hargs, _, _, _, _, hnone, -⟩
    · exact fails_of_noWrite _ _ h
    · simp only [List.cons.injEq] at hargs
      rw [← hargs.1, ← hargs.2.1, hrec] at hnone
      exact absurd hnone (by simp)
  | transfer newCustodian transferReason =>
    obtain ⟨hyes, hno⟩ :=
      TransferCustody_any stub st caseID evidenceID newCustodian transferReason e hrec
    simp only [graphNext]
    by_cases hs : e.Status = StatusActive ∨ e.Status = StatusReactivated
    · rw [if_pos hs]
      refine ⟨fun s1 h hw => ?_, fun h => ?_⟩
      · obtain ⟨hst, hsucc⟩ := hyes ⟨hs, hw⟩
        refine ⟨hsucc, transferredEvidence stub e newCustodian transferReason
          (callerOf stub) (orgOf stub), ?_,
          Option.some.inj h, ?_⟩
        · rw [hst]
          exact lookupKey_insertKey_same _ _ _
        · simp [transferredEvidence]
      · rcases h with h | h
        · exact absurd h (by simp)
        · obtain ⟨h1, h2⟩ := hno (fun hc => by rw [h] at hc; exact absurd hc.2 (by decide))
          exact ⟨h2, h1⟩
    · rw [if_neg hs]
      obtain ⟨h1, h2⟩ := hno (fun hc => hs hc.1)
      exact ⟨fun s1 h => absurd h (by simp), fun _ => ⟨h2, h1⟩⟩
  | archive archiveReason =>
    obtain ⟨hyes, hno⟩ := ArchiveToCold_any stub st caseID evidenceID archiveReason e hrec
    simp only [graphNext]
    by_cases hs : e.Status = StatusActive
    · rw [if_pos hs]
      refine ⟨fun s1 h hw => ?_, fun h => ?_⟩
      · obtain ⟨hst, hsucc⟩ := hyes ⟨hs, hw⟩
        refine ⟨hsucc, archivedEvidence stub e archiveReason (callerOf stub) (orgOf stub), ?_,
          Option.some.inj h, ?_⟩
        · rw [hst]
          exact lookupKey_insertKey_same _ _ _
        · simp [archivedEvidence]
      · rcases h with h | h
        · exact absurd h (by simp)
        · obtain ⟨h1, h2⟩ := hno (fun hc => by rw [h] at hc; exact absurd hc.2 (by decide))
          exact ⟨h2, h1⟩
    · rw [if_neg hs]
      obtain ⟨h1, h2⟩ := hno (fun hc => hs hc.1)
      exact ⟨fun s1 h => absurd h (by simp), fun _ => ⟨h2, h1⟩⟩
  | reactivate reactivationReason =>
    obtain ⟨hyes, hno⟩ :=
      ReactivateFromCold_any stub st caseID evidenceID reactivationReason e hrec
    simp only [graphNext]
    by_cases hs : e.Status = StatusArchived
    · rw [if_pos hs]
      refine ⟨fun s1 h hw => ?_, fun h => ?_⟩
      · obtain ⟨hst, hsucc⟩ := hyes ⟨hs, hw⟩
        refine ⟨hsucc, reactivatedEvidence stub e reactivationReason
          (callerOf stub) (orgOf stub), ?_,
          Option.some.inj h, ?_⟩
        · rw [hst]
          exact lookupKey_insertKey_same _ _ _
        · simp [reactivatedEvidence]
      · rcases h with h | h
        · exact absurd h (by simp)
        · obtain ⟨h1, h2⟩ := hno (fun hc => by rw [h] at hc; exact absurd hc.2 (by decide))
          exact ⟨h2, h1⟩
    · rw [if_neg hs]
      obtain ⟨h1, h2⟩ := hno (fun hc => hs hc.1)
      exact ⟨fun s1 h => absurd h (by simp), fun _ => ⟨h2, h1⟩⟩
  | invalidate reason wrongTxID =>
    obtain ⟨hyes, hno⟩ :=
      InvalidateEvidence_any stub st caseID evidenceID reason wrongTxID e hrec
    simp only [graphNext]
    refine ⟨fun s1 h hw => ?_, fun h => ?_⟩
    · obtain ⟨hst, hsucc⟩ := hyes hw
      refine ⟨hsucc, invalidatedEvidence stub e reason wrongTxID (callerOf stub) (orgOf stub), ?_,
        Option.some.inj h, ?_⟩
      · rw [hst]
        exact lookupKey_insertKey_same _ _ _
      · simp [invalidatedEvidence]
    · rcases h with h | h
      · exact absurd h (by simp)
      · obtain ⟨h1, h2⟩ := hno (fun hc => by rw [h] at hc; exact absurd hc (by decide))
        exact ⟨h2, h1⟩

/-- The code follows the transition graph from every pair of agreeing states,
whatever the shim answers in each transaction. -/
theorem runTrace_follows_writes (caseID evidenceID : String) (steps : List (Stub × Op)) :
    ∀ (st : State) (a : Option (EvidenceStatus × Nat)),
      Agrees (caseID ++ ":" ++ evidenceID) st a →
      runTrace caseID evidenceID st steps = specWriteTrace caseID evidenceID a steps := by
  induction steps with
  | nil => intro st a _; rfl
  | cons step rest ih =>
    intro st a hag
    obtain ⟨stub, op⟩ := step
    simp only [runTrace, specWriteTrace]
    cases a with
    | none =>
      have hnone : lookupKey (caseID ++ ":" ++ evidenceID) st = none := hag
      obtain ⟨hyes, hno⟩ := applyOp_absent_any caseID evidenceID stub st op hnone
      by_cases hv : createValid caseID evidenceID op ∧ reachesWrite stub = true
      · obtain ⟨hsucc, e, hrec, hs, hlen⟩ := hyes hv
        have hlen0 : e.Events.length = 1 + 0 := hlen
        rw [ih _ (some (StatusActive, 0)) ⟨e, hrec, hs, hlen0⟩, hsucc,
          observe_of_record _ _ e hrec, hs, hlen]
        simp [specWriteStep, hv]
      · obtain ⟨hsucc, hst⟩ := hno hv
        rw [hst, ih st none hnone, hsucc, observe_of_absent _ _ hnone]
        simp [specWriteStep, hv]
    | some p =>
      obtain ⟨s, n⟩ := p
      obtain ⟨e, hrec, hs, hlen⟩ := hag
      obtain ⟨hyes, hno⟩ := applyOp_present_any caseID evidenceID stub st op e hrec
      rw [hs] at hyes hno
      cases hg : graphNext s op with
      | none =>
        obtain ⟨hsucc, hst⟩ := hno (Or.inl hg)
        rw [hst, ih st (some (s, n)) ⟨e, hrec, hs, hlen⟩, hsucc,
          observe_of_record _ _ e hrec, hs, hlen]
        simp [specWriteStep, hg]
      | some s1 =>
        cases hw : reachesWrite stub with
        | false =>
          obtain ⟨hsucc, hst⟩ := hno (Or.inr hw)
          rw [hst, ih st (some (s, n)) ⟨e, hrec, hs, hlen⟩, hsucc,
            observe_of_record _ _ e hrec, hs, hlen]
          simp [specWriteStep, hg, hw]
        | true =>
          obtain ⟨hsucc, e1, hrec1, hs1, hev1⟩ := hyes s1 hg hw
          have hlen1 : e1.Events.length = 1 + (n + 1) := by
            rw [hev1, hlen]
            omega
          rw [ih _ (some (s1, n + 1)) ⟨e1, hrec1, hs1, hlen1⟩, hsucc,
            observe_of_record _ _ e1 hrec1, hs1, hlen1]
          simp [specWriteStep, hg, hw]

/-! ## Properties of the operations -/

/-- The creation followed by the summary: on a store with no record at
`caseID:evidenceID`, with non-empty `caseID`, `evidenceID` and `cid`, a hash of
64 hexadecimal digits and no failing shim call, `CreateEvidence` succeeds, and
`GetEvidenceSummary` on the same pair in the resulting store returns a record
with status `ACTIVE`, a custody log of exactly one `CREATE` event and the
supplied hash.  Its `CurrentOwner` is the creator text `who` of the stub and its
`OwnerOrgMSP` is the answer `org` of `shim.GetMSPID`, the MSP id of the
executing peer, whatever the organization of the caller is. -/
theorem createEvidence_then_getEvidenceSummary (stub reader : Stub) (st : State)
    (caseID evidenceID cid hash metadata who org : String)
    (hcase : caseID ≠ "") (hev : evidenceID ≠ "") (hcid : cid ≠ "") (hhash : IsHex64 hash)
    (hfree : lookupKey (caseID ++ ":" ++ evidenceID) st = none) (hstub : Healthy stub who org)
    (hread : reader.GetStateErr = none) :
    (CreateEvidence stub st [caseID, evidenceID, cid, hash, metadata]).response.Status = 200 ∧
    ∃ e : Evidence,
      (GetEvidenceSummary reader
          (CreateEvidence stub st [caseID, evidenceID, cid, hash, metadata]).state
          [caseID, evidenceID]).response = shimSuccess (Payload.evidence (Bytes.json e)) ∧
      e.Status = StatusActive ∧ e.Events.length = 1 ∧
      (∃ ev : CustodyEvent, e.Events = [ev] ∧ ev.EventType = "CREATE") ∧
      e.Hash = hash ∧ e.CurrentOwner = who ∧ e.OwnerOrgMSP = org := by
  rw [CreateEvidence_ok stub st caseID evidenceID cid hash metadata who org hcase hev hcid hhash
    hfree hstub]
  refine ⟨rfl, createdEvidence stub caseID evidenceID cid hash metadata who org, ?_, ?_⟩
  · simp only [GetEvidenceSummary, GetState, hread, lookupKey_insertKey_same]
  · exact ⟨rfl, rfl, ⟨_, rfl, rfl⟩, rfl, rfl, rfl⟩

theorem createEvidence_then_getEvidenceSummary_witness :
    (CreateEvidence (okStub "alice" "Org1MSP" "tx1" "2024-01-01T00:00:00Z") []
        ["C1", "E1", "cidA", sampleHash, "\x7b\x7d"]).response.Status = 200 ∧
    ∃ e : Evidence,
      (GetEvidenceSummary (okStub "carol" "Org2MSP" "tx2" "2024-01-02T00:00:00Z")
          (CreateEvidence (okStub "alice" "Org1MSP" "tx1" "2024-01-01T00:00:00Z") []
            ["C1", "E1", "cidA", sampleHash, "\x7b\x7d"]).state
          ["C1", "E1"]).response = shimSuccess (Payload.evidence (Bytes.json e)) ∧
      e.Status = StatusActive ∧ e.Events.length = 1 ∧
      (∃ ev : CustodyEvent, e.Events = [ev] ∧ ev.EventType = "CREATE") ∧
      e.Hash = sampleHash ∧ e.CurrentOwner = "alice" ∧ e.OwnerOrgMSP = "Org1MSP" :=
  createEvidence_then_getEvidenceSummary (okStub "alice" "Org1MSP" "tx1" "2024-01-01T00:00:00Z")
    (okStub "carol" "Org2MSP" "tx2" "2024-01-02T00:00:00Z") [] "C1" "E1" "cidA" sampleHash
    "\x7b\x7d" "alice" "Org1MSP" (by decide) (by decide) (by decide)
    ⟨by decide, by decide⟩ rfl ⟨rfl, rfl, rfl, rfl, rfl⟩ rfl

set_option maxRecDepth 100000 in
/-- C1 fails on the code: carol, a member of `Org2MSP`, calls `CreateEvidence`
on a peer whose local MSP id is `Org1MSP`.  The call succeeds, and
`GetEvidenceSummary` then returns a record that is `ACTIVE`, has the supplied
hash and a log of one `CREATE` event, but whose `OwnerOrgMSP` (and the `OrgMSP`
of the event) is `Org1MSP`, the organization of the peer and not that of the
caller, and whose `CurrentOwner` is the whole serialized identity as
`json.Marshal` writes it, which is not even the creator byte for byte. -/
theorem createEvidence_records_peer_organization :
    carolIdentity.Mspid = "Org2MSP" ∧
    (CreateEvidence carolOnOrg1Peer [] ["C1", "E1", "cidA", sampleHash, ""]).response.Status =
      200 ∧
    ∃ (e : Evidence) (ev : CustodyEvent),
      (GetEvidenceSummary aliceStub
          (CreateEvidence carolOnOrg1Peer [] ["C1", "E1", "cidA", sampleHash, ""]).state
          ["C1", "E1"]).response = shimSuccess (Payload.evidence (Bytes.json e)) ∧
      e.Status = StatusActive ∧ e.Hash = sampleHash ∧
      e.Events = [ev] ∧ ev.EventType = "CREATE" ∧ ev.OrgMSP = "Org1MSP" ∧
      e.OwnerOrgMSP = "Org1MSP" ∧ e.OwnerOrgMSP ≠ carolIdentity.Mspid ∧
      e.CurrentOwner = jsonText (marshalIdentity carolIdentity) ∧
      stringBytes e.CurrentOwner ≠ marshalIdentity carolIdentity :=
  ⟨by decide, by decide,
    createdEvidence carolOnOrg1Peer "C1" "E1" "cidA" sampleHash ""
      (jsonText (marshalIdentity carolIdentity)) "Org1MSP",
    custodyEvent carolOnOrg1Peer "CREATE" (jsonText (marshalIdentity carolIdentity)) "Org1MSP"
      "Evidence created and registered",
    by decide, by decide, by decide, by decide, by decide, by decide, by decide, by decide,
    by decide, by decide⟩

/-- C2: when the store already holds a value at `caseID:evidenceID` and the
arguments are otherwise valid, `CreateEvidence` fails with the message
`Evidence already exists: caseID:evidenceID`, and the store after the call is
the store before it, with the same value at that key. -/
theorem createEvidence_already_exists (stub : Stub) (st : State)
    (caseID evidenceID cid hash metadata : String) (existing : Bytes)
    (hcase : caseID ≠ "") (hev : evidenceID ≠ "") (hcid : cid ≠ "") (hhash : IsHex64 hash)
    (hget : stub.GetStateErr = none)
    (hex : lookupKey (caseID ++ ":" ++ evidenceID) st = some existing) :
    (CreateEvidence stub st [caseID, evidenceID, cid, hash, metadata]).response =
        shimError ("Evidence already exists: " ++ (caseID ++ ":" ++ evidenceID)) ∧
    (CreateEvidence stub st [caseID, evidenceID, cid, hash, metadata]).state = st ∧
    lookupKey (caseID ++ ":" ++ evidenceID)
        (CreateEvidence stub st [caseID, evidenceID, cid, hash, metadata]).state = some existing ∧
    (CreateEvidence stub st [caseID, evidenceID, cid, hash, metadata]).event = none := by
  rw [CreateEvidence_exists stub st caseID evidenceID cid hash metadata existing hcase hev hcid
    hhash hget hex]
  exact ⟨rfl, rfl, hex, rfl⟩

theorem createEvidence_already_exists_witness :
    (CreateEvidence (okStub "bob" "Org2MSP" "tx9" "2024-02-01T00:00:00Z")
        [("C1:E1", Bytes.invalid "junk")] ["C1", "E1", "cidB", sampleHash, ""]).response =
        shimError ("Evidence already exists: " ++ ("C1" ++ ":" ++ "E1")) ∧
    (CreateEvidence (okStub "bob" "Org2MSP" "tx9" "2024-02-01T00:00:00Z")
        [("C1:E1", Bytes.invalid "junk")] ["C1", "E1", "cidB", sampleHash, ""]).state =
        [("C1:E1", Bytes.invalid "junk")] ∧
    lookupKey ("C1" ++ ":" ++ "E1")
        (CreateEvidence (okStub "bob" "Org2MSP" "tx9" "2024-02-01T00:00:00Z")
          [("C1:E1", Bytes.invalid "junk")] ["C1", "E1", "cidB", sampleHash, ""]).state =
        some (Bytes.invalid "junk") ∧
    (CreateEvidence (okStub "bob" "Org2MSP" "tx9" "2024-02-01T00:00:00Z")
        [("C1:E1", Bytes.invalid "junk")] ["C1", "E1", "cidB", sampleHash, ""]).event = none :=
  createEvidence_already_exists (okStub "bob" "Org2MSP" "tx9" "2024-02-01T00:00:00Z")
    [("C1:E1", Bytes.invalid "junk")] "C1" "E1" "cidB" sampleHash "" (Bytes.invalid "junk")
    (by decide) (by decide) (by decide) ⟨by decide, by decide⟩ rfl (by decide)

/-- C3: the validation of `CreateEvidence` is exact.  With five arguments, if
`caseID`, `evidenceID`, `cid` or `hash` is empty, or `hash` is not a string of
exactly 64 hexadecimal digits, the call fails with one of the three messages of
the input validation and writes nothing; and with the three identifiers
non-empty, any hash of 64 digits out of `0-9`, `a-f`, `A-F`, any metadata (the
empty one too), a free key and no failing shim call, the call succeeds and the
record is stored under `caseID:evidenceID`. -/
theorem createEvidence_validation_exact (stub : Stub) (st : State)
    (caseID evidenceID cid hash metadata : String) :
    ((caseID = "" ∨ evidenceID = "" ∨ cid = "" ∨ hash = "" ∨ ¬ IsHex64 hash) →
      ((CreateEvidence stub st [caseID, evidenceID, cid, hash, metadata]).response =
            shimError "caseID, evidenceID, cid, and hash cannot be empty" ∨
          (CreateEvidence stub st [caseID, evidenceID, cid, hash, metadata]).response =
            shimError "Invalid hash format. Expected SHA-256 (64 hex characters)" ∨
          (CreateEvidence stub st [caseID, evidenceID, cid, hash, metadata]).response =
            shimError "Invalid hash format. Must be hexadecimal") ∧
        (CreateEvidence stub st [caseID, evidenceID, cid, hash, metadata]).state = st) ∧
    ((caseID ≠ "" ∧ evidenceID ≠ "" ∧ cid ≠ "" ∧ IsHex64 hash) →
      ∀ who org : String, Healthy stub who org →
        lookupKey (caseID ++ ":" ++ evidenceID) st = none →
        (CreateEvidence stub st [caseID, evidenceID, cid, hash, metadata]).response =
            shimSuccess (Payload.evidence
              (Bytes.json (createdEvidence stub caseID evidenceID cid hash metadata who org))) ∧
          lookupKey (caseID ++ ":" ++ evidenceID)
              (CreateEvidence stub st [caseID, evidenceID, cid, hash, metadata]).state =
            some (Bytes.json (createdEvidence stub caseID evidenceID cid hash metadata who org))) := by
  constructor
  · exact CreateEvidence_invalid stub st caseID evidenceID cid hash metadata
  · rintro ⟨hcase, hev, hcid, hhash⟩ who org hstub hfree
    rw [CreateEvidence_ok stub st caseID evidenceID cid hash metadata who org hcase hev hcid hhash
      hfree hstub]
    exact ⟨rfl, lookupKey_insertKey_same _ _ _⟩

theorem createEvidence_validation_exact_witness :
    (((CreateEvidence (okStub "alice" "Org1MSP" "tx1" "2024-01-01T00:00:00Z") []
              ["C1", "E1", "cidA", "xyz", "m"]).response =
            shimError "caseID, evidenceID, cid, and hash cannot be empty" ∨
          (CreateEvidence (okStub "alice" "Org1MSP" "tx1" "2024-01-01T00:00:00Z") []
              ["C1", "E1", "cidA", "xyz", "m"]).response =
            shimError "Invalid hash format. Expected SHA-256 (64 hex characters)" ∨
          (CreateEvidence (okStub "alice" "Org1MSP" "tx1" "2024-01-01T00:00:00Z") []
              ["C1", "E1", "cidA", "xyz", "m"]).response =
            shimError "Invalid hash format. Must be hexadecimal") ∧
        (CreateEvidence (okStub "alice" "Org1MSP" "tx1" "2024-01-01T00:00:00Z") []
            ["C1", "E1", "cidA", "xyz", "m"]).state = []) ∧
    ((CreateEvidence (okStub "alice" "Org1MSP" "tx1" "2024-01-01T00:00:00Z") []
            ["C1", "E1", "cidA", sampleHash, ""]).response =
          shimSuccess (Payload.evidence
            (Bytes.json (createdEvidence (okStub "alice" "Org1MSP" "tx1" "2024-01-01T00:00:00Z")
              "C1" "E1" "cidA" sampleHash "" "alice" "Org1MSP"))) ∧
        lookupKey ("C1" ++ ":" ++ "E1")
            (CreateEvidence (okStub "alice" "Org1MSP" "tx1" "2024-01-01T00:00:00Z") []
              ["C1", "E1", "cidA", sampleHash, ""]).state =
          some (Bytes.json (createdEvidence (okStub "alice" "Org1MSP" "tx1" "2024-01-01T00:00:00Z")
            "C1" "E1" "cidA" sampleHash "" "alice" "Org1MSP"))) :=
  ⟨(createEvidence_validation_exact (okStub "alice" "Org1MSP" "tx1" "2024-01-01T00:00:00Z") []
      "C1" "E1" "cidA" "xyz" "m").1 (Or.inr (Or.inr (Or.inr (Or.inr (by decide))))),
    (createEvidence_validation_exact (okStub "alice" "Org1MSP" "tx1" "2024-01-01T00:00:00Z") []
      "C1" "E1" "cidA" sampleHash "").2 ⟨by decide, by decide, by decide, by decide, by decide⟩
      "alice" "Org1MSP" ⟨rfl, rfl, rfl, rfl, rfl⟩ rfl⟩

/-- Sequences of calls without shim failure: for every sequence of calls applied
to one key from the empty store, in transactions in which no shim call fails,
after each call the outcome (success or failure) and the status and custody log
length of the record are those of the specification: the status follows the
transition graph from `ACTIVE` along the successful calls, the log length is 1
plus the number of successful mutations after the creation, and a failed call
changes neither. -/
theorem status_and_log_length_follow_graph (caseID evidenceID : String)
    (steps : List (Stub × Op)) (hsteps : AllHealthy steps) :
    runTrace caseID evidenceID [] steps =
      specTrace caseID evidenceID none (steps.map Prod.snd) :=
  runTrace_refines caseID evidenceID steps [] none hsteps rfl

theorem status_and_log_length_follow_graph_witness :
    runTrace "C1" "E1" [] exampleSteps =
      [(true, some (StatusActive, 1)), (true, some (StatusActive, 2)),
        (true, some (StatusArchived, 3)), (true, some (StatusReactivated, 4)),
        (false, some (StatusReactivated, 4)), (true, some (StatusInvalidated, 5))] :=
  (status_and_log_length_follow_graph "C1" "E1" exampleSteps (by
    intro step hstep
    simp only [exampleSteps, List.mem_cons, List.mem_singleton, List.not_mem_nil,
      or_false] at hstep
    rcases hstep with h | h | h | h | h | h <;> subst h
    · exact ⟨"alice", "Org1MSP", rfl, rfl, rfl, rfl, rfl⟩
    · exact ⟨"alice", "Org1MSP", rfl, rfl, rfl, rfl, rfl⟩
    · exact ⟨"carol", "Org2MSP", rfl, rfl, rfl, rfl, rfl⟩
    · exact ⟨"carol", "Org2MSP", rfl, rfl, rfl, rfl, rfl⟩
    · exact ⟨"carol", "Org2MSP", rfl, rfl, rfl, rfl, rfl⟩
    · exact ⟨"alice", "Org1MSP", rfl, rfl, rfl, rfl, rfl⟩)).trans
    (by decide)

/-- C4 fails on the code as stated: after the creation of `C1:E1`, an
invalidation whose notification fails is not a successful operation (the only
successful call of the sequence is the creation, along which the transition
graph gives `ACTIVE` and a log of length 1), and yet after it the record is
`INVALIDATED` and its log has length 2. -/
theorem failed_invalidation_moves_status_and_log :
    (successfulSteps "C1" "E1" [] failedNotificationSteps).map Prod.snd =
      [Op.create "cidA" sampleHash ""] ∧
    specTrace "C1" "E1" none
        ((successfulSteps "C1" "E1" [] failedNotificationSteps).map Prod.snd) =
      [(true, some (StatusActive, 1))] ∧
    runTrace "C1" "E1" [] failedNotificationSteps =
      [(true, some (StatusActive, 1)), (false, some (StatusInvalidated, 2))] :=
  ⟨by decide, by decide, by decide⟩

/-- C4, as the code has it: for every sequence of calls applied to one key from
the empty store, whatever the shim answers in each transaction, after each call
the status of the record is the one obtained by following the transition graph
from `ACTIVE` along the calls that performed their write, and the length of the
custody log is 1 plus the number of mutations after the creation that
performed their write.  A call performs its write when it lies on an edge of
the graph (or is a valid creation on the free key) and the shim calls up to the
write succeed; it reports success when the notification succeeds as well, so
the calls that performed their write are the successful ones and those that
failed only on the notification after the write.  A call that failed before
its write changes neither the status nor the log. -/
theorem status_and_log_length_follow_written_operations (caseID evidenceID : String)
    (steps : List (Stub × Op)) :
    runTrace caseID evidenceID [] steps = specWriteTrace caseID evidenceID none steps :=
  runTrace_follows_writes caseID evidenceID steps [] none rfl

theorem status_and_log_length_follow_written_operations_witness :
    runTrace "C1" "E1" [] exampleSteps =
      [(true, some (StatusActive, 1)), (true, some (StatusActive, 2)),
        (true, some (StatusArchived, 3)), (true, some (StatusReactivated, 4)),
        (false, some (StatusReactivated, 4)), (true, some (StatusInvalidated, 5))] ∧
    runTrace "C1" "E1" [] failedNotificationSteps =
      [(true, some (StatusActive, 1)), (false, some (StatusInvalidated, 2))] :=
  ⟨(status_and_log_length_follow_written_operations "C1" "E1" exampleSteps).trans (by decide),
    (status_and_log_length_follow_written_operations "C1" "E1" failedNotificationSteps).trans
      (by decide)⟩

/-- C5: on an existing record, `ArchiveToCold` fails with the message
`Cannot archive evidence. Current status: ...` and leaves the whole store (so
the status and the custody log of the record) unchanged whenever the status is
not `ACTIVE`; and on an `ACTIVE` record, with no failing shim call, it succeeds,
stores the record with status `ARCHIVED` and the former log followed by exactly
one `ARCHIVE` event. -/
theorem archiveToCold_requires_active (stub : Stub) (st : State)
    (caseID evidenceID archiveReason : String) (e : Evidence)
    (hrec : lookupKey (caseID ++ ":" ++ evidenceID) st = some (Bytes.json e))
    (hget : stub.GetStateErr = none) :
    (e.Status ≠ StatusActive →
      (ArchiveToCold stub st [caseID, evidenceID, archiveReason]).response =
          shimError ("Cannot archive evidence. Current status: " ++ e.Status) ∧
        (ArchiveToCold stub st [caseID, evidenceID, archiveReason]).state = st ∧
        lookupKey (caseID ++ ":" ++ evidenceID)
          (ArchiveToCold stub st [caseID, evidenceID, archiveReason]).state =
            some (Bytes.json e)) ∧
    (e.Status = StatusActive → ∀ who org : String, Healthy stub who org →
      (ArchiveToCold stub st [caseID, evidenceID, archiveReason]).response.Status = 200 ∧
        ∃ e1 : Evidence,
          lookupKey (caseID ++ ":" ++ evidenceID)
            (ArchiveToCold stub st [caseID, evidenceID, archiveReason]).state =
              some (Bytes.json e1) ∧
          e1.Status = StatusArchived ∧
          e1.Events = e.Events ++ [custodyEvent stub "ARCHIVE" who org
            ("Evidence archived to cold chain. Reason: " ++ archiveReason)]) := by
  constructor
  · intro hstatus
    rw [ArchiveToCold_reject stub st caseID evidenceID archiveReason e hrec hstatus hget]
    exact ⟨rfl, rfl, hrec⟩
  · intro hstatus who org hstub
    rw [ArchiveToCold_ok stub st caseID evidenceID archiveReason who org e hrec hstatus hstub]
    exact ⟨rfl, _, lookupKey_insertKey_same _ _ _, rfl, rfl⟩

theorem archiveToCold_requires_active_witness :
    ((ArchiveToCold carolStub (sampleState StatusReactivated) ["C1", "E1", "cold"]).response =
          shimError ("Cannot archive evidence. Current status: " ++
            (sampleRecord StatusReactivated).Status) ∧
        (ArchiveToCold carolStub (sampleState StatusReactivated) ["C1", "E1", "cold"]).state =
          sampleState StatusReactivated ∧
        lookupKey ("C1" ++ ":" ++ "E1")
          (ArchiveToCold carolStub (sampleState StatusReactivated) ["C1", "E1", "cold"]).state =
            some (Bytes.json (sampleRecord StatusReactivated))) ∧
    ((ArchiveToCold carolStub (sampleState StatusActive) ["C1", "E1", "cold"]).response.Status
          = 200 ∧
        ∃ e1 : Evidence,
          lookupKey ("C1" ++ ":" ++ "E1")
            (ArchiveToCold carolStub (sampleState StatusActive) ["C1", "E1", "cold"]).state =
              some (Bytes.json e1) ∧
          e1.Status = StatusArchived ∧
          e1.Events = (sampleRecord StatusActive).Events ++
            [custodyEvent carolStub "ARCHIVE" "carol" "Org2MSP"
              ("Evidence archived to cold chain. Reason: " ++ "cold")]) :=
  ⟨(archiveToCold_requires_active carolStub (sampleState StatusReactivated) "C1" "E1" "cold"
      (sampleRecord StatusReactivated) (by decide) rfl).1 (by decide),
    (archiveToCold_requires_active carolStub (sampleState StatusActive) "C1" "E1" "cold"
      (sampleRecord StatusActive) (by decide) rfl).2 rfl "carol" "Org2MSP"
      ⟨rfl, rfl, rfl, rfl, rfl⟩⟩

/-- C6: on an existing record of any status, `InvalidateEvidence` with four
arguments and no failing shim call succeeds, the stored record has status
`INVALIDATED` afterwards, and its log is the former log followed by exactly one
`INVALIDATE` event, whose description spells out the reason and the disputed
transaction id. -/
theorem invalidateEvidence_any_status (stub : Stub) (st : State)
    (caseID evidenceID reason wrongTxID who org : String) (e : Evidence)
    (hrec : lookupKey (caseID ++ ":" ++ evidenceID) st = some (Bytes.json e))
    (hstub : Healthy stub who org) :
    (InvalidateEvidence stub st [caseID, evidenceID, reason, wrongTxID]).response.Status = 200 ∧
    ∃ (e1 : Evidence) (ev : CustodyEvent),
      lookupKey (caseID ++ ":" ++ evidenceID)
        (InvalidateEvidence stub st [caseID, evidenceID, reason, wrongTxID]).state =
          some (Bytes.json e1) ∧
      e1.Status = StatusInvalidated ∧
      e1.Events = e.Events ++ [ev] ∧
      ev.EventType = "INVALIDATE" ∧
      ev.Description =
        "Evidence invalidated. Reason: " ++ reason ++ ". Wrong TxID: " ++ wrongTxID := by
  rw [InvalidateEvidence_ok stub st caseID evidenceID reason wrongTxID who org e hrec hstub]
  exact ⟨rfl, _, _, lookupKey_insertKey_same _ _ _, rfl, rfl, rfl, rfl⟩

theorem invalidateEvidence_any_status_witness :
    (InvalidateEvidence carolStub (sampleState StatusInvalidated)
        ["C1", "E1", "tampered", "tx1"]).response.Status = 200 ∧
    ∃ (e1 : Evidence) (ev : CustodyEvent),
      lookupKey ("C1" ++ ":" ++ "E1")
        (InvalidateEvidence carolStub (sampleState StatusInvalidated)
          ["C1", "E1", "tampered", "tx1"]).state = some (Bytes.json e1) ∧
      e1.Status = StatusInvalidated ∧
      e1.Events = (sampleRecord StatusInvalidated).Events ++ [ev] ∧
      ev.EventType = "INVALIDATE" ∧
      ev.Description = "Evidence invalidated. Reason: " ++ "tampered" ++ ". Wrong TxID: " ++ "tx1" :=
  invalidateEvidence_any_status carolStub (sampleState StatusInvalidated) "C1" "E1" "tampered"
    "tx1" "carol" "Org2MSP" (sampleRecord StatusInvalidated) (by decide)
    ⟨rfl, rfl, rfl, rfl, rfl⟩

/-- C7: `INVALIDATED` is terminal.  Once the record under a key has status
`INVALIDATED`, after any sequence of invocations of the chaincode functions,
with any arguments and in any transactions, the record under that key still has
status `INVALIDATED`; on that key `TransferCustody`, `ArchiveToCold` and
`ReactivateFromCold` fail on the status, and `CreateEvidence` with valid
arguments fails because the key is occupied. -/
theorem invalidated_is_terminal (caseID evidenceID : String) (st : State) (e : Evidence)
    (hrec : lookupKey (caseID ++ ":" ++ evidenceID) st = some (Bytes.json e))
    (hs : e.Status = StatusInvalidated) :
    (∀ calls : List (Stub × String × List String),
      ∃ e1 : Evidence,
        lookupKey (caseID ++ ":" ++ evidenceID) (invokeAll st calls) = some (Bytes.json e1) ∧
        e1.Status = StatusInvalidated) ∧
    (∀ (stub : Stub) (newCustodian transferReason : String), stub.GetStateErr = none →
      TransferCustody stub st [caseID, evidenceID, newCustodian, transferReason] =
        ⟨shimError ("Cannot transfer custody. Evidence status is: " ++ StatusInvalidated),
          st, none⟩) ∧
    (∀ (stub : Stub) (archiveReason : String), stub.GetStateErr = none →
      ArchiveToCold stub st [caseID, evidenceID, archiveReason] =
        ⟨shimError ("Cannot archive evidence. Current status: " ++ StatusInvalidated),
          st, none⟩) ∧
    (∀ (stub : Stub) (reactivationReason : String), stub.GetStateErr = none →
      ReactivateFromCold stub st [caseID, evidenceID, reactivationReason] =
        ⟨shimError ("Cannot reactivate evidence. Current status: " ++ StatusInvalidated),
          st, none⟩) ∧
    (∀ (stub : Stub) (cid hash metadata : String), stub.GetStateErr = none →
      caseID ≠ "" → evidenceID ≠ "" → cid ≠ "" → IsHex64 hash →
      CreateEvidence stub st [caseID, evidenceID, cid, hash, metadata] =
        ⟨shimError ("Evidence already exists: " ++ (caseID ++ ":" ++ evidenceID)), st, none⟩) := by
  have hA : e.Status ≠ StatusActive := by rw [hs]; decide
  have hR : e.Status ≠ StatusReactivated := by rw [hs]; decide
  have hC : e.Status ≠ StatusArchived := by rw [hs]; decide
  refine ⟨fun calls => invokeAll_keeps_invalidated _ calls st e hrec hs, ?_, ?_, ?_, ?_⟩
  · intro stub nc tr hget
    rw [TransferCustody_reject stub st caseID evidenceID nc tr e hrec ⟨hA, hR⟩ hget, hs]
  · intro stub r hget
    rw [ArchiveToCold_reject stub st caseID evidenceID r e hrec hA hget, hs]
  · intro stub r hget
    rw [ReactivateFromCold_reject stub st caseID evidenceID r e hrec hC hget, hs]
  · intro stub cid hash md hget hc he hcid hhash
    exact CreateEvidence_exists stub st caseID evidenceID cid hash md _ hc he hcid hhash hget hrec

theorem invalidated_is_terminal_witness :
    (∃ e1 : Evidence,
      lookupKey ("C1" ++ ":" ++ "E1") (invokeAll (sampleState StatusInvalidated) sampleCalls) =
        some (Bytes.json e1) ∧
      e1.Status = StatusInvalidated) ∧
    TransferCustody carolStub (sampleState StatusInvalidated) ["C1", "E1", "bob", "handover"] =
      ⟨shimError ("Cannot transfer custody. Evidence status is: " ++ StatusInvalidated),
        sampleState StatusInvalidated, none⟩ ∧
    CreateEvidence carolStub (sampleState StatusInvalidated)
        ["C1", "E1", "cidB", sampleHash, ""] =
      ⟨shimError ("Evidence already exists: " ++ ("C1" ++ ":" ++ "E1")),
        sampleState StatusInvalidated, none⟩ :=
  ⟨(invalidated_is_terminal "C1" "E1" (sampleState StatusInvalidated)
      (sampleRecord StatusInvalidated) (by decide) rfl).1 sampleCalls,
    (invalidated_is_terminal "C1" "E1" (sampleState StatusInvalidated)
      (sampleRecord StatusInvalidated) (by decide) rfl).2.1 carolStub "bob" "handover" rfl,
    (invalidated_is_terminal "C1" "E1" (sampleState StatusInvalidated)
      (sampleRecord StatusInvalidated) (by decide) rfl).2.2.2.2 carolStub "cidB" sampleHash ""
      rfl (by decide) (by decide) (by decide) (by decide)⟩

/-- C8 fails on the code: after a successful `CreateEvidence` of `C1:E1` on the
empty store, the record is stored under the plain key `C1:E1` with case
identifier `C1`, and `QueryEvidencesByCase` for `C1` succeeds with the empty
list, although one record was created under that case. -/
theorem queryEvidencesByCase_misses_created_record :
    (CreateEvidence aliceStub [] ["C1", "E1", "cidA", sampleHash, ""]).response.Status = 200 ∧
    (CreateEvidence aliceStub [] ["C1", "E1", "cidA", sampleHash, ""]).state =
      [("C1:E1", Bytes.json (sampleRecord StatusActive))] ∧
    (sampleRecord StatusActive).CaseID = "C1" ∧
    (QueryEvidencesByCase carolStub
        (CreateEvidence aliceStub [] ["C1", "E1", "cidA", sampleHash, ""]).state
        ["C1"]).response = shimSuccess (Payload.evidenceList []) := by
  refine ⟨by decide, by decide, by decide, by decide⟩

/-- C9: `GetCustodyChain` fails with `Evidence not found: ...` on every store
without record at the key.  After any sequence of calls on one key from the
empty store (transactions without shim failure), if a record is at the key then
the successful calls are a creation followed by `N` mutations, and
`GetCustodyChain` returns exactly `N + 1` events: the events list of the record
that `GetEvidenceSummary` returns, element by element the events of the
successful calls in their order, the `CREATE` event first. -/
theorem getCustodyChain_matches_log (caseID evidenceID : String) (steps : List (Stub × Op))
    (reader1 reader2 : Stub) (hsteps : AllHealthy steps)
    (hread1 : reader1.GetStateErr = none) (hread2 : reader2.GetStateErr = none) :
    (∀ st : State, lookupKey (caseID ++ ":" ++ evidenceID) st = none →
      (GetCustodyChain reader1 st [caseID, evidenceID]).response =
        shimError ("Evidence not found: " ++ (caseID ++ ":" ++ evidenceID))) ∧
    (lookupKey (caseID ++ ":" ++ evidenceID) (runState caseID evidenceID [] steps) ≠ none →
      ∃ (e : Evidence) (c : Stub × Op) (muts : List (Stub × Op)),
        successfulSteps caseID evidenceID [] steps = c :: muts ∧
        c.2.isCreate = true ∧ (∀ s ∈ muts, s.2.isCreate = false) ∧
        (GetEvidenceSummary reader2 (runState caseID evidenceID [] steps)
          [caseID, evidenceID]).response = shimSuccess (Payload.evidence (Bytes.json e)) ∧
        (GetCustodyChain reader1 (runState caseID evidenceID [] steps)
          [caseID, evidenceID]).response = shimSuccess (Payload.events e.Events) ∧
        e.Events = stepEvent c :: muts.map stepEvent ∧
        e.Events.length = muts.length + 1 ∧
        (stepEvent c).EventType = "CREATE") := by
  constructor
  · intro st hnone
    rw [GetCustodyChain_absent reader1 st caseID evidenceID hnone hread1]
  · intro hsome
    rcases run_absent caseID evidenceID steps [] hsteps rfl with ⟨hnone, -⟩ | h
    · exact absurd hnone hsome
    · obtain ⟨e, c, muts, hrec, hsucc, hc, hm, hev⟩ := h
      refine ⟨e, c, muts, hsucc, hc, hm, ?_, ?_, ?_, ?_, ?_⟩
      · rw [GetEvidenceSummary_record reader2 _ caseID evidenceID _ hrec hread2]
      · rw [GetCustodyChain_record reader1 _ caseID evidenceID e hrec hread1]
      · rw [hev]
        rfl
      · rw [hev]
        simp
      · obtain ⟨stub, op⟩ := c
        cases op <;> first | rfl | simp [Op.isCreate] at hc

theorem getCustodyChain_matches_log_witness :
    (GetCustodyChain carolStub [] ["C1", "E1"]).response =
      shimError ("Evidence not found: " ++ ("C1" ++ ":" ++ "E1")) ∧
    ∃ (e : Evidence) (c : Stub × Op) (muts : List (Stub × Op)),
      successfulSteps "C1" "E1" [] exampleSteps = c :: muts ∧
      c.2.isCreate = true ∧ (∀ s ∈ muts, s.2.isCreate = false) ∧
      (GetEvidenceSummary aliceStub (runState "C1" "E1" [] exampleSteps)
        ["C1", "E1"]).response = shimSuccess (Payload.evidence (Bytes.json e)) ∧
      (GetCustodyChain carolStub (runState "C1" "E1" [] exampleSteps)
        ["C1", "E1"]).response = shimSuccess (Payload.events e.Events) ∧
      e.Events = stepEvent c :: muts.map stepEvent ∧
      e.Events.length = muts.length + 1 ∧
      (stepEvent c).EventType = "CREATE" :=
  have hsteps : AllHealthy exampleSteps := by
    intro step hstep
    simp only [exampleSteps, List.mem_cons, List.mem_singleton, List.not_mem_nil,
      or_false] at hstep
    rcases hstep with h | h | h | h | h | h <;> subst h
    · exact ⟨"alice", "Org1MSP", rfl, rfl, rfl, rfl, rfl⟩
    · exact ⟨"alice", "Org1MSP", rfl, rfl, rfl, rfl, rfl⟩
    · exact ⟨"carol", "Org2MSP", rfl, rfl, rfl, rfl, rfl⟩
    · exact ⟨"carol", "Org2MSP", rfl, rfl, rfl, rfl, rfl⟩
    · exact ⟨"carol", "Org2MSP", rfl, rfl, rfl, rfl, rfl⟩
    · exact ⟨"alice", "Org1MSP", rfl, rfl, rfl, rfl, rfl⟩
  ⟨(getCustodyChain_matches_log "C1" "E1" exampleSteps carolStub aliceStub hsteps rfl rfl).1 []
      rfl,
    (getCustodyChain_matches_log "C1" "E1" exampleSteps carolStub aliceStub hsteps rfl rfl).2
      (by decide)⟩

/-- The contract of `TransferCustody`: it fails with `Evidence not found: ...`
when no record is at the key; on an existing record it fails with the message
`Cannot transfer custody. Evidence status is: ...` exactly when the status is
neither `ACTIVE` nor `REACTIVATED`; whenever it succeeds the stored record has
the new custodian as `CurrentOwner`, the status it had before, and the former
log followed by exactly one `TRANSFER` event, and its `OwnerOrgMSP` is the
answer `org` of `shim.GetMSPID`, the MSP id of the executing peer, whatever the
organization of the calling actor is; and it does succeed on an `ACTIVE` or
`REACTIVATED` record when no shim call fails. -/
theorem transferCustody_contract (stub : Stub) (st : State)
    (caseID evidenceID newCustodian transferReason : String)
    (hget : stub.GetStateErr = none) :
    (lookupKey (caseID ++ ":" ++ evidenceID) st = none →
      (TransferCustody stub st [caseID, evidenceID, newCustodian, transferReason]).response =
          shimError ("Evidence not found: " ++ (caseID ++ ":" ++ evidenceID)) ∧
        (TransferCustody stub st [caseID, evidenceID, newCustodian, transferReason]).state = st) ∧
    (∀ e : Evidence, lookupKey (caseID ++ ":" ++ evidenceID) st = some (Bytes.json e) →
      ((∃ status : String,
          (TransferCustody stub st [caseID, evidenceID, newCustodian, transferReason]).response =
            shimError ("Cannot transfer custody. Evidence status is: " ++ status)) ↔
        (e.Status ≠ StatusActive ∧ e.Status ≠ StatusReactivated)) ∧
      ((TransferCustody stub st [caseID, evidenceID, newCustodian, transferReason]).response.Status
          = 200 →
        ∃ (who org : String) (e1 : Evidence) (ev : CustodyEvent),
          stub.Creator = Except.ok who ∧ stub.MSPID = Except.ok org ∧
          lookupKey (caseID ++ ":" ++ evidenceID)
            (TransferCustody stub st [caseID, evidenceID, newCustodian, transferReason]).state =
              some (Bytes.json e1) ∧
          e1.CurrentOwner = newCustodian ∧ e1.OwnerOrgMSP = org ∧ e1.Status = e.Status ∧
          e1.Events = e.Events ++ [ev] ∧ ev.EventType = "TRANSFER" ∧ ev.Actor = who ∧
          ev.OrgMSP = org) ∧
      ((e.Status = StatusActive ∨ e.Status = StatusReactivated) →
        ∀ who org : String, Healthy stub who org →
          (TransferCustody stub st
            [caseID, evidenceID, newCustodian, transferReason]).response.Status = 200)) := by
  refine ⟨fun hrec => ?_, fun e hrec => ⟨?_, ?_, ?_⟩⟩
  · rw [TransferCustody_absent stub st caseID evidenceID newCustodian transferReason hrec hget]
    exact ⟨rfl, rfl⟩
  · constructor
    · rintro ⟨status, hresp⟩
      by_contra hcond
      simp only [TransferCustody, GetState, hget, hrec, jsonUnmarshal, if_neg hcond, getMSPID,
        PutState, key_ne_empty, if_false, SetEvent, jsonMarshal] at hresp
      have hF : ∀ (p x y : String), p.data.head? = some (Char.ofNat 70) →
          shimError (p ++ x) ≠
            shimError ("Cannot transfer custody. Evidence status is: " ++ y) := by
        intro p x y hp hh
        have hm : p ++ x = "Cannot transfer custody. Evidence status is: " ++ y :=
          congrArg Response.Message hh
        exact append_ne_of_head (Char.ofNat 70) (Char.ofNat 67) p
          "Cannot transfer custody. Evidence status is: " x y hp (by decide) (by decide) hm
      cases hm : stub.MSPID with
      | error err =>
        simp only [hm] at hresp
        exact hF "Failed to get MSP ID: " _ _ (by decide) hresp
      | ok mspID =>
        simp only [hm] at hresp
        cases hc : stub.Creator with
        | error err =>
          simp only [hc] at hresp
          exact hF "Failed to get creator: " _ _ (by decide) hresp
        | ok creator =>
          simp only [hc] at hresp
          cases hp : stub.PutStateErr with
          | some err =>
            simp only [hp] at hresp
            exact hF "Failed to update evidence: " _ _ (by decide) hresp
          | none =>
            simp only [hp] at hresp
            cases hs : stub.SetEventErr with
            | some err =>
              simp [hs] at hresp
              exact hF "Failed to emit event: " _ _ (by decide) hresp
            | none =>
              simp [hs] at hresp
              have := congrArg Response.Status hresp
              simp [shimSuccess, shimError] at this
    · intro hcond
      exact ⟨e.Status, by
        rw [TransferCustody_reject stub st caseID evidenceID newCustodian transferReason e hrec
          hcond hget]⟩
  · intro hok
    by_cases hcond : e.Status ≠ StatusActive ∧ e.Status ≠ StatusReactivated
    · rw [TransferCustody_reject stub st caseID evidenceID newCustodian transferReason e hrec
        hcond hget] at hok
      simp [shimError] at hok
    · have hstatus : e.Status = StatusActive ∨ e.Status = StatusReactivated := by
        by_contra hn
        push_neg at hn
        exact hcond hn
      cases hm : stub.MSPID with
      | error err =>
        simp [TransferCustody, GetState, hget, hrec, jsonUnmarshal, hcond, getMSPID, hm,
          shimError] at hok
      | ok mspID =>
        cases hc : stub.Creator with
        | error err =>
          simp [TransferCustody, GetState, hget, hrec, jsonUnmarshal, hcond, getMSPID, hm, hc,
            shimError] at hok
        | ok creator =>
          cases hp : stub.PutStateErr with
          | some err =>
            simp [TransferCustody, GetState, hget, hrec, jsonUnmarshal, hcond, getMSPID, hm, hc,
              PutState, key_ne_empty, hp, shimError] at hok
          | none =>
            cases hs : stub.SetEventErr with
            | some err =>
              simp [TransferCustody, GetState, hget, hrec, jsonUnmarshal, hcond, getMSPID, hm,
                hc, PutState, key_ne_empty, hp, SetEvent, hs, shimError] at hok
            | none =>
              rw [TransferCustody_ok stub st caseID evidenceID newCustodian transferReason
                creator mspID e hrec hstatus ⟨hc, hm, hget, hp, hs⟩]
              exact ⟨creator, mspID, _, _, rfl, rfl, lookupKey_insertKey_same _ _ _, rfl, rfl,
                rfl, rfl, rfl, rfl, rfl⟩
  · intro hstatus who org hstub
    rw [TransferCustody_ok stub st caseID evidenceID newCustodian transferReason who org e hrec
      hstatus hstub]
    rfl

theorem transferCustody_contract_witness :
    (TransferCustody carolStub [] ["C1", "E1", "bob", "handover"]).response =
        shimError ("Evidence not found: " ++ ("C1" ++ ":" ++ "E1")) ∧
    (TransferCustody carolStub (sampleState StatusActive)
        ["C1", "E1", "bob", "handover"]).response.Status = 200 ∧
    (∃ status : String,
        (TransferCustody carolStub (sampleState StatusArchived)
          ["C1", "E1", "bob", "handover"]).response =
          shimError ("Cannot transfer custody. Evidence status is: " ++ status)) ∧
    ∃ (who org : String) (e1 : Evidence) (ev : CustodyEvent),
      carolStub.Creator = Except.ok who ∧ carolStub.MSPID = Except.ok org ∧
      lookupKey ("C1" ++ ":" ++ "E1")
        (TransferCustody carolStub (sampleState StatusActive)
          ["C1", "E1", "bob", "handover"]).state = some (Bytes.json e1) ∧
      e1.CurrentOwner = "bob" ∧ e1.OwnerOrgMSP = org ∧
      e1.Status = (sampleRecord StatusActive).Status ∧
      e1.Events = (sampleRecord StatusActive).Events ++ [ev] ∧ ev.EventType = "TRANSFER" ∧
      ev.Actor = who ∧ ev.OrgMSP = org :=
  ⟨((transferCustody_contract carolStub [] "C1" "E1" "bob" "handover" rfl).1 rfl).1,
    ((transferCustody_contract carolStub (sampleState StatusActive) "C1" "E1" "bob" "handover"
      rfl).2 (sampleRecord StatusActive) (by decide)).2.2 (Or.inl rfl) "carol" "Org2MSP"
      ⟨rfl, rfl, rfl, rfl, rfl⟩,
    ((transferCustody_contract carolStub (sampleState StatusArchived) "C1" "E1" "bob" "handover"
      rfl).2 (sampleRecord StatusArchived) (by decide)).1.2 (by decide),
    ((transferCustody_contract carolStub (sampleState StatusActive) "C1" "E1" "bob" "handover"
      rfl).2 (sampleRecord StatusActive) (by decide)).2.1 (by decide)⟩

set_option maxRecDepth 100000 in
/-- C10 fails on the code: carol, a member of `Org2MSP`, calls `TransferCustody`
for the `ACTIVE` record `C1:E1` on a peer whose local MSP id is `Org1MSP`.  The
call succeeds, the stored record has bob as `CurrentOwner`, the status it had
and one `TRANSFER` event appended, but its `OwnerOrgMSP` (and the `OrgMSP` of
the event) is `Org1MSP`, the organization of the peer and not that of the
calling actor. -/
theorem transferCustody_records_peer_organization :
    carolIdentity.Mspid = "Org2MSP" ∧
    (TransferCustody carolOnOrg1Peer (sampleState StatusActive)
        ["C1", "E1", "bob", "handover"]).response.Status = 200 ∧
    ∃ (e1 : Evidence) (ev : CustodyEvent),
      lookupKey "C1:E1" (TransferCustody carolOnOrg1Peer (sampleState StatusActive)
        ["C1", "E1", "bob", "handover"]).state = some (Bytes.json e1) ∧
      e1.CurrentOwner = "bob" ∧ e1.Status = StatusActive ∧
      e1.Events = (sampleRecord StatusActive).Events ++ [ev] ∧
      ev.EventType = "TRANSFER" ∧ ev.OrgMSP = "Org1MSP" ∧
      e1.OwnerOrgMSP = "Org1MSP" ∧ e1.OwnerOrgMSP ≠ carolIdentity.Mspid :=
  ⟨by decide, by decide,
    transferredEvidence carolOnOrg1Peer (sampleRecord StatusActive) "bob" "handover"
      (jsonText (marshalIdentity carolIdentity)) "Org1MSP",
    custodyEvent carolOnOrg1Peer "TRANSFER" (jsonText (marshalIdentity carolIdentity)) "Org1MSP"
      ("Custody transferred to " ++ "bob" ++ ". Reason: " ++ "handover"),
    by decide, by decide, by decide, by decide, by decide, by decide, by decide, by decide⟩

/-- C11: `ReactivateFromCold` fails with `Evidence not found: ...` when no
record is at the key; on an existing record whose status is not exactly
`ARCHIVED` (so on `ACTIVE`, `REACTIVATED` and `INVALIDATED`) it fails with
`Cannot reactivate evidence. Current status: ...` and leaves the store
unchanged; and on an `ARCHIVED` record, with no failing shim call, it succeeds,
stores the record with status `REACTIVATED` and the former log followed by
exactly one `REACTIVATE` event. -/
theorem reactivateFromCold_contract (stub : Stub) (st : State)
    (caseID evidenceID reactivationReason : String) (hget : stub.GetStateErr = none) :
    (lookupKey (caseID ++ ":" ++ evidenceID) st = none →
      (ReactivateFromCold stub st [caseID, evidenceID, reactivationReason]).response =
          shimError ("Evidence not found: " ++ (caseID ++ ":" ++ evidenceID)) ∧
        (ReactivateFromCold stub st [caseID, evidenceID, reactivationReason]).state = st) ∧
    (∀ e : Evidence, lookupKey (caseID ++ ":" ++ evidenceID) st = some (Bytes.json e) →
      (e.Status ≠ StatusArchived →
        (ReactivateFromCold stub st [caseID, evidenceID, reactivationReason]).response =
            shimError ("Cannot reactivate evidence. Current status: " ++ e.Status) ∧
          (ReactivateFromCold stub st [caseID, evidenceID, reactivationReason]).state = st) ∧
      (e.Status = StatusArchived → ∀ who org : String, Healthy stub who org →
        (ReactivateFromCold stub st
            [caseID, evidenceID, reactivationReason]).response.Status = 200 ∧
          ∃ e1 : Evidence,
            lookupKey (caseID ++ ":" ++ evidenceID)
              (ReactivateFromCold stub st [caseID, evidenceID, reactivationReason]).state =
                some (Bytes.json e1) ∧
            e1.Status = StatusReactivated ∧
            e1.Events = e.Events ++ [custodyEvent stub "REACTIVATE" who org
              ("Evidence reactivated from cold chain. Reason: " ++ reactivationReason)])) := by
  refine ⟨fun hnone => ?_, fun e hrec => ⟨fun hstatus => ?_, fun hstatus who org hstub => ?_⟩⟩
  · rw [ReactivateFromCold_absent stub st caseID evidenceID reactivationReason hnone hget]
    exact ⟨rfl, rfl⟩
  · rw [ReactivateFromCold_reject stub st caseID evidenceID reactivationReason e hrec hstatus
      hget]
    exact ⟨rfl, rfl⟩
  · rw [ReactivateFromCold_ok stub st caseID evidenceID reactivationReason who org e hrec hstatus
      hstub]
    exact ⟨rfl, _, lookupKey_insertKey_same _ _ _, rfl, rfl⟩

theorem reactivateFromCold_contract_witness :
    (ReactivateFromCold carolStub [] ["C1", "E1", "reopen"]).response =
        shimError ("Evidence not found: " ++ ("C1" ++ ":" ++ "E1")) ∧
    ((ReactivateFromCold carolStub (sampleState StatusActive) ["C1", "E1", "reopen"]).response =
        shimError ("Cannot reactivate evidence. Current status: " ++
          (sampleRecord StatusActive).Status) ∧
      (ReactivateFromCold carolStub (sampleState StatusActive) ["C1", "E1", "reopen"]).state =
        sampleState StatusActive) ∧
    ((ReactivateFromCold carolStub (sampleState StatusArchived)
          ["C1", "E1", "reopen"]).response.Status = 200 ∧
      ∃ e1 : Evidence,
        lookupKey ("C1" ++ ":" ++ "E1")
          (ReactivateFromCold carolStub (sampleState StatusArchived)
            ["C1", "E1", "reopen"]).state = some (Bytes.json e1) ∧
        e1.Status = StatusReactivated ∧
        e1.Events = (sampleRecord StatusArchived).Events ++
          [custodyEvent carolStub "REACTIVATE" "carol" "Org2MSP"
            ("Evidence reactivated from cold chain. Reason: " ++ "reopen")]) :=
  ⟨((reactivateFromCold_contract carolStub [] "C1" "E1" "reopen" rfl).1 rfl).1,
    ((reactivateFromCold_contract carolStub (sampleState StatusActive) "C1" "E1" "reopen"
      rfl).2 (sampleRecord StatusActive) (by decide)).1 (by decide),
    ((reactivateFromCold_contract carolStub (sampleState StatusArchived) "C1" "E1" "reopen"
      rfl).2 (sampleRecord StatusArchived) (by decide)).2 rfl "carol" "Org2MSP"
      ⟨rfl, rfl, rfl, rfl, rfl⟩⟩

/-- C12: atomicity of rejection.  For each of the five mutating functions,
every stub, every store and every argument list: if the call answers with a
rejection (wrong argument count, invalid argument, record not found, record
already existing, unmet status precondition), then no write was performed: the
store after the call is the store before it, so no custody event was appended to
any record, and no chaincode event was set. -/
theorem rejection_is_atomic (stub : Stub) (st : State) (args : List String) (msg : String)
    (hmsg : Rejection msg) :
    ((CreateEvidence stub st args).response = shimError msg →
      (CreateEvidence stub st args).state = st ∧ (CreateEvidence stub st args).event = none) ∧
    ((TransferCustody stub st args).response = shimError msg →
      (TransferCustody stub st args).state = st ∧ (TransferCustody stub st args).event = none) ∧
    ((ArchiveToCold stub st args).response = shimError msg →
      (ArchiveToCold stub st args).state = st ∧ (ArchiveToCold stub st args).event = none) ∧
    ((ReactivateFromCold stub st args).response = shimError msg →
      (ReactivateFromCold stub st args).state = st ∧
        (ReactivateFromCold stub st args).event = none) ∧
    ((InvalidateEvidence stub st args).response = shimError msg →
      (InvalidateEvidence stub st args).state = st ∧
        (InvalidateEvidence stub st args).event = none) := by
  refine ⟨fun hresp => ?_, fun hresp => ?_, fun hresp => ?_, fun hresp => ?_, fun hresp => ?_⟩
  · rcases CreateEvidence_outcome stub st args with h | ⟨_, _, _, _, _, _, _, -, -, -, -, -, -, -,
      -, hw⟩
    · exact ⟨h.1, h.2.1⟩
    · exact absurd hresp (wrote_not_rejection stub _ st _ _ _ msg hw hmsg)
  · rcases TransferCustody_outcome stub st args with h | ⟨_, _, _, _, _, _, _, -, -, -, -, -, hw⟩
    · exact ⟨h.1, h.2.1⟩
    · exact absurd hresp (wrote_not_rejection stub _ st _ _ _ msg hw hmsg)
  · rcases ArchiveToCold_outcome stub st args with h | ⟨_, _, _, _, _, _, -, -, -, -, -, hw⟩
    · exact ⟨h.1, h.2.1⟩
    · exact absurd hresp (wrote_not_rejection stub _ st _ _ _ msg hw hmsg)
  · rcases ReactivateFromCold_outcome stub st args with h | ⟨_, _, _, _, _, _, -, -, -, -, -, hw⟩
    · exact ⟨h.1, h.2.1⟩
    · exact absurd hresp (wrote_not_rejection stub _ st _ _ _ msg hw hmsg)
  · rcases InvalidateEvidence_outcome stub st args with h | ⟨_, _, _, _, _, _, _, -, -, -, -, hw⟩
    · exact ⟨h.1, h.2.1⟩
    · exact absurd hresp (wrote_not_rejection stub _ st _ _ _ msg hw hmsg)

theorem rejection_is_atomic_witness :
    ((ArchiveToCold emitFailStub (sampleState StatusArchived) ["C1", "E1", "cold"]).state =
        sampleState StatusArchived ∧
      (ArchiveToCold emitFailStub (sampleState StatusArchived) ["C1", "E1", "cold"]).event =
        none) ∧
    ((CreateEvidence aliceStub (sampleState StatusActive)
          ["C1", "E1", "cidB", sampleHash, ""]).state = sampleState StatusActive ∧
      (CreateEvidence aliceStub (sampleState StatusActive)
          ["C1", "E1", "cidB", sampleHash, ""]).event = none) ∧
    ((TransferCustody aliceStub (sampleState StatusActive) ["C1", "E1", "bob"]).state =
        sampleState StatusActive ∧
      (TransferCustody aliceStub (sampleState StatusActive) ["C1", "E1", "bob"]).event = none) :=
  ⟨(rejection_is_atomic emitFailStub (sampleState StatusArchived) ["C1", "E1", "cold"]
      ("Cannot archive evidence. Current status: " ++ "ARCHIVED")
      (Rejection.archiveState "ARCHIVED")).2.2.1 (by decide),
    (rejection_is_atomic aliceStub (sampleState StatusActive)
      ["C1", "E1", "cidB", sampleHash, ""] ("Evidence already exists: " ++ "C1:E1")
      (Rejection.alreadyExists "C1:E1")).1 (by decide),
    (rejection_is_atomic aliceStub (sampleState StatusActive) ["C1", "E1", "bob"]
      ("Incorrect number of arguments. Expecting: " ++
        "caseID, evidenceID, newCustodian, transferReason")
      (Rejection.argumentCount "caseID, evidenceID, newCustodian, transferReason")).2.1
      (by decide)⟩

/-- C13 fails on the code as stated: the invalidation of `C1:E1` in a
transaction whose notification fails is not a successful mutation (the response
is an error), and yet the log of the record is extended by one event. -/
theorem custody_log_extended_by_failed_call :
    (Invoke emitFailStub (sampleState StatusActive) "InvalidateEvidence"
        ["C1", "E1", "tampered", "tx1"]).response =
      shimError "Failed to emit event: event hub unavailable" ∧
    lookupKey "C1:E1" (sampleState StatusActive) = some (Bytes.json (sampleRecord StatusActive)) ∧
    ∃ (e1 : Evidence) (ev : CustodyEvent),
      lookupKey "C1:E1" (Invoke emitFailStub (sampleState StatusActive) "InvalidateEvidence"
        ["C1", "E1", "tampered", "tx1"]).state = some (Bytes.json e1) ∧
      e1.Events = (sampleRecord StatusActive).Events ++ [ev] ∧
      e1.Events ≠ (sampleRecord StatusActive).Events :=
  ⟨by decide, by decide,
    invalidatedEvidence emitFailStub (sampleRecord StatusActive) "tampered" "tx1" "carol" "Org2MSP",
    custodyEvent emitFailStub "INVALIDATE" "carol" "Org2MSP"
      ("Evidence invalidated. Reason: " ++ "tampered" ++ ". Wrong TxID: " ++ "tx1"),
    by decide, by decide, by decide⟩

/-- C13, as the code has it: the custody log is append-only.  For every
invocation, in every transaction and on every store, a record that exists under
a key before the call is followed by a record under that key whose log is the
previous log, extended by exactly one event when the call is a mutation
addressed to that key that reached its write (it returned success, or it
failed only on the notification after the write), and the record is unchanged
otherwise; and every value that a call changes is a record with a non-empty
log. -/
theorem custody_log_append_only (stub : Stub) (st : State) (function : String)
    (args : List String) (key : String) (e : Evidence)
    (hrec : lookupKey key st = some (Bytes.json e)) :
    (∃ e1 : Evidence,
      lookupKey key (Invoke stub st function args).state = some (Bytes.json e1) ∧
      ((IsMutation function ∧ Addresses args key ∧
          ReachedWrite (Invoke stub st function args).response) →
        ∃ ev : CustodyEvent, e1.Events = e.Events ++ [ev]) ∧
      (¬ (IsMutation function ∧ Addresses args key ∧
          ReachedWrite (Invoke stub st function args).response) → e1 = e)) ∧
    (∀ (k : String) (b : Bytes), lookupKey k (Invoke stub st function args).state = some b →
      lookupKey k st ≠ some b → ∃ e2 : Evidence, b = Bytes.json e2 ∧ e2.Events ≠ []) := by
  unfold Invoke
  split_ifs with h1 h2 h3 h4 h5 h6 h7 h8
  · have hnm : ¬ IsMutation function := by rw [h1]; unfold IsMutation; decide
    rcases CreateEvidence_outcome stub st args with hn | ⟨c, ev, cid, hash, md, who, org, -, -,
      -, -, -, hfree, -, -, hw⟩
    · exact ⟨unchanged_of_state _ st key e _ hrec hn.1 (fun h => hnm h.1),
        written_nonempty _ st (Or.inl hn.1)⟩
    · refine ⟨⟨e, ?_, fun h => absurd h.1 hnm, fun _ => rfl⟩,
        written_nonempty _ st (Or.inr ⟨_, _, hw.1, by simp [createdEvidence]⟩)⟩
      have hne : key ≠ c ++ ":" ++ ev := by
        intro hk
        rw [hk, hfree] at hrec
        exact absurd hrec (by simp)
      rw [hw.1, lookupKey_insertKey_other _ _ _ _ hne]
      exact hrec
  · refine mutation_append_only stub _ st function args key e hrec (Or.inl h2) ?_
    rcases TransferCustody_outcome stub st args with hn | ⟨c, ev, nc, tr, who, org, e0, hargs, hl,
      -, -, -, hw⟩
    · exact Or.inl hn
    · exact Or.inr ⟨c, ev, _, _, e0, _, hargs, hl, ⟨_, rfl⟩, hw⟩
  · refine mutation_append_only stub _ st function args key e hrec (Or.inr (Or.inl h3)) ?_
    rcases ArchiveToCold_outcome stub st args with hn | ⟨c, ev, r, who, org, e0, hargs, hl, -, -,
      -, hw⟩
    · exact Or.inl hn
    · exact Or.inr ⟨c, ev, _, _, e0, _, hargs, hl, ⟨_, rfl⟩, hw⟩
  · refine mutation_append_only stub _ st function args key e hrec
      (Or.inr (Or.inr (Or.inl h4))) ?_
    rcases ReactivateFromCold_outcome stub st args with hn | ⟨c, ev, r, who, org, e0, hargs, hl,
      -, -, -, hw⟩
    · exact Or.inl hn
    · exact Or.inr ⟨c, ev, _, _, e0, _, hargs, hl, ⟨_, rfl⟩, hw⟩
  · refine mutation_append_only stub _ st function args key e hrec
      (Or.inr (Or.inr (Or.inr h5))) ?_
    rcases InvalidateEvidence_outcome stub st args with hn | ⟨c, ev, r, w, who, org, e0, hargs,
      hl, -, -, hw⟩
    · exact Or.inl hn
    · exact Or.inr ⟨c, ev, _, _, e0, _, hargs, hl, ⟨_, rfl⟩, hw⟩
  · have hnm : ¬ IsMutation function := by
      rintro (h | h | h | h) <;> contradiction
    exact ⟨unchanged_of_state _ st key e _ hrec (GetEvidenceSummary_state stub st args)
        (fun h => hnm h.1),
      written_nonempty _ st (Or.inl (GetEvidenceSummary_state stub st args))⟩
  · have hnm : ¬ IsMutation function := by
      rintro (h | h | h | h) <;> contradiction
    exact ⟨unchanged_of_state _ st key e _ hrec (QueryEvidencesByCase_state stub st args)
        (fun h => hnm h.1),
      written_nonempty _ st (Or.inl (QueryEvidencesByCase_state stub st args))⟩
  · have hnm : ¬ IsMutation function := by
      rintro (h | h | h | h) <;> contradiction
    exact ⟨unchanged_of_state _ st key e _ hrec (GetCustodyChain_state stub st args)
        (fun h => hnm h.1),
      written_nonempty _ st (Or.inl (GetCustodyChain_state stub st args))⟩
  · have hnm : ¬ IsMutation function := by
      rintro (h | h | h | h) <;> contradiction
    exact ⟨unchanged_of_state _ st key e _ hrec rfl (fun h => hnm h.1),
      written_nonempty _ st (Or.inl rfl)⟩

theorem custody_log_append_only_witness :
    ∃ e1 : Evidence,
      lookupKey "C1:E1" (Invoke emitFailStub (sampleState StatusActive) "InvalidateEvidence"
        ["C1", "E1", "tampered", "tx1"]).state = some (Bytes.json e1) ∧
      ((IsMutation "InvalidateEvidence" ∧ Addresses ["C1", "E1", "tampered", "tx1"] "C1:E1" ∧
          ReachedWrite (Invoke emitFailStub (sampleState StatusActive) "InvalidateEvidence"
            ["C1", "E1", "tampered", "tx1"]).response) →
        ∃ ev : CustodyEvent, e1.Events = (sampleRecord StatusActive).Events ++ [ev]) ∧
      (¬ (IsMutation "InvalidateEvidence" ∧ Addresses ["C1", "E1", "tampered", "tx1"] "C1:E1" ∧
          ReachedWrite (Invoke emitFailStub (sampleState StatusActive) "InvalidateEvidence"
            ["C1", "E1", "tampered", "tx1"]).response) → e1 = sampleRecord StatusActive) :=
  (custody_log_append_only emitFailStub (sampleState StatusActive) "InvalidateEvidence"
    ["C1", "E1", "tampered", "tx1"] "C1:E1" (sampleRecord StatusActive) (by decide)).1

/-- C14: immutable fields.  Every successful `TransferCustody`,
`ArchiveToCold`, `ReactivateFromCold` and `InvalidateEvidence` on a record
leaves its `CaseID`, `EvidenceID`, `CID`, `Hash`, `Metadata` and `CreatedAt` as
they were; and `ArchiveToCold`, `ReactivateFromCold` and `InvalidateEvidence`
leave `CurrentOwner` and `OwnerOrgMSP` as they were too, whoever the caller
is. -/
theorem immutable_fields (stub : Stub) (st : State) (caseID evidenceID : String) (e : Evidence)
    (hrec : lookupKey (caseID ++ ":" ++ evidenceID) st = some (Bytes.json e)) :
    (∀ newCustodian transferReason : String,
      (TransferCustody stub st
          [caseID, evidenceID, newCustodian, transferReason]).response.Status = 200 →
      ∃ e1 : Evidence,
        lookupKey (caseID ++ ":" ++ evidenceID)
          (TransferCustody stub st [caseID, evidenceID, newCustodian, transferReason]).state =
            some (Bytes.json e1) ∧
        ImmutableFieldsKept e e1) ∧
    (∀ archiveReason : String,
      (ArchiveToCold stub st [caseID, evidenceID, archiveReason]).response.Status = 200 →
      ∃ e1 : Evidence,
        lookupKey (caseID ++ ":" ++ evidenceID)
          (ArchiveToCold stub st [caseID, evidenceID, archiveReason]).state =
            some (Bytes.json e1) ∧
        (ImmutableFieldsKept e e1 ∧ CustodianKept e e1)) ∧
    (∀ reactivationReason : String,
      (ReactivateFromCold stub st [caseID, evidenceID, reactivationReason]).response.Status
          = 200 →
      ∃ e1 : Evidence,
        lookupKey (caseID ++ ":" ++ evidenceID)
          (ReactivateFromCold stub st [caseID, evidenceID, reactivationReason]).state =
            some (Bytes.json e1) ∧
        (ImmutableFieldsKept e e1 ∧ CustodianKept e e1)) ∧
    (∀ reason wrongTxID : String,
      (InvalidateEvidence stub st [caseID, evidenceID, reason, wrongTxID]).response.Status
          = 200 →
      ∃ e1 : Evidence,
        lookupKey (caseID ++ ":" ++ evidenceID)
          (InvalidateEvidence stub st [caseID, evidenceID, reason, wrongTxID]).state =
            some (Bytes.json e1) ∧
        (ImmutableFieldsKept e e1 ∧ CustodianKept e e1)) := by
  refine ⟨fun nc tr hok => ?_, fun r hok => ?_, fun r hok => ?_, fun r w hok => ?_⟩
  · refine record_of_success ImmutableFieldsKept stub _ st [caseID, evidenceID, nc, tr] caseID
      evidenceID [nc, tr] e rfl hrec hok ?_
    rcases TransferCustody_outcome stub st [caseID, evidenceID, nc, tr] with hn | ⟨c, ev, nc0,
      tr0, who, org, e0, hargs, hl, -, -, -, hw⟩
    · exact Or.inl hn
    · exact Or.inr ⟨c, ev, _, _, e0, transferredEvidence stub e0 nc0 tr0 who org, hargs, hl,
        ⟨rfl, rfl, rfl, rfl, rfl, rfl⟩, hw⟩
  · refine record_of_success (fun a b => ImmutableFieldsKept a b ∧ CustodianKept a b) stub _ st
      [caseID, evidenceID, r] caseID evidenceID [r] e rfl hrec hok ?_
    rcases ArchiveToCold_outcome stub st [caseID, evidenceID, r] with hn | ⟨c, ev, r0, who, org,
      e0, hargs, hl, -, -, -, hw⟩
    · exact Or.inl hn
    · exact Or.inr ⟨c, ev, _, _, e0, archivedEvidence stub e0 r0 who org, hargs, hl,
        ⟨⟨rfl, rfl, rfl, rfl, rfl, rfl⟩, ⟨rfl, rfl⟩⟩, hw⟩
  · refine record_of_success (fun a b => ImmutableFieldsKept a b ∧ CustodianKept a b) stub _ st
      [caseID, evidenceID, r] caseID evidenceID [r] e rfl hrec hok ?_
    rcases ReactivateFromCold_outcome stub st [caseID, evidenceID, r] with hn | ⟨c, ev, r0, who,
      org, e0, hargs, hl, -, -, -, hw⟩
    · exact Or.inl hn
    · exact Or.inr ⟨c, ev, _, _, e0, reactivatedEvidence stub e0 r0 who org, hargs, hl,
        ⟨⟨rfl, rfl, rfl, rfl, rfl, rfl⟩, ⟨rfl, rfl⟩⟩, hw⟩
  · refine record_of_success (fun a b => ImmutableFieldsKept a b ∧ CustodianKept a b) stub _ st
      [caseID, evidenceID, r, w] caseID evidenceID [r, w] e rfl hrec hok ?_
    rcases InvalidateEvidence_outcome stub st [caseID, evidenceID, r, w] with hn | ⟨c, ev, r0, w0,
      who, org, e0, hargs, hl, -, -, hw⟩
    · exact Or.inl hn
    · exact Or.inr ⟨c, ev, _, _, e0, invalidatedEvidence stub e0 r0 w0 who org, hargs, hl,
        ⟨⟨rfl, rfl, rfl, rfl, rfl, rfl⟩, ⟨rfl, rfl⟩⟩, hw⟩

theorem immutable_fields_witness :
    (∃ e1 : Evidence,
      lookupKey ("C1" ++ ":" ++ "E1")
        (TransferCustody carolStub (sampleState StatusActive)
          ["C1", "E1", "bob", "handover"]).state = some (Bytes.json e1) ∧
      ImmutableFieldsKept (sampleRecord StatusActive) e1) ∧
    (∃ e1 : Evidence,
      lookupKey ("C1" ++ ":" ++ "E1")
        (InvalidateEvidence carolStub (sampleState StatusActive)
          ["C1", "E1", "tampered", "tx1"]).state = some (Bytes.json e1) ∧
      (ImmutableFieldsKept (sampleRecord StatusActive) e1 ∧
        CustodianKept (sampleRecord StatusActive) e1)) :=
  ⟨(immutable_fields carolStub (sampleState StatusActive) "C1" "E1" (sampleRecord StatusActive)
      (by decide)).1 "bob" "handover" (by decide),
    (immutable_fields carolStub (sampleState StatusActive) "C1" "E1" (sampleRecord StatusActive)
      (by decide)).2.2.2 "tampered" "tx1" (by decide)⟩

/-- C15 fails on the code: the pairs `("a:b", "c")` and `("a", "b:c")` of
non-empty identifiers differ and have the same storage key `a:b:c`.  After the
creation of `("a:b", "c")` on the empty store, `CreateEvidence` for
`("a", "b:c")` fails with `Evidence already exists`, and `GetEvidenceSummary`
for `("a", "b:c")` succeeds with the record whose `CaseID` is `a:b` and whose
`EvidenceID` is `c`. -/
theorem key_collision_between_pairs :
    (("a:b", "c") : String × String) ≠ ("a", "b:c") ∧
    "a:b" ++ ":" ++ "c" = "a" ++ ":" ++ "b:c" ∧
    (CreateEvidence aliceStub [] ["a:b", "c", "cidA", sampleHash, ""]).response.Status = 200 ∧
    (CreateEvidence carolStub
        (CreateEvidence aliceStub [] ["a:b", "c", "cidA", sampleHash, ""]).state
        ["a", "b:c", "cidB", sampleHash, ""]).response =
      shimError "Evidence already exists: a:b:c" ∧
    (GetEvidenceSummary carolStub
        (CreateEvidence aliceStub [] ["a:b", "c", "cidA", sampleHash, ""]).state
        ["a", "b:c"]).response =
      shimSuccess (Payload.evidence (Bytes.json
        (createdEvidence aliceStub "a:b" "c" "cidA" sampleHash "" "alice" "Org1MSP"))) ∧
    (createdEvidence aliceStub "a:b" "c" "cidA" sampleHash "" "alice" "Org1MSP").CaseID ≠ "a" ∧
    (createdEvidence aliceStub "a:b" "c" "cidA" sampleHash "" "alice" "Org1MSP").EvidenceID
      ≠ "b:c" := by
  refine ⟨by decide, by decide, by decide, by decide, by decide, by decide, by decide⟩

/-- C16: a failed notification does not roll back the write.  For each of the
five mutating functions, when the validation passes, the identity calls and the
write succeed and `SetEvent` fails with `err`, the call returns the error
`Failed to emit event: err` while the store holds the new record under the key
(the created record; or the record with the new custodian, the new status and
the appended event), so the store is not the store before the call. -/
theorem emit_failure_keeps_write (stub : Stub) (st : State) (caseID evidenceID who org err : String)
    (hstub : EmitFails stub who org err) :
    (∀ cid hash metadata : String, caseID ≠ "" → evidenceID ≠ "" → cid ≠ "" → IsHex64 hash →
      lookupKey (caseID ++ ":" ++ evidenceID) st = none →
      (CreateEvidence stub st [caseID, evidenceID, cid, hash, metadata]).response =
          shimError ("Failed to emit event: " ++ err) ∧
        lookupKey (caseID ++ ":" ++ evidenceID)
          (CreateEvidence stub st [caseID, evidenceID, cid, hash, metadata]).state =
            some (Bytes.json
              (createdEvidence stub caseID evidenceID cid hash metadata who org)) ∧
        (CreateEvidence stub st [caseID, evidenceID, cid, hash, metadata]).state ≠ st) ∧
    (∀ e : Evidence, lookupKey (caseID ++ ":" ++ evidenceID) st = some (Bytes.json e) →
      (∀ newCustodian transferReason : String,
        (e.Status = StatusActive ∨ e.Status = StatusReactivated) →
        (TransferCustody stub st [caseID, evidenceID, newCustodian, transferReason]).response =
            shimError ("Failed to emit event: " ++ err) ∧
          lookupKey (caseID ++ ":" ++ evidenceID)
            (TransferCustody stub st [caseID, evidenceID, newCustodian, transferReason]).state =
              some (Bytes.json
                (transferredEvidence stub e newCustodian transferReason who org)) ∧
          (TransferCustody stub st [caseID, evidenceID, newCustodian, transferReason]).state
            ≠ st) ∧
      (∀ archiveReason : String, e.Status = StatusActive →
        (ArchiveToCold stub st [caseID, evidenceID, archiveReason]).response =
            shimError ("Failed to emit event: " ++ err) ∧
          lookupKey (caseID ++ ":" ++ evidenceID)
            (ArchiveToCold stub st [caseID, evidenceID, archiveReason]).state =
              some (Bytes.json (archivedEvidence stub e archiveReason who org)) ∧
          (ArchiveToCold stub st [caseID, evidenceID, archiveReason]).state ≠ st) ∧
      (∀ reactivationReason : String, e.Status = StatusArchived →
        (ReactivateFromCold stub st [caseID, evidenceID, reactivationReason]).response =
            shimError ("Failed to emit event: " ++ err) ∧
          lookupKey (caseID ++ ":" ++ evidenceID)
            (ReactivateFromCold stub st [caseID, evidenceID, reactivationReason]).state =
              some (Bytes.json (reactivatedEvidence stub e reactivationReason who org)) ∧
          (ReactivateFromCold stub st [caseID, evidenceID, reactivationReason]).state ≠ st) ∧
      (∀ reason wrongTxID : String,
        (InvalidateEvidence stub st [caseID, evidenceID, reason, wrongTxID]).response =
            shimError ("Failed to emit event: " ++ err) ∧
          lookupKey (caseID ++ ":" ++ evidenceID)
            (InvalidateEvidence stub st [caseID, evidenceID, reason, wrongTxID]).state =
              some (Bytes.json (invalidatedEvidence stub e reason wrongTxID who org)) ∧
          (InvalidateEvidence stub st [caseID, evidenceID, reason, wrongTxID]).state ≠ st)) := by
  obtain ⟨h1, h2, h3, h4, h5⟩ := hstub
  have hdiff : ∀ (st1 : State) (v : Bytes),
      lookupKey (caseID ++ ":" ++ evidenceID) st ≠ some v →
      st1 = insertKey (caseID ++ ":" ++ evidenceID) v st →
      lookupKey (caseID ++ ":" ++ evidenceID) st1 = some v ∧ st1 ≠ st := by
    intro st1 v hne hst1
    have hl : lookupKey (caseID ++ ":" ++ evidenceID) st1 = some v := by
      rw [hst1]; exact lookupKey_insertKey_same _ _ _
    exact ⟨hl, fun heq => hne (by rw [← heq]; exact hl)⟩
  have hlonger : ∀ (e : Evidence) (ev : CustodyEvent) (e1 : Evidence),
      e1.Events = e.Events ++ [ev] → some (Bytes.json e) ≠ some (Bytes.json e1) := by
    intro e ev e1 hev heq
    injection heq with heq
    injection heq with heq
    rw [← heq] at hev
    have := congrArg List.length hev
    simp at this
  refine ⟨fun cid hash metadata hcase hev hcid hhash hfree => ?_, fun e hrec =>
    ⟨fun nc tr hstatus => ?_, fun r hstatus => ?_, fun r hstatus => ?_, fun r w => ?_⟩⟩
  · obtain ⟨hl, bytes, hb⟩ := (hash_checks_iff hash).2 hhash
    have hne : hash ≠ "" := by
      intro h
      rw [h] at hl
      exact absurd hl (by decide)
    have hstate : (CreateEvidence stub st [caseID, evidenceID, cid, hash, metadata]).state =
        insertKey (caseID ++ ":" ++ evidenceID)
          (Bytes.json (createdEvidence stub caseID evidenceID cid hash metadata who org)) st := by
      simp [CreateEvidence, hcase, hev, hcid, hne, hl, hb, GetState, h3, hfree, h1, getMSPID, h2,
        PutState, key_ne_empty, h4, SetEvent, h5, jsonMarshal, createdEvidence, custodyEvent]
    refine ⟨?_, hdiff _ _ (by rw [hfree]; simp) hstate⟩
    simp [CreateEvidence, hcase, hev, hcid, hne, hl, hb, GetState, h3, hfree, h1, getMSPID, h2,
      PutState, key_ne_empty, h4, SetEvent, h5, jsonMarshal]
  · have hcond : ¬ (e.Status ≠ StatusActive ∧ e.Status ≠ StatusReactivated) := by
      rintro ⟨ha, hb⟩
      rcases hstatus with h | h
      · exact ha h
      · exact hb h
    have hstate : (TransferCustody stub st [caseID, evidenceID, nc, tr]).state =
        insertKey (caseID ++ ":" ++ evidenceID)
          (Bytes.json (transferredEvidence stub e nc tr who org)) st := by
      simp only [TransferCustody, GetState, h3, hrec, jsonUnmarshal, if_neg hcond, getMSPID, h2,
        h1, PutState, key_ne_empty, if_false, h4, SetEvent, h5, jsonMarshal, custodyEvent,
        transferredEvidence]
      simp
    refine ⟨?_, hdiff _ _ (by rw [hrec]; exact hlonger e _ _ rfl) hstate⟩
    simp only [TransferCustody, GetState, h3, hrec, jsonUnmarshal, if_neg hcond, getMSPID, h2,
      h1, PutState, key_ne_empty, if_false, h4, SetEvent, h5, jsonMarshal]
    simp
  · have hcond : ¬ (e.Status ≠ StatusActive) := not_not.2 hstatus
    have hstate : (ArchiveToCold stub st [caseID, evidenceID, r]).state =
        insertKey (caseID ++ ":" ++ evidenceID)
          (Bytes.json (archivedEvidence stub e r who org)) st := by
      simp only [ArchiveToCold, GetState, h3, hrec, jsonUnmarshal, if_neg hcond, getMSPID, h2,
        h1, PutState, key_ne_empty, if_false, h4, SetEvent, h5, jsonMarshal, custodyEvent,
        archivedEvidence]
      simp
    refine ⟨?_, hdiff _ _ (by rw [hrec]; exact hlonger e _ _ rfl) hstate⟩
    simp only [ArchiveToCold, GetState, h3, hrec, jsonUnmarshal, if_neg hcond, getMSPID, h2,
      h1, PutState, key_ne_empty, if_false, h4, SetEvent, h5, jsonMarshal]
    simp
  · have hcond : ¬ (e.Status ≠ StatusArchived) := not_not.2 hstatus
    have hstate : (ReactivateFromCold stub st [caseID, evidenceID, r]).state =
        insertKey (caseID ++ ":" ++ evidenceID)
          (Bytes.json (reactivatedEvidence stub e r who org)) st := by
      simp only [ReactivateFromCold, GetState, h3, hrec, jsonUnmarshal, if_neg hcond, getMSPID,
        h2, h1, PutState, key_ne_empty, if_false, h4, SetEvent, h5, jsonMarshal, custodyEvent,
        reactivatedEvidence]
      simp
    refine ⟨?_, hdiff _ _ (by rw [hrec]; exact hlonger e _ _ rfl) hstate⟩
    simp only [ReactivateFromCold, GetState, h3, hrec, jsonUnmarshal, if_neg hcond, getMSPID, h2,
      h1, PutState, key_ne_empty, if_false, h4, SetEvent, h5, jsonMarshal]
    simp
  · have hstate : (InvalidateEvidence stub st [caseID, evidenceID, r, w]).state =
        insertKey (caseID ++ ":" ++ evidenceID)
          (Bytes.json (invalidatedEvidence stub e r w who org)) st := by
      simp only [InvalidateEvidence, GetState, h3, hrec, jsonUnmarshal, getMSPID, h2,
        h1, PutState, key_ne_empty, if_false, h4, SetEvent, h5, jsonMarshal, custodyEvent,
        invalidatedEvidence]
      simp
    refine ⟨?_, hdiff _ _ (by rw [hrec]; exact hlonger e _ _ rfl) hstate⟩
    simp only [InvalidateEvidence, GetState, h3, hrec, jsonUnmarshal, getMSPID, h2,
      h1, PutState, key_ne_empty, if_false, h4, SetEvent, h5, jsonMarshal]
    simp

theorem emit_failure_keeps_write_witness :
    ((CreateEvidence emitFailStub [] ["C1", "E1", "cidA", sampleHash, ""]).response =
        shimError ("Failed to emit event: " ++ "event hub unavailable") ∧
      lookupKey ("C1" ++ ":" ++ "E1")
        (CreateEvidence emitFailStub [] ["C1", "E1", "cidA", sampleHash, ""]).state =
          some (Bytes.json
            (createdEvidence emitFailStub "C1" "E1" "cidA" sampleHash "" "carol" "Org2MSP")) ∧
      (CreateEvidence emitFailStub [] ["C1", "E1", "cidA", sampleHash, ""]).state ≠ []) ∧
    ((InvalidateEvidence emitFailStub (sampleState StatusActive)
          ["C1", "E1", "tampered", "tx1"]).response =
        shimError ("Failed to emit event: " ++ "event hub unavailable") ∧
      lookupKey ("C1" ++ ":" ++ "E1")
        (InvalidateEvidence emitFailStub (sampleState StatusActive)
          ["C1", "E1", "tampered", "tx1"]).state =
          some (Bytes.json (invalidatedEvidence emitFailStub (sampleRecord StatusActive)
            "tampered" "tx1" "carol" "Org2MSP")) ∧
      (InvalidateEvidence emitFailStub (sampleState StatusActive)
          ["C1", "E1", "tampered", "tx1"]).state ≠ sampleState StatusActive) :=
  ⟨(emit_failure_keeps_write emitFailStub [] "C1" "E1" "carol" "Org2MSP" "event hub unavailable"
      ⟨rfl, rfl, rfl, rfl, rfl⟩).1 "cidA" sampleHash "" (by decide) (by decide) (by decide)
      (by decide) rfl,
    ((emit_failure_keeps_write emitFailStub (sampleState StatusActive) "C1" "E1" "carol"
      "Org2MSP" "event hub unavailable" ⟨rfl, rfl, rfl, rfl, rfl⟩).2
      (sampleRecord StatusActive) (by decide)).2.2.2 "tampered" "tx1"⟩

/-- C17 fails on the code: two executions of the same `CreateEvidence` on the
empty store in the same transaction context (same creator, organization,
transaction id and transaction timestamp), by peers whose clocks read
`00:00:05` and `00:00:07`, both succeed and write different records; the
`CreatedAt` and `UpdatedAt` of the first and the timestamp of its `CREATE`
event are the clock reading `00:00:05`, not the timestamp of the transaction. -/
theorem timestamps_differ_between_executions :
    (CreateEvidence (execStub aliceTx "2024-01-01T00:00:05Z") []
        ["C1", "E1", "cidA", sampleHash, ""]).response.Status = 200 ∧
    (CreateEvidence (execStub aliceTx "2024-01-01T00:00:07Z") []
        ["C1", "E1", "cidA", sampleHash, ""]).response.Status = 200 ∧
    (CreateEvidence (execStub aliceTx "2024-01-01T00:00:05Z") []
        ["C1", "E1", "cidA", sampleHash, ""]).state ≠
      (CreateEvidence (execStub aliceTx "2024-01-01T00:00:07Z") []
        ["C1", "E1", "cidA", sampleHash, ""]).state ∧
    (CreateEvidence (execStub aliceTx "2024-01-01T00:00:05Z") []
        ["C1", "E1", "cidA", sampleHash, ""]).state =
      [("C1:E1", Bytes.json
        { CaseID := "C1", EvidenceID := "E1", CID := "cidA", Hash := sampleHash, Metadata := "",
          Status := StatusActive,
          Events := [{ Timestamp := "2024-01-01T00:00:05Z", EventType := "CREATE",
                       Actor := "alice", OrgMSP := "Org1MSP",
                       Description := "Evidence created and registered", TxID := "tx1" }],
          CreatedAt := "2024-01-01T00:00:05Z", UpdatedAt := "2024-01-01T00:00:05Z",
          CurrentOwner := "alice", OwnerOrgMSP := "Org1MSP" })] ∧
    aliceTx.Timestamp ≠ "2024-01-01T00:00:05Z" := by
  refine ⟨by decide, by decide, by decide, by decide, by decide⟩

/-- C17, as the code has it: after every successful mutating call the
`UpdatedAt` of the stored record and the timestamp of the event that the call
appended are both the clock reading `time.Now()` of the execution (and
`CreatedAt` as well after `CreateEvidence`), so that two executions of the same
call on the same store in the same transaction context write the same record
when their clocks read the same. -/
theorem timestamps_are_clock_readings (stub : Stub) (st : State) (caseID evidenceID : String) :
    (∀ cid hash metadata : String,
      (CreateEvidence stub st [caseID, evidenceID, cid, hash, metadata]).response.Status = 200 →
      ∃ (e1 : Evidence) (ev : CustodyEvent),
        lookupKey (caseID ++ ":" ++ evidenceID)
          (CreateEvidence stub st [caseID, evidenceID, cid, hash, metadata]).state =
            some (Bytes.json e1) ∧
        e1.CreatedAt = stub.Now ∧ e1.UpdatedAt = stub.Now ∧ e1.Events = [ev] ∧
        ev.Timestamp = stub.Now) ∧
    (∀ e : Evidence, lookupKey (caseID ++ ":" ++ evidenceID) st = some (Bytes.json e) →
      (∀ newCustodian transferReason : String,
        (TransferCustody stub st
            [caseID, evidenceID, newCustodian, transferReason]).response.Status = 200 →
        ∃ e1 : Evidence,
          lookupKey (caseID ++ ":" ++ evidenceID)
            (TransferCustody stub st [caseID, evidenceID, newCustodian, transferReason]).state =
              some (Bytes.json e1) ∧
          (e1.UpdatedAt = stub.Now ∧
            ∃ ev : CustodyEvent, e1.Events = e.Events ++ [ev] ∧ ev.Timestamp = stub.Now)) ∧
      (∀ archiveReason : String,
        (ArchiveToCold stub st [caseID, evidenceID, archiveReason]).response.Status = 200 →
        ∃ e1 : Evidence,
          lookupKey (caseID ++ ":" ++ evidenceID)
            (ArchiveToCold stub st [caseID, evidenceID, archiveReason]).state =
              some (Bytes.json e1) ∧
          (e1.UpdatedAt = stub.Now ∧
            ∃ ev : CustodyEvent, e1.Events = e.Events ++ [ev] ∧ ev.Timestamp = stub.Now)) ∧
      (∀ reactivationReason : String,
        (ReactivateFromCold stub st
            [caseID, evidenceID, reactivationReason]).response.Status = 200 →
        ∃ e1 : Evidence,
          lookupKey (caseID ++ ":" ++ evidenceID)
            (ReactivateFromCold stub st [caseID, evidenceID, reactivationReason]).state =
              some (Bytes.json e1) ∧
          (e1.UpdatedAt = stub.Now ∧
            ∃ ev : CustodyEvent, e1.Events = e.Events ++ [ev] ∧ ev.Timestamp = stub.Now)) ∧
      (∀ reason wrongTxID : String,
        (InvalidateEvidence stub st
            [caseID, evidenceID, reason, wrongTxID]).response.Status = 200 →
        ∃ e1 : Evidence,
          lookupKey (caseID ++ ":" ++ evidenceID)
            (InvalidateEvidence stub st [caseID, evidenceID, reason, wrongTxID]).state =
              some (Bytes.json e1) ∧
          (e1.UpdatedAt = stub.Now ∧
            ∃ ev : CustodyEvent, e1.Events = e.Events ++ [ev] ∧ ev.Timestamp = stub.Now))) ∧
    (∀ (tx : TxContext) (now1 now2 function : String) (args : List String), now1 = now2 →
      Invoke (execStub tx now1) st function args = Invoke (execStub tx now2) st function args) := by
  refine ⟨fun cid hash md hok => ?_, fun e hrec =>
    ⟨fun nc tr hok => ?_, fun r hok => ?_, fun r hok => ?_, fun r w hok => ?_⟩,
    fun tx now1 now2 function args h => by rw [h]⟩
  · rcases CreateEvidence_outcome stub st [caseID, evidenceID, cid, hash, md] with hn | ⟨c, ev,
      cid0, hash0, md0, who, org, hargs, -, -, -, -, -, -, -, hw⟩
    · rw [hn.2.2.1] at hok
      exact absurd hok (by decide)
    · injection hargs with h1 h2
      injection h2 with h2 h3
      subst h1 h2
      exact ⟨_, _, by rw [hw.1]; exact lookupKey_insertKey_same _ _ _, rfl, rfl, rfl, rfl⟩
  · refine record_of_success (fun a b => b.UpdatedAt = stub.Now ∧
      ∃ ev : CustodyEvent, b.Events = a.Events ++ [ev] ∧ ev.Timestamp = stub.Now) stub _ st
      [caseID, evidenceID, nc, tr] caseID evidenceID [nc, tr] e rfl hrec hok ?_
    rcases TransferCustody_outcome stub st [caseID, evidenceID, nc, tr] with hn | ⟨c, ev, nc0,
      tr0, who, org, e0, hargs, hl, -, -, -, hw⟩
    · exact Or.inl hn
    · exact Or.inr ⟨c, ev, _, _, e0, transferredEvidence stub e0 nc0 tr0 who org, hargs, hl,
        ⟨rfl, _, rfl, rfl⟩, hw⟩
  · refine record_of_success (fun a b => b.UpdatedAt = stub.Now ∧
      ∃ ev : CustodyEvent, b.Events = a.Events ++ [ev] ∧ ev.Timestamp = stub.Now) stub _ st
      [caseID, evidenceID, r] caseID evidenceID [r] e rfl hrec hok ?_
    rcases ArchiveToCold_outcome stub st [caseID, evidenceID, r] with hn | ⟨c, ev, r0, who, org,
      e0, hargs, hl, -, -, -, hw⟩
    · exact Or.inl hn
    · exact Or.inr ⟨c, ev, _, _, e0, archivedEvidence stub e0 r0 who org, hargs, hl,
        ⟨rfl, _, rfl, rfl⟩, hw⟩
  · refine record_of_success (fun a b => b.UpdatedAt = stub.Now ∧
      ∃ ev : CustodyEvent, b.Events = a.Events ++ [ev] ∧ ev.Timestamp = stub.Now) stub _ st
      [caseID, evidenceID, r] caseID evidenceID [r] e rfl hrec hok ?_
    rcases ReactivateFromCold_outcome stub st [caseID, evidenceID, r] with hn | ⟨c, ev, r0, who,
      org, e0, hargs, hl, -, -, -, hw⟩
    · exact Or.inl hn
    · exact Or.inr ⟨c, ev, _, _, e0, reactivatedEvidence stub e0 r0 who org, hargs, hl,
        ⟨rfl, _, rfl, rfl⟩, hw⟩
  · refine record_of_success (fun a b => b.UpdatedAt = stub.Now ∧
      ∃ ev : CustodyEvent, b.Events = a.Events ++ [ev] ∧ ev.Timestamp = stub.Now) stub _ st
      [caseID, evidenceID, r, w] caseID evidenceID [r, w] e rfl hrec hok ?_
    rcases InvalidateEvidence_outcome stub st [caseID, evidenceID, r, w] with hn | ⟨c, ev, r0, w0,
      who, org, e0, hargs, hl, -, -, hw⟩
    · exact Or.inl hn
    · exact Or.inr ⟨c, ev, _, _, e0, invalidatedEvidence stub e0 r0 w0 who org, hargs, hl,
        ⟨rfl, _, rfl, rfl⟩, hw⟩

theorem timestamps_are_clock_readings_witness :
    (∃ (e1 : Evidence) (ev : CustodyEvent),
      lookupKey ("C1" ++ ":" ++ "E1")
        (CreateEvidence (execStub aliceTx "2024-01-01T00:00:05Z") []
          ["C1", "E1", "cidA", sampleHash, ""]).state = some (Bytes.json e1) ∧
      e1.CreatedAt = (execStub aliceTx "2024-01-01T00:00:05Z").Now ∧
      e1.UpdatedAt = (execStub aliceTx "2024-01-01T00:00:05Z").Now ∧ e1.Events = [ev] ∧
      ev.Timestamp = (execStub aliceTx "2024-01-01T00:00:05Z").Now) ∧
    (∃ e1 : Evidence,
      lookupKey ("C1" ++ ":" ++ "E1")
        (ArchiveToCold (execStub aliceTx "2024-01-01T00:00:07Z") (sampleState StatusActive)
          ["C1", "E1", "cold"]).state = some (Bytes.json e1) ∧
      (e1.UpdatedAt = (execStub aliceTx "2024-01-01T00:00:07Z").Now ∧
        ∃ ev : CustodyEvent, e1.Events = (sampleRecord StatusActive).Events ++ [ev] ∧
          ev.Timestamp = (execStub aliceTx "2024-01-01T00:00:07Z").Now)) :=
  ⟨(timestamps_are_clock_readings (execStub aliceTx "2024-01-01T00:00:05Z") [] "C1" "E1").1
      "cidA" sampleHash "" (by decide),
    ((timestamps_are_clock_readings (execStub aliceTx "2024-01-01T00:00:07Z")
      (sampleState StatusActive) "C1" "E1").2.1 (sampleRecord StatusActive) (by decide)).2.1
      "cold" (by decide)⟩

/-- C18 fails on the code: carol transfers the record `C1:E1`, whose current
custodian is alice, to bob; the call succeeds, and the description of the
appended `TRANSFER` event is `Custody transferred to bob. Reason: handover`,
in which the old custodian alice does not occur. -/
theorem transfer_description_omits_old_custodian :
    (sampleRecord StatusActive).CurrentOwner = "alice" ∧
    (TransferCustody carolStub (sampleState StatusActive)
        ["C1", "E1", "bob", "handover"]).response.Status = 200 ∧
    lookupKey "C1:E1" (TransferCustody carolStub (sampleState StatusActive)
        ["C1", "E1", "bob", "handover"]).state =
      some (Bytes.json { sampleRecord StatusActive with
        CurrentOwner := "bob"
        OwnerOrgMSP := "Org2MSP"
        UpdatedAt := "2024-01-02T00:00:00Z"
        Events := (sampleRecord StatusActive).Events ++
          [{ Timestamp := "2024-01-02T00:00:00Z", EventType := "TRANSFER", Actor := "carol",
             OrgMSP := "Org2MSP",
             Description := "Custody transferred to bob. Reason: handover", TxID := "tx2" }] }) ∧
    ¬ Mentions "Custody transferred to bob. Reason: handover" "alice" :=
  ⟨by decide, by decide, by decide, fun h =>
    absurd (occurs_of_mentions _ _ h) (by decide)⟩

/-- C18, as the code has it: every successful `TransferCustody` on a record
appends one `TRANSFER` event whose description is
`Custody transferred to <newCustodian>. Reason: <transferReason>`; the new
custodian and the reason both occur in it, and the old custodian is not part of
the text that the code builds. -/
theorem transfer_description_names_new_custodian_and_reason (stub : Stub) (st : State)
    (caseID evidenceID newCustodian transferReason : String) (e : Evidence)
    (hrec : lookupKey (caseID ++ ":" ++ evidenceID) st = some (Bytes.json e))
    (hok : (TransferCustody stub st
      [caseID, evidenceID, newCustodian, transferReason]).response.Status = 200) :
    ∃ (e1 : Evidence) (ev : CustodyEvent),
      lookupKey (caseID ++ ":" ++ evidenceID)
        (TransferCustody stub st [caseID, evidenceID, newCustodian, transferReason]).state =
          some (Bytes.json e1) ∧
      e1.Events = e.Events ++ [ev] ∧ ev.EventType = "TRANSFER" ∧
      ev.Description = "Custody transferred to " ++ newCustodian ++ ". Reason: " ++ transferReason ∧
      Mentions ev.Description newCustodian ∧ Mentions ev.Description transferReason := by
  have h := record_of_success
    (fun a b => ∃ ev : CustodyEvent, b.Events = a.Events ++ [ev] ∧ ev.EventType = "TRANSFER" ∧
      ev.Description =
        "Custody transferred to " ++ newCustodian ++ ". Reason: " ++ transferReason)
    stub _ st [caseID, evidenceID, newCustodian, transferReason] caseID evidenceID
    [newCustodian, transferReason] e rfl hrec hok (by
      rcases TransferCustody_outcome stub st [caseID, evidenceID, newCustodian, transferReason]
        with hn | ⟨c, ev, nc0, tr0, who, org, e0, hargs, hl, -, -, -, hw⟩
      · exact Or.inl hn
      · have hnc : newCustodian = nc0 := by
          injection hargs with _ h2
          injection h2 with _ h3
          injection h3
        have htr : transferReason = tr0 := by
          injection hargs with _ h2
          injection h2 with _ h3
          injection h3 with _ h4
          injection h4
        subst hnc htr
        exact Or.inr ⟨c, ev, _, _, e0, transferredEvidence stub e0 newCustodian transferReason
          who org, hargs, hl, ⟨_, rfl, rfl, rfl⟩, hw⟩)
  obtain ⟨e1, hl, ev, hev, hty, hdesc⟩ := h
  refine ⟨e1, ev, hl, hev, hty, hdesc, ?_, ?_⟩
  · rw [hdesc]
    exact ⟨"Custody transferred to ", ". Reason: " ++ transferReason, by
      simp [String.append_assoc]⟩
  · rw [hdesc]
    exact ⟨"Custody transferred to " ++ newCustodian ++ ". Reason: ", "", by simp⟩

theorem transfer_description_names_new_custodian_and_reason_witness :
    ∃ (e1 : Evidence) (ev : CustodyEvent),
      lookupKey ("C1" ++ ":" ++ "E1")
        (TransferCustody carolStub (sampleState StatusActive)
          ["C1", "E1", "bob", "handover"]).state = some (Bytes.json e1) ∧
      e1.Events = (sampleRecord StatusActive).Events ++ [ev] ∧ ev.EventType = "TRANSFER" ∧
      ev.Description = "Custody transferred to " ++ "bob" ++ ". Reason: " ++ "handover" ∧
      Mentions ev.Description "bob" ∧ Mentions ev.Description "handover" :=
  transfer_description_names_new_custodian_and_reason carolStub (sampleState StatusActive)
    "C1" "E1" "bob" "handover" (sampleRecord StatusActive) (by decide) (by decide)

/-- C19: frame over the store.  Each of the five mutating functions, called
with `caseID` and `evidenceID` as first arguments, leaves the value under every
key other than `caseID:evidenceID` as it was; `GetEvidenceSummary`,
`QueryEvidencesByCase` and `GetCustodyChain` leave the whole store as it was on
every argument list; and `GetEvidenceSummary`, when `GetState` does not fail,
returns exactly the bytes stored under the key, or fails with
`Evidence not found: ...` when the key holds nothing. -/
theorem frame_over_store (stub : Stub) (st : State) (caseID evidenceID other : String)
    (rest : List String) (hother : other ≠ caseID ++ ":" ++ evidenceID) :
    (lookupKey other (CreateEvidence stub st (caseID :: evidenceID :: rest)).state =
        lookupKey other st ∧
      lookupKey other (TransferCustody stub st (caseID :: evidenceID :: rest)).state =
        lookupKey other st ∧
      lookupKey other (ArchiveToCold stub st (caseID :: evidenceID :: rest)).state =
        lookupKey other st ∧
      lookupKey other (ReactivateFromCold stub st (caseID :: evidenceID :: rest)).state =
        lookupKey other st ∧
      lookupKey other (InvalidateEvidence stub st (caseID :: evidenceID :: rest)).state =
        lookupKey other st) ∧
    (∀ args : List String,
      (GetEvidenceSummary stub st args).state = st ∧
      (QueryEvidencesByCase stub st args).state = st ∧
      (GetCustodyChain stub st args).state = st) ∧
    (stub.GetStateErr = none →
      (∀ b : Bytes, lookupKey (caseID ++ ":" ++ evidenceID) st = some b →
        (GetEvidenceSummary stub st [caseID, evidenceID]).response =
          shimSuccess (Payload.evidence b)) ∧
      (lookupKey (caseID ++ ":" ++ evidenceID) st = none →
        (GetEvidenceSummary stub st [caseID, evidenceID]).response =
          shimError ("Evidence not found: " ++ (caseID ++ ":" ++ evidenceID)))) := by
  refine ⟨⟨?_, ?_, ?_, ?_, ?_⟩, fun args => ⟨GetEvidenceSummary_state stub st args,
    QueryEvidencesByCase_state stub st args, GetCustodyChain_state stub st args⟩,
    fun hget => ⟨fun b hb => ?_, fun hnone => ?_⟩⟩
  · apply frame_of_effect _ st caseID evidenceID other rest hother
    rcases CreateEvidence_effect stub st (caseID :: evidenceID :: rest) with h | ⟨c, ev, cid,
      hash, md, who, org, hargs, -, -, -, -, -, -, -, h⟩
    · exact Or.inl h
    · exact Or.inr ⟨c, ev, _, _, hargs, h⟩
  · apply frame_of_effect _ st caseID evidenceID other rest hother
    rcases TransferCustody_effect stub st (caseID :: evidenceID :: rest) with h | ⟨c, ev, nc, tr,
      who, org, e, hargs, -, -, -, -, h⟩
    · exact Or.inl h
    · exact Or.inr ⟨c, ev, _, _, hargs, h⟩
  · apply frame_of_effect _ st caseID evidenceID other rest hother
    rcases ArchiveToCold_effect stub st (caseID :: evidenceID :: rest) with h | ⟨c, ev, r, who,
      org, e, hargs, -, -, -, -, h⟩
    · exact Or.inl h
    · exact Or.inr ⟨c, ev, _, _, hargs, h⟩
  · apply frame_of_effect _ st caseID evidenceID other rest hother
    rcases ReactivateFromCold_effect stub st (caseID :: evidenceID :: rest) with h | ⟨c, ev, r,
      who, org, e, hargs, -, -, -, -, h⟩
    · exact Or.inl h
    · exact Or.inr ⟨c, ev, _, _, hargs, h⟩
  · apply frame_of_effect _ st caseID evidenceID other rest hother
    rcases InvalidateEvidence_effect stub st (caseID :: evidenceID :: rest) with h | ⟨c, ev, r, w,
      who, org, e, hargs, -, -, -, h⟩
    · exact Or.inl h
    · exact Or.inr ⟨c, ev, _, _, hargs, h⟩
  · rw [GetEvidenceSummary_record stub st caseID evidenceID b hb hget]
  · simp only [GetEvidenceSummary, GetState, hget, hnone]

theorem frame_over_store_witness :
    lookupKey "C1:E1" (CreateEvidence carolStub (sampleState StatusActive)
        ["C2", "E1", "cidC", sampleHash, ""]).state = lookupKey "C1:E1" (sampleState StatusActive) ∧
    lookupKey "C1:E1" (InvalidateEvidence carolStub
        (CreateEvidence carolStub (sampleState StatusActive)
          ["C2", "E1", "cidC", sampleHash, ""]).state ["C2", "E1", "tampered", "tx1"]).state =
      lookupKey "C1:E1" (CreateEvidence carolStub (sampleState StatusActive)
        ["C2", "E1", "cidC", sampleHash, ""]).state ∧
    (GetEvidenceSummary carolStub (sampleState StatusActive) ["C2", "E1"]).response =
      shimError ("Evidence not found: " ++ ("C2" ++ ":" ++ "E1")) :=
  ⟨(frame_over_store carolStub (sampleState StatusActive) "C2" "E1" "C1:E1"
      ["cidC", sampleHash, ""] (by decide)).1.1,
    (frame_over_store carolStub (CreateEvidence carolStub (sampleState StatusActive)
        ["C2", "E1", "cidC", sampleHash, ""]).state "C2" "E1" "C1:E1"
      ["tampered", "tx1"] (by decide)).1.2.2.2.2,
    ((frame_over_store carolStub (sampleState StatusActive) "C2" "E1" "C1:E1"
      [] (by decide)).2.2 rfl).2 (by decide)⟩

/-- C20: the shape of every reachable custody log.  For every record of a store
reached from the empty store by any sequence of invocations (any functions,
arguments and transactions), the first event of its log is a `CREATE` and no
later event is; the log holds at most one `ARCHIVE` and at most one
`REACTIVATE` event; an `ARCHIVE` event comes before every `REACTIVATE` event;
and the status is `INVALIDATED` if and only if the log holds an `INVALIDATE`
event. -/
theorem reachable_log_shape (calls : List (Stub × String × List String)) (key : String)
    (e : Evidence) (hrec : lookupKey key (invokeAll [] calls) = some (Bytes.json e)) :
    LogShape e :=
  logShape_of_wellFormed e
    (invokeAll_wellFormed calls [] (fun _ _ h => absurd h (by simp [lookupKey])) key e hrec)

theorem reachable_log_shape_witness : LogShape exampleRecord :=
  reachable_log_shape exampleCalls "C1:E1" exampleRecord (by decide)

/-- C21: `ComputeHash` is compatible with the validator of `CreateEvidence`.
For every byte sequence `data` the digest has 32 bytes and `ComputeHash data`
is a string of exactly 64 characters, each of them a lowercase hexadecimal
digit; it passes both hash checks of `CreateEvidence` (its `len` is 64 and
`hex.DecodeString` accepts it, giving back the digest), so that a creation with
it as hash, non-empty identifiers, a free key and no failing shim call
succeeds; and equal inputs give equal outputs. -/
theorem computeHash_passes_validation (data : List Nat) :
    (sha256Sum256 data).length = 32 ∧
    (ComputeHash data).length = 64 ∧
    (∀ c ∈ (ComputeHash data).data, IsLowerHexChar c) ∧
    len (ComputeHash data) = 64 ∧
    hexDecodeString (ComputeHash data) = Except.ok (sha256Sum256 data) ∧
    (∀ (stub : Stub) (st : State) (caseID evidenceID cid metadata who org : String),
      caseID ≠ "" → evidenceID ≠ "" → cid ≠ "" →
      lookupKey (caseID ++ ":" ++ evidenceID) st = none → Healthy stub who org →
      (CreateEvidence stub st [caseID, evidenceID, cid, ComputeHash data, metadata]).response =
        shimSuccess (Payload.evidence (Bytes.json
          (createdEvidence stub caseID evidenceID cid (ComputeHash data) metadata who org)))) ∧
    (∀ other : List Nat, other = data → ComputeHash other = ComputeHash data) := by
  have hhex : IsHex64 (ComputeHash data) := computeHash_isHex64 data
  refine ⟨sha256Sum256_length data, hhex.1, hexEncodeToString_lower _,
    ((hash_checks_iff _).2 hhex).1,
    hexDecode_hexEncodeToString _ (sha256Sum256_bytes data), ?_, fun other h => by rw [h]⟩
  intro stub st caseID evidenceID cid metadata who org hcase hev hcid hfree hstub
  rw [CreateEvidence_ok stub st caseID evidenceID cid (ComputeHash data) metadata who org hcase
    hev hcid hhex hfree hstub]

theorem computeHash_passes_validation_witness :
    ComputeHash abcBytes = "ba7816bf8f01cfea414140de5dae2223b00361a396177a9cb410ff61f20015ad" ∧
    (ComputeHash abcBytes).length = 64 ∧
    len (ComputeHash abcBytes) = 64 ∧
    hexDecodeString (ComputeHash abcBytes) = Except.ok (sha256Sum256 abcBytes) ∧
    (CreateEvidence aliceStub [] ["C1", "E1", "cidA", ComputeHash abcBytes, ""]).response =
      shimSuccess (Payload.evidence (Bytes.json
        (createdEvidence aliceStub "C1" "E1" "cidA" (ComputeHash abcBytes) "" "alice"
          "Org1MSP"))) :=
  ⟨by decide, (computeHash_passes_validation abcBytes).2.1,
    (computeHash_passes_validation abcBytes).2.2.2.1,
    (computeHash_passes_validation abcBytes).2.2.2.2.1,
    (computeHash_passes_validation abcBytes).2.2.2.2.2.1 aliceStub [] "C1" "E1" "cidA" "" "alice"
      "Org1MSP" (by decide) (by decide) (by decide) rfl ⟨rfl, rfl, rfl, rfl, rfl⟩⟩

end EvidenceChaincode
